import Mathlib

/-!
# scomms: session protocol engine, trust store, spool and listeners

A shallow embedding of `core/net.go`, `core/trust.go` and the orchestrator of
`core/main.go`.

* Go pointers that the code compares with `nil`, stores in a session slot or
  dereferences are `Option` values; dereferencing `none` is the outcome
  `Res.panic`.
* A Go `error` result is `Res.err msg`; `nil` is `Res.ok`.
* Everything the code consumes from outside the repository (package `mcrypt`,
  `encoding/json`, the websocket connection, the key-value store, the clock) is
  a parameter: the record `Ext` of library functions over an abstract type `B`
  of serialized bytes and an abstract type `M` of ciphertext envelopes, the
  scripted connection `Conn`, and explicit `now` / `newId` arguments.
* The key-value store is a finite map: `Get` fails exactly on an absent key
  and `Put` cannot fail. The lock of the store is not modelled; every operation
  is atomic.
* A `func()` value is the data of its closure (`Callback`); a pointer to a
  client is an index into `Core.clients`; what the orchestrator sends to the UI
  and which `func()` values it calls is recorded in `Core.events`.
* The file system is the explicit state `Disk`: a path is resolved element by
  element from the root or from the working directory, without symbolic links
  and without permissions, and the names `ioutil.TempFile` draws are scripted.
* The functions of packages `net`, `crypto/tls` and `runtime` that
  `parseListeners` and `NewServer` call are the parameter record `Net`.
* The receive loop of `ServerCallback` runs on fuel; it is shown to return
  with one round more than the connection has frames to deliver.
-/

namespace Scomms

/-! ## Data of package `mcrypt` and of `net.go`, `trust.go` -/

/-- Public-key bytes (`PublicIdentity.Key`). -/
abbrev PubKey := List Nat

/-- Timestamps (`time.Time`); `0` is the zero value of the type. -/
abbrev Time := Int

/-- The long-term or ephemeral public half (`mcrypt.PublicIdentity`). -/
structure PublicIdentity where
  Name : String
  Address : String
  Key : PubKey
  Signature : List Nat
  Identifiers : List (String × List Nat)
deriving DecidableEq, Repr, Inhabited

/-- A keypair (`mcrypt.Identity`): the public identity and the private key. -/
structure Identity where
  PublicIdentity : PublicIdentity
  PrivateKey : List Nat
deriving DecidableEq, Repr, Inhabited

/-- Session parameters (`Confirmation` in `net.go`). -/
structure Confirmation where
  LookingFor : String
  MaxFrameSize : Int
  Error : String
  State : Int
deriving DecidableEq, Repr, Inhabited

/-- The `sendfile` payload (`RpcSendFile` in `net.go`). -/
structure RpcSendFile where
  Filename : String
  Mime : String
  Content : List Nat
deriving DecidableEq, Repr, Inhabited

/-- A dynamically typed value (`interface{}`) as `RpcSend` receives it and
`RpcReceive` returns it: a possibly nil pointer of one of the three command
types, or a value of any other dynamic type (named for `%T`). -/
inductive Payload where
  | publicIdentity (p : Option PublicIdentity)
  | confirmation (c : Option Confirmation)
  | sendFile (f : Option RpcSendFile)
  | other (typeName : String)
deriving DecidableEq, Repr, Inhabited

/-- The two-field RPC document (`Rpc` in `net.go`). -/
structure Rpc where
  Command : String
  Payload : Payload
deriving DecidableEq, Repr, Inhabited

/-- One stored trust decision (`TrustRecord` in `trust.go`). -/
structure TrustRecord where
  PublicIdentity : Option PublicIdentity
  Inserted : Time
  LastUpdate : Time
  State : Int
  FreeToUse : Option (List (String × String))
deriving DecidableEq, Repr, Inhabited

/-- The outcome of a call: normal return without error, return of a Go
`error`, or a run-time panic (nil dereference). -/
inductive Res (α : Type) where
  | ok (a : α)
  | err (msg : String)
  | panic
deriving DecidableEq, Repr

/-- A library call that returns `(value, error)`. -/
inductive Lib (α : Type) where
  | ok (a : α)
  | error (msg : String)
deriving DecidableEq, Repr

def phaseStartOfDay : Int := 0
def phaseSession : Int := 10
def phaseIdentity : Int := 20
def phaseConfirmation : Int := 30
def phaseMessage : Int := 40

def RpcIdentity : String := "identity"
def RpcConfirmation : String := "confirmation"
def RpcSendFileCommand : String := "sendfile"

def StateInvalid : Int := 0
def StateQueued : Int := 1
def StateDenied : Int := 2
def StateAllowed : Int := 100

/-- The library functions the code calls, over serialized bytes `B` and
ciphertext envelopes `M` (`mcrypt.Message`). Nothing is assumed about them
except where a theorem states a hypothesis. -/
structure Ext (B M : Type) where
  /-- The call `json.Marshal(rpc)`. -/
  marshalRpc : Rpc → Lib B
  /-- The call `json.Unmarshal(j, &objmap)` into `map[string]json.RawMessage`. -/
  unmarshalObjmap : B → Lib (List (String × B))
  /-- The call `json.Unmarshal(raw, &command)` into a `string`, for non-empty `raw`. -/
  unmarshalString : B → Lib String
  /-- The call `json.Unmarshal(raw, &ri)` into a zero `mcrypt.PublicIdentity`. -/
  unmarshalPublicIdentity : B → Lib PublicIdentity
  /-- The call `json.Unmarshal(raw, &c)` into a zero `Confirmation`. -/
  unmarshalConfirmation : B → Lib Confirmation
  /-- The call `json.Unmarshal(raw, &rsf)` into a zero `RpcSendFile`. -/
  unmarshalRpcSendFile : B → Lib RpcSendFile
  /-- The call `id.Encrypt(recipientKey, bytes)`. -/
  encrypt : Identity → PubKey → B → Lib M
  /-- The call `id.Decrypt(senderKey, msg)`. -/
  decrypt : Identity → PubKey → M → Lib B
  /-- The JSON text `conn.WriteJSON(msg)` puts in a frame. -/
  frameOfMessage : M → Lib B
  /-- The decoding `conn.ReadJSON(msg)` applies to a received frame. -/
  messageOfFrame : B → Lib M
  /-- The JSON text `conn.WriteJSON(publicIdentity)` puts in a frame. -/
  frameOfPublicIdentity : PublicIdentity → Lib B
  /-- The decoding `conn.ReadJSON(&s.speer)` applies to a received frame,
  given the old pointer: the new pointer and the error. -/
  publicIdentityOfFrame : B → Option PublicIdentity → Option PublicIdentity × Option String
  /-- The call `json.Marshal(tr)`. -/
  marshalTrustRecord : TrustRecord → Lib B
  /-- The call `json.Unmarshal(ct, &tr)` into a zero `TrustRecord`. -/
  unmarshalTrustRecord : B → Lib TrustRecord
  /-- The call `msg.Marshal()`. -/
  messageMarshal : M → Lib B
  /-- The call `mcrypt.UnmarshalMessage(dbPayload)`. -/
  unmarshalMessage : B → Lib M
  /-- The call `pid.Fingerprint()`. -/
  fingerprint : PublicIdentity → String

/-- The call `json.Unmarshal` on a map entry: a key that is not in the map yields the
empty `RawMessage`, on which `json.Unmarshal` reports a syntax error. -/
def jsonUnmarshal {B α : Type} (dec : B → Lib α) : Option B → Lib α
  | none => .error "unexpected end of JSON input"
  | some raw => dec raw

/-! ## The trust store (`trust.go`) -/

/-- Lexicographic order on key bytes, the iteration order of the store. -/
def keyLt : PubKey → PubKey → Bool
  | [], [] => false
  | [], _ :: _ => true
  | _ :: _, [] => false
  | a :: as, b :: bs => a < b || (a == b && keyLt as bs)

/-- The key-value store as a key-ordered association list. -/
abbrev Db (B : Type) := List (PubKey × B)

/-- The call `db.Get(key, nil)`: fails exactly when the key is absent. -/
def dbGet {B : Type} (key : PubKey) : Db B → Lib B
  | [] => .error "leveldb: not found"
  | (k, v) :: rest => if k = key then .ok v else dbGet key rest

/-- The call `db.Put(key, value, nil)`: insert or replace. -/
def dbPut {B : Type} (key : PubKey) (value : B) : Db B → Db B
  | [] => [(key, value)]
  | (k, v) :: rest =>
    if k = key then (key, value) :: rest
    else if keyLt key k then (key, value) :: (k, v) :: rest
    else (k, v) :: dbPut key value rest

/-- The keys of the store are strictly ascending in iteration order; the
empty store is, and `dbPut` keeps it so. -/
def Db.ordered {B : Type} (db : Db B) : Prop :=
  db.Pairwise (fun a b => keyLt a.1 b.1 = true)

/-- The store handle (`Trust`); the mutex is not modelled, every operation
is one atomic step. -/
structure Trust (B : Type) where
  db : Db B
deriving DecidableEq, Repr

variable {B M : Type}

/-- Method `Trust.put`: marshal, encrypt to self, marshal the envelope, store it
under the record's public key. -/
def Trust.put (lib : Ext B M) (t : Trust B) (id : Option Identity)
    (tr : TrustRecord) : Trust B × Res Unit :=
  match lib.marshalTrustRecord tr with
  | .error e => (t, .err e)
  | .ok payload =>
    match id with
    | none => (t, .panic)
    | some idv =>
      match lib.encrypt idv idv.PublicIdentity.Key payload with
      | .error e => (t, .err e)
      | .ok msg =>
        match lib.messageMarshal msg with
        | .error e => (t, .err e)
        | .ok dbPayload =>
          match tr.PublicIdentity with
          | none => (t, .panic)
          | some p => ({ t with db := dbPut p.Key dbPayload t.db }, .ok ())

/-- Method `Trust.Update`, at clock reading `now`. -/
def Trust.Update (lib : Ext B M) (t : Trust B) (id : Option Identity)
    (tr : TrustRecord) (now : Time) : Trust B × Res Unit :=
  Trust.put lib t id { tr with LastUpdate := now }

/-- Method `Trust.Add`, at clock reading `now`. -/
def Trust.Add (lib : Ext B M) (t : Trust B) (id : Option Identity)
    (trustee : Option PublicIdentity) (state : Int)
    (freeToUse : Option (List (String × String))) (overwrite : Bool)
    (now : Time) : Trust B × Res Unit :=
  let tr : TrustRecord :=
    { PublicIdentity := trustee, Inserted := now, LastUpdate := 0,
      State := state, FreeToUse := freeToUse }
  if overwrite = false then
    match trustee with
    | none => (t, .panic)
    | some p =>
      match dbGet p.Key t.db with
      | .ok _ => (t, .err "public key already exists")
      | .error _ => Trust.put lib t id tr
  else
    Trust.put lib t id tr

/-- Method `Trust.get`. -/
def Trust.get (t : Trust B) (pubKey : PubKey) : Lib B :=
  dbGet pubKey t.db

/-- Method `Trust.decrypt`. -/
def Trust.decrypt (lib : Ext B M) (id : Option Identity) (dbPayload : B) :
    Res TrustRecord :=
  match lib.unmarshalMessage dbPayload with
  | .error e => .err e
  | .ok msg =>
    match id with
    | none => .panic
    | some idv =>
      match lib.decrypt idv idv.PublicIdentity.Key msg with
      | .error e => .err e
      | .ok ct =>
        match lib.unmarshalTrustRecord ct with
        | .error e => .err e
        | .ok tr => .ok tr

/-- Method `Trust.Get`. -/
def Trust.Get (lib : Ext B M) (t : Trust B) (id : Option Identity)
    (trustee : Option PublicIdentity) : Res TrustRecord :=
  match trustee with
  | none => .panic
  | some p =>
    match t.get p.Key with
    | .error e => .err e
    | .ok dbPayload => Trust.decrypt lib id dbPayload

/-- The loop of `Trust.GetAll`: decrypt every stored value in iteration
order, stopping at the first failure. -/
def Trust.GetAll.loop (lib : Ext B M) (id : Option Identity) :
    Db B → List TrustRecord → Res (List TrustRecord)
  | [], acc => .ok acc
  | (_, dbPayload) :: rest, acc =>
    match Trust.decrypt lib id dbPayload with
    | .ok tr => Trust.GetAll.loop lib id rest (acc ++ [tr])
    | .err e => .err e
    | .panic => .panic

/-- Method `Trust.GetAll`. -/
def Trust.GetAll (lib : Ext B M) (t : Trust B) (id : Option Identity) :
    Res (List TrustRecord) :=
  Trust.GetAll.loop lib id t.db []

/-! ## The connection (`websocket.Conn`) -/

/-- What happened on the channel: a frame handed to the connection with the
result of the write, or a read with its result. -/
inductive Event (B : Type) where
  | write (frame : B) (failure : Option String)
  | read (result : Lib B)
deriving DecidableEq, Repr

/-- The websocket of a session together with its environment: the results of
the reads still to come, the results of the writes still to come, and the log
of the channel steps performed so far (oldest first). -/
structure Conn (B : Type) where
  incoming : List (Lib B)
  outcomes : List (Option String)
  log : List (Event B)
  /-- Set by `Close`. The results of steps attempted afterwards are still
  those of the script. -/
  closed : Bool := false
deriving DecidableEq, Repr

/-- One frame write; a connection with no scripted outcome left is closed. -/
def Conn.write (c : Conn B) (frame : B) : Conn B × Option String :=
  match c.outcomes with
  | [] =>
    ({ c with log := c.log ++ [Event.write frame (some "use of closed network connection")] },
      some "use of closed network connection")
  | o :: rest => ({ c with outcomes := rest, log := c.log ++ [Event.write frame o] }, o)

/-- One frame read; a connection with no scripted input left is closed. -/
def Conn.read (c : Conn B) : Conn B × Lib B :=
  match c.incoming with
  | [] =>
    ({ c with log := c.log ++ [Event.read (.error "use of closed network connection")] },
      .error "use of closed network connection")
  | r :: rest => ({ c with incoming := rest, log := c.log ++ [Event.read r] }, r)

/-- The call `conn.Close()`. -/
def Conn.close (c : Conn B) : Conn B :=
  { c with closed := true }

/-- A Go `error` value as a call result. -/
def Res.ofError : Option String → Res Unit
  | none => .ok ()
  | some e => .err e

/-! ## The session (`net.go`) -/

/-- The per-connection state (`Session`). -/
structure Session (B : Type) where
  pid : Option PublicIdentity
  peer : Option PublicIdentity
  sid : Option Identity
  speer : Option PublicIdentity
  conn : Option (Conn B)
  confirmation : Option Confirmation
  server : Bool
  phase : Int
deriving DecidableEq, Repr

/-- Method `Session.BecomeReady`. -/
def Session.BecomeReady (s : Session B) : Session B × Res Unit :=
  if s.phase ≠ phaseConfirmation then (s, .err "invalid phase")
  else if s.peer.isNone then (s, .err "no remote public identity")
  else if s.sid.isNone then (s, .err "no session identity")
  else if s.speer.isNone then (s, .err "no peer session identity")
  else if s.conn.isNone then (s, .err "no websocket")
  else if s.confirmation.isNone then (s, .err "no confirmation")
  else ({ s with phase := phaseMessage }, .ok ())

/-- Method `Session.RpcSend`. -/
def Session.RpcSend (lib : Ext B M) (s : Session B) (command : Payload) :
    Session B × Res Unit :=
  let tag : Lib String :=
    match command with
    | .publicIdentity _ =>
      if s.phase ≠ phaseSession then .error "can't send identity; wrong phase"
      else .ok RpcIdentity
    | .confirmation _ =>
      if s.phase ≠ phaseIdentity then .error "can't send confirmation; wrong phase"
      else .ok RpcConfirmation
    | .sendFile _ =>
      if s.phase ≠ phaseMessage then .error "not in message phase"
      else .ok RpcSendFileCommand
    | .other typeName => .error ("invalid command type " ++ typeName)
  match tag with
  | .error e => (s, .err e)
  | .ok cmd =>
    match lib.marshalRpc { Command := cmd, Payload := command } with
    | .error e => (s, .err e)
    | .ok j =>
      match s.sid, s.speer with
      | some sid, some speer =>
        match lib.encrypt sid speer.Key j with
        | .error e => (s, .err e)
        | .ok ej =>
          match s.conn with
          | none => (s, .panic)
          | some c =>
            match lib.frameOfMessage ej with
            | .error e => (s, .err e)
            | .ok frame =>
              ({ s with conn := some (c.write frame).1 }, Res.ofError (c.write frame).2)
      | _, _ => (s, .panic)

/-- The tail of `Session.RpcReceive` after decryption: parse the document,
fish the command out and handle it against the phase. -/
def Session.rpcDecode (lib : Ext B M) (phase : Int) (j : B) : Lib Payload :=
  match lib.unmarshalObjmap j with
  | .error e => .error e
  | .ok objmap =>
    match jsonUnmarshal lib.unmarshalString (objmap.lookup "command") with
    | .error e => .error e
    | .ok command =>
      if command = RpcIdentity then
        if phase ≠ phaseSession then .error "can't receive identity; wrong phase"
        else
          match jsonUnmarshal lib.unmarshalPublicIdentity (objmap.lookup "payload") with
          | .error e => .error e
          | .ok ri => .ok (.publicIdentity (some ri))
      else if command = RpcConfirmation then
        if phase ≠ phaseIdentity then .error "can't receive confirmation; wrong phase"
        else
          match jsonUnmarshal lib.unmarshalConfirmation (objmap.lookup "payload") with
          | .error e => .error e
          | .ok c => .ok (.confirmation (some c))
      else if command = RpcSendFileCommand then
        if phase ≠ phaseMessage then .error "not in message phase"
        else
          match jsonUnmarshal lib.unmarshalRpcSendFile (objmap.lookup "payload") with
          | .error e => .error e
          | .ok rsf => .ok (.sendFile (some rsf))
      else .error ("invalid RPC command " ++ command)

/-- Method `Session.RpcReceive`: read one frame, decrypt it, decode it. -/
def Session.RpcReceive (lib : Ext B M) (s : Session B) :
    Session B × Res Payload :=
  match s.conn with
  | none => (s, .panic)
  | some c =>
    let s1 : Session B := { s with conn := some c.read.1 }
    match c.read.2 with
    | .error e => (s1, .err e)
    | .ok frame =>
      match lib.messageOfFrame frame with
      | .error e => (s1, .err e)
      | .ok msg =>
        match s1.sid, s1.speer with
        | some sid, some speer =>
          match lib.decrypt sid speer.Key msg with
          | .error e => (s1, .err e)
          | .ok j =>
            match Session.rpcDecode lib s1.phase j with
            | .error e => (s1, .err e)
            | .ok v => (s1, .ok v)
        | _, _ => (s1, .panic)

/-- Method `Session.sessionPhaseSend`; `newId` is what
`mcrypt.NewIdentity("", "")` returns: the identity pointer and the error. -/
def Session.sessionPhaseSend (lib : Ext B M) (newId : Option Identity × Option String)
    (s : Session B) : Session B × Res Unit :=
  let s1 : Session B := { s with sid := newId.1 }
  match newId.2 with
  | some e => (s1, .err e)
  | none =>
    match s1.conn, s1.sid with
    | some c, some sid =>
      match lib.frameOfPublicIdentity sid.PublicIdentity with
      | .error e => (s1, .err e)
      | .ok frame =>
        ({ s1 with conn := some (c.write frame).1 }, Res.ofError (c.write frame).2)
    | _, _ => (s1, .panic)

/-- Method `Session.sessionPhaseRecv`. -/
def Session.sessionPhaseRecv (lib : Ext B M) (s : Session B) : Session B × Res Unit :=
  match s.conn with
  | none => (s, .panic)
  | some c =>
    match c.read.2 with
    | .error e => ({ s with conn := some c.read.1 }, .err e)
    | .ok frame =>
      ({ s with conn := some c.read.1, speer := (lib.publicIdentityOfFrame frame s.speer).1 },
        Res.ofError (lib.publicIdentityOfFrame frame s.speer).2)

/-- The end of each phase method: `if err == nil` move the phase forward. -/
def Session.advance (s : Session B) (r : Res Unit) (f : Session B → Session B) :
    Session B × Res Unit :=
  match r with
  | .ok _ => (f s, .ok ())
  | other => (s, other)

/-- Method `Session.SessionPhase`. -/
def Session.SessionPhase (lib : Ext B M) (newId : Option Identity × Option String)
    (s : Session B) : Session B × Res Unit :=
  if s.phase ≠ phaseStartOfDay then (s, .err "invalid phase")
  else if s.server = true then
    match Session.sessionPhaseRecv lib s with
    | (s1, .ok _) =>
      let (s2, r) := Session.sessionPhaseSend lib newId s1
      Session.advance s2 r (fun x => { x with phase := phaseSession })
    | (s1, r) => (s1, r)
  else
    match Session.sessionPhaseSend lib newId s with
    | (s1, .ok _) =>
      let (s2, r) := Session.sessionPhaseRecv lib s1
      Session.advance s2 r (fun x => { x with phase := phaseSession })
    | (s1, r) => (s1, r)

/-- Method `Session.identityPhaseSend`. -/
def Session.identityPhaseSend (lib : Ext B M) (s : Session B)
    (pid : Option PublicIdentity) : Session B × Res Unit :=
  Session.RpcSend lib s (.publicIdentity pid)

/-- Method `Session.identityPhaseRecv`: the result of `RpcReceive` is
asserted to be a public identity without looking at its error first, so every
failure sets `peer` to nil and is reported as `expected public identity`. -/
def Session.identityPhaseRecv (lib : Ext B M) (s : Session B) : Session B × Res Unit :=
  match Session.RpcReceive lib s with
  | (s1, .ok (.publicIdentity p)) => ({ s1 with peer := p }, .ok ())
  | (s1, .ok _) => ({ s1 with peer := none }, .err "expected public identity")
  | (s1, .err _) => ({ s1 with peer := none }, .err "expected public identity")
  | (s1, .panic) => (s1, .panic)

/-- Method `Session.IdentityPhase`. -/
def Session.IdentityPhase (lib : Ext B M) (s : Session B)
    (pid : Option PublicIdentity) : Session B × Res Unit :=
  if s.phase ≠ phaseSession then (s, .err "invalid phase")
  else if s.server = true then
    match Session.identityPhaseRecv lib s with
    | (s1, .ok _) =>
      let (s2, r) := Session.identityPhaseSend lib s1 pid
      Session.advance s2 r (fun x => { x with phase := phaseIdentity, pid := pid })
    | (s1, r) => (s1, r)
  else
    match Session.identityPhaseSend lib s pid with
    | (s1, .ok _) =>
      let (s2, r) := Session.identityPhaseRecv lib s1
      Session.advance s2 r (fun x => { x with phase := phaseIdentity, pid := pid })
    | (s1, r) => (s1, r)

/-- Method `Session.confirmationPhaseSend`. -/
def Session.confirmationPhaseSend (lib : Ext B M) (s : Session B)
    (c : Option Confirmation) : Session B × Res Unit :=
  Session.RpcSend lib s (.confirmation c)

/-- Method `Session.confirmationPhaseRecv`. -/
def Session.confirmationPhaseRecv (lib : Ext B M) (s : Session B) : Session B × Res Unit :=
  match Session.RpcReceive lib s with
  | (s1, .err e) => (s1, .err e)
  | (s1, .panic) => (s1, .panic)
  | (s1, .ok (.confirmation c)) => ({ s1 with confirmation := c }, .ok ())
  | (s1, .ok _) => ({ s1 with confirmation := none }, .err "expected confirmation")

/-- Method `Session.ConfirmationPhase`. The caller's `Confirmation` is passed
by pointer and the server writes its `Error` field, so the call returns the
session, the caller's confirmation after the call, and the result. -/
def Session.ConfirmationPhase (lib : Ext B M) (s : Session B)
    (c : Option Confirmation) : Session B × Option Confirmation × Res Unit :=
  if s.phase ≠ phaseIdentity then (s, c, .err "invalid phase")
  else if s.server = true then
    match Session.confirmationPhaseRecv lib s with
    | (s1, .ok _) =>
      match s1.pid, s1.confirmation with
      | some pid, some conf =>
        if pid.Address ≠ conf.LookingFor then
          -- return error and send it to client as well
          match c with
          | none => (s1, c, .panic)
          | some cv =>
            let c1 : Confirmation := { cv with Error := "unknown user " ++ conf.LookingFor }
            let (s2, r) := Session.confirmationPhaseSend lib s1 (some c1)
            (s2, some c1, r)
        else
          let (s2, r) := Session.confirmationPhaseSend lib s1 c
          let (s3, r3) := Session.advance s2 r (fun x => { x with phase := phaseConfirmation })
          (s3, c, r3)
      | _, _ => (s1, c, .panic)
    | (s1, r) => (s1, c, r)
  else
    match Session.confirmationPhaseSend lib s c with
    | (s1, .ok _) =>
      match Session.confirmationPhaseRecv lib s1 with
      | (s2, .ok _) =>
        match s2.confirmation with
        | none => (s2, c, .panic)
        | some conf =>
          -- see if an error came back
          if conf.Error ≠ "" then (s2, c, .err ("Remote error: " ++ conf.Error))
          else ({ s2 with phase := phaseConfirmation }, c, .ok ())
      | (s2, r) => (s2, c, r)
    | (s1, r) => (s1, c, r)

/-! ## Session set-up and file sending (`net.go`) -/

/-- Method `Session.DefaultSession`: the session and identity phases; the
deferred function closes the connection when an error is returned (it does
not when the call panics, the result `err` being nil then). -/
def Session.DefaultSession (lib : Ext B M) (newId : Option Identity × Option String)
    (s : Session B) (pid : Option PublicIdentity) : Session B × Res Unit :=
  let closeOnError (s1 : Session B) (e : String) : Session B × Res Unit :=
    match s1.conn with
    | none => (s1, .panic)
    | some c => ({ s1 with conn := some c.close }, .err e)
  match Session.SessionPhase lib newId s with
  | (s1, .err e) => closeOnError s1 e
  | (s1, .panic) => (s1, .panic)
  | (s1, .ok _) =>
    match Session.IdentityPhase lib s1 pid with
    | (s2, .err e) => closeOnError s2 e
    | (s2, .panic) => (s2, .panic)
    | (s2, .ok _) => (s2, .ok ())

/-- The request of the UI to send a file (`SendFile` in `message.go`). -/
structure SendFile where
  To : String
  Filename : String
  Mime : String
deriving DecidableEq, Repr, Inhabited

/-- The standard library function `path.Base`: the last element of a
slash-separated path, trailing slashes removed; `.` for the empty path and `/`
for a path of slashes only. -/
def pathBase (path : String) : String :=
  if path = "" then "."
  else
    let stripped := (path.toList.reverse.dropWhile (fun ch => ch = '/')).reverse
    if stripped = [] then "/"
    else String.mk (stripped.reverse.takeWhile (fun ch => ch ≠ '/')).reverse

/-- The files the node can read, by name, with their content. -/
abbrev Files := List (String × List Nat)

/-- The call `ioutil.ReadFile(name)`. -/
def readFile (files : Files) (name : String) : Lib (List Nat) :=
  match files.lookup name with
  | none => .error ("open " ++ name ++ ": no such file or directory")
  | some content => .ok content

/-- Method `Session.SendFile`. -/
def Session.SendFile (lib : Ext B M) (files : Files) (s : Session B) (sf : SendFile) :
    Session B × Res Unit :=
  match readFile files sf.Filename with
  | .error e => (s, .err e)
  | .ok content =>
    Session.RpcSend lib s
      (.sendFile (some { Filename := pathBase sf.Filename, Mime := sf.Mime, Content := content }))

/-! ## The orchestrator (`main.go`) -/

/-- A `func()` value of the orchestrator, as the data of its closure: the
continuation `func() { c.handleSendFile(client, m) }` that `handleIncoming`
passes to `verifyHost`, or the closure `finishVerify` that `verifyHost` builds
around its arguments. A client is named by its index in `Core.clients`. -/
inductive Callback where
  | handleSendFile (client : Nat) (sf : SendFile)
  | finishVerify (host : String) (client : Nat) (callback : Callback)
deriving DecidableEq, Repr

/-- Messages from the core to the UI (`message.go`). -/
inductive UiMessage where
  | popup (title message : String)
  | confirmPublicIdentity (pid : Option PublicIdentity)
  | renderTrust (records : List TrustRecord)
deriving DecidableEq, Repr

/-- What the orchestrator did, in order: a message sent to the UI, or a call
of a stored or passed `func()` value. -/
inductive CoreEvent where
  | toUi (m : UiMessage)
  | invoked (callback : Callback)
deriving DecidableEq, Repr

/-- How a call without result ends: it returns, it panics, or it blocks
for ever on the mutex of the waiter table, which the caller already holds. -/
inductive Exit where
  | returned
  | panicked
  | blocked
deriving DecidableEq, Repr

/-- The orchestrator (`Core`): identity, trust store, the mutex and the map
of the verify waiters, together with the client sessions that closures point
to (`clients`, a `*Client` is an index), the readable files, the trace of
events and the directory of the node. -/
structure Core (B : Type) where
  identity : Option Identity
  trust : Trust B
  mtxVerifyWaiter : Bool
  verifyWaiters : List (String × Callback)
  clients : List (Session B)
  files : Files
  events : List CoreEvent
  /-- The directory of the node (`scommsDir`), `scomms` under the home
  directory of the user. -/
  scommsDir : String := ""
deriving DecidableEq, Repr

/-- Map lookup `m[k]`. -/
def mapGet {α : Type} (k : String) (m : List (String × α)) : Option α :=
  m.lookup k

/-- Map assignment `m[k] = v`. -/
def mapSet {α : Type} (k : String) (v : α) : List (String × α) → List (String × α)
  | [] => [(k, v)]
  | (k1, v1) :: rest => if k1 = k then (k, v) :: rest else (k1, v1) :: mapSet k v rest

/-- Map deletion `delete(m, k)`. -/
def mapDelete {α : Type} (k : String) (m : List (String × α)) : List (String × α) :=
  m.filter (fun e => e.1 ≠ k)

/-- The call `c.Send(core, []string{ui}, m)`. -/
def Core.sendUi (core : Core B) (m : UiMessage) : Core B :=
  { core with events := core.events ++ [.toUi m] }

/-- Method `Core.popup`, with the formatted message. -/
def Core.popup (core : Core B) (title message : String) : Core B :=
  core.sendUi (.popup title message)

/-- Store the client session `s` at index `client`. -/
def Core.setClient (core : Core B) (client : Nat) (s : Session B) : Core B :=
  { core with clients := core.clients.set client s }

/-- The call `client.Session.conn.Close()`. -/
def Core.closeClient (core : Core B) (client : Nat) : Core B × Exit :=
  match core.clients[client]? with
  | none => (core, .panicked)
  | some s =>
    match s.conn with
    | none => (core, .panicked)
    | some c => (core.setClient client { s with conn := some c.close }, .returned)

/-- Method `Core.renderTrust`. -/
def Core.renderTrust (lib : Ext B M) (core : Core B) : Core B × Exit :=
  match Trust.GetAll lib core.trust core.identity with
  | .ok records => (core.sendUi (.renderTrust records), .returned)
  | .err _ => (core, .returned)
  | .panic => (core, .panicked)

/-- Method `Core._removeVerifyWaiter`. -/
def Core._removeVerifyWaiter (lib : Ext B M) (core : Core B) (pid : Option PublicIdentity) :
    Core B × Exit :=
  match pid with
  | none => (core, .panicked)
  | some p =>
    ({ core with verifyWaiters := mapDelete (lib.fingerprint p) core.verifyWaiters }, .returned)

/-- Method `Core.removeVerifyWaiter`: lock, remove, unlock (deferred). -/
def Core.removeVerifyWaiter (lib : Ext B M) (core : Core B) (pid : Option PublicIdentity) :
    Core B × Exit :=
  if core.mtxVerifyWaiter = true then (core, .blocked)
  else
    match Core._removeVerifyWaiter lib { core with mtxVerifyWaiter := true } pid with
    | (c1, exit) => ({ c1 with mtxVerifyWaiter := false }, exit)

/-- Method `Core.addVerifyWaiter`. -/
def Core.addVerifyWaiter (lib : Ext B M) (core : Core B) (pid : Option PublicIdentity)
    (callback : Callback) : Core B × Exit :=
  match pid with
  | none => (core, .panicked)
  | some p =>
    if core.mtxVerifyWaiter = true then (core, .blocked)
    else
      match mapGet (lib.fingerprint p) core.verifyWaiters with
      | some _ =>
        (core.popup "Public Identity Verification Failed"
          "Impossible condition, check code at addVerifyWaiter", .returned)
      | none =>
        ({ core with
            verifyWaiters := mapSet (lib.fingerprint p) callback core.verifyWaiters },
          .returned)

/-- Method `Core.handleSendFile`. -/
def Core.handleSendFile (lib : Ext B M) (core : Core B) (client : Nat) (sf : SendFile) :
    Core B × Exit :=
  match core.clients[client]? with
  | none => (core, .panicked)
  | some s =>
    -- go to message phase
    let confirmation : Confirmation :=
      { LookingFor := sf.To, MaxFrameSize := 10 * 1024 * 1024, Error := "", State := 0 }
    match Session.ConfirmationPhase lib s (some confirmation) with
    | (s1, _, .err e) => ((core.setClient client s1).popup "Confirmation failed" e, .returned)
    | (s1, _, .panic) => (core.setClient client s1, .panicked)
    | (s1, _, .ok _) =>
      match s1.BecomeReady with
      | (s2, .err e) =>
        ((core.setClient client s2).popup "Could not enter message phase" e, .returned)
      | (s2, .panic) => (core.setClient client s2, .panicked)
      | (s2, .ok _) =>
        match Session.SendFile lib core.files s2 sf with
        | (s3, .err e) => ((core.setClient client s3).popup "Send file failed" e, .returned)
        | (s3, .panic) => (core.setClient client s3, .panicked)
        | (s3, .ok _) => (core.setClient client s3, .returned)

/-- The deferred function of `finishVerify` when `err` is not nil: close the
connection of the client and report the error; `exit` is how the body ended. -/
def Core.finishVerifyFailed (core : Core B) (client : Nat) (err : String) (exit : Exit) :
    Core B × Exit :=
  match core.closeClient client with
  | (c1, .returned) => (c1.popup "Public Identity Verification Failed" err, exit)
  | (c1, _) => (c1, .panicked)

/-- Call a `func()` value. For `finishVerify` this is the body of the closure
in `verifyHost`: compare the dialled address, read the trust record, switch
on its state; the deferred function then closes and reports, or calls the
continuation. -/
def Core.invoke (lib : Ext B M) : Callback → Core B → Core B × Exit
  | .handleSendFile client sf, core => Core.handleSendFile lib core client sf
  | .finishVerify host client callback, core =>
    match core.clients[client]? with
    | none => (core, .panicked)
    | some s =>
      match s.pid with
      | none =>
        Core.finishVerifyFailed core client
          "Impossible condition: Error not set in verifyHost" .panicked
      | some pid =>
        if host ≠ pid.Address then
          Core.finishVerifyFailed core client
            ("Address does not match public identity\n\nContacted " ++ host ++
              " and reply came from " ++ pid.Address) .returned
        else
          match Trust.Get lib core.trust core.identity s.pid with
          | .panic =>
            Core.finishVerifyFailed core client
              "Impossible condition: Error not set in verifyHost" .panicked
          | .err e =>
            Core.finishVerifyFailed core client ("Could not read trust record: " ++ e)
              .returned
          | .ok tr =>
            -- do more test here
            if tr.State = StateAllowed then
              Core.invoke lib callback
                { core with events := core.events ++ [.invoked callback] }
            else if tr.State = StateDenied then
              Core.finishVerifyFailed core client
                "You previously denied to trust this identity" .returned
            else if tr.State = StateQueued then
              Core.finishVerifyFailed core client
                "Remote has queued your communication request\nPlease try again later."
                .returned
            else
              -- really can't happen
              match Core.removeVerifyWaiter lib core s.pid with
              | (c1, .blocked) => (c1, .blocked)
              | (c1, exit) => Core.finishVerifyFailed c1 client "You canceled trust" exit

/-- Method `Core.verifyHost`. -/
def Core.verifyHost (lib : Ext B M) (core : Core B) (host : String) (client : Nat)
    (callback : Callback) : Core B × Exit :=
  match core.clients[client]? with
  | none => (core, .panicked)
  | some s =>
    -- check if we know this host
    match Trust.Get lib core.trust core.identity s.pid with
    | .panic => (core, .panicked)
    | .err _ =>
      -- wait for something
      Core.addVerifyWaiter lib (core.sendUi (.confirmPublicIdentity s.pid)) s.pid
        (.finishVerify host client callback)
    | .ok _ => Core.invoke lib (.finishVerify host client callback) core

/-- Method `Core.handleVerifyWaiter`. -/
def Core.handleVerifyWaiter (lib : Ext B M) (core : Core B) (pid : Option PublicIdentity) :
    Core B × Exit :=
  match pid with
  | none => (core, .panicked)
  | some p =>
    if core.mtxVerifyWaiter = true then (core, .blocked)
    else
      match mapGet (lib.fingerprint p) core.verifyWaiters with
      | none =>
        (core.popup "Public Identity Verification Failed"
          "Impossible condition, check code at handleVerifyWaiter", .returned)
      | some callback =>
        match Core.invoke lib callback
            { core with mtxVerifyWaiter := true,
                        events := core.events ++ [.invoked callback] } with
        | (c1, .returned) =>
          match Core._removeVerifyWaiter lib c1 pid with
          | (c2, exit) => ({ c2 with mtxVerifyWaiter := false }, exit)
        | (c1, .panicked) => ({ c1 with mtxVerifyWaiter := false }, .panicked)
        | (c1, .blocked) => (c1, .blocked)

/-- The messages of the UI to the core that are modelled (`message.go`). The
`Error` field of `UiConfirmPublicIdentityReply` is never read. -/
inductive CoreMessage where
  | uiConfirmPublicIdentityReply (pid : Option PublicIdentity) (state : Int)
  | updateTrustRecord (tr : Option TrustRecord)
deriving DecidableEq, Repr

/-- Method `Core.handleIncoming` on these messages, at clock reading `now`. -/
def Core.handleIncoming (lib : Ext B M) (now : Time) (core : Core B) :
    CoreMessage → Core B × Exit
  | .uiConfirmPublicIdentityReply pid state =>
    if state = StateAllowed ∨ state = StateDenied then
      match Trust.Add lib core.trust core.identity pid state none false now with
      | (t1, .panic) => ({ core with trust := t1 }, .panicked)
      | (t1, .err e) =>
        match pid with
        | none => ({ core with trust := t1 }, .panicked)
        | some p =>
          (({ core with trust := t1 } : Core B).popup
            ("Could not add " ++ p.Address ++ "to the trust database") e, .returned)
      | (t1, .ok _) =>
        match Core.renderTrust lib { core with trust := t1 } with
        | (c1, .returned) => Core.handleVerifyWaiter lib c1 pid
        | (c1, exit) => (c1, exit)
    else Core.removeVerifyWaiter lib core pid
  | .updateTrustRecord tr =>
    match tr with
    | none => (core, .panicked)
    | some record =>
      match Trust.Update lib core.trust core.identity record now with
      | (t1, .panic) => ({ core with trust := t1 }, .panicked)
      | (t1, .err e) =>
        match record.PublicIdentity with
        | none => ({ core with trust := t1 }, .panicked)
        | some p =>
          (({ core with trust := t1 } : Core B).popup
            ("Could not update  " ++ p.Address ++ "in the trust database") e, .returned)
      | (t1, .ok _) => Core.renderTrust lib { core with trust := t1 }

/-- The confirmation `ServerCallback` starts from. -/
def serverConfirmation : Confirmation :=
  { LookingFor := "", MaxFrameSize := 10 * 1024 * 1024, Error := "", State := 0 }

/-- The end of the handshake of `ServerCallback`: the confirmation phase with
the confirmation prepared, the abort when it went queued, `BecomeReady`. -/
def Core.serverConfirm (lib : Ext B M) (core : Core B) (s : Session B)
    (confirmation : Confirmation) : Core B × Session B × Res Unit :=
  match Session.ConfirmationPhase lib s (some confirmation) with
  | (s1, _, .err e) => (core, s1, .err ("ServerCallback ConfirmationPhase " ++ e))
  | (s1, _, .panic) => (core, s1, .panic)
  | (s1, none, .ok _) => (core, s1, .panic)
  | (s1, some c1, .ok _) =>
    -- if we were queued abort Confirmation sequence
    if c1.State = StateQueued then
      (core, s1, .err "ServerCallback ConfirmationPhase went queued")
    else
      match s1.BecomeReady with
      | (s2, .err e) => (core, s2, .err ("ServerCallback BecomeReady " ++ e))
      | (s2, .panic) => (core, s2, .panic)
      | (s2, .ok _) => (core, s2, .ok ())

/-- Method `Core.ServerCallback` up to its receive loop, at clock reading
`now`: the result is `ok` when `BecomeReady` succeeded and the loop starts,
and otherwise names the debug line of the return taken. -/
def Core.serverHandshake (lib : Ext B M) (now : Time)
    (newId : Option Identity × Option String) (core : Core B) (s : Session B) :
    Core B × Session B × Res Unit :=
  match core.identity with
  | none => (core, s, .panic)
  | some id =>
    match Session.DefaultSession lib newId s (some id.PublicIdentity) with
    | (s1, .err e) => (core, s1, .err ("ServerCallback DefaultSession " ++ e))
    | (s1, .panic) => (core, s1, .panic)
    | (s1, .ok _) =>
      -- see if we trust this identity
      match Trust.Get lib core.trust core.identity s1.pid with
      | .panic => (core, s1, .panic)
      | .err _ =>
        -- not seen before, queue trust
        match Trust.Add lib core.trust core.identity s1.pid StateQueued none false now with
        | (t1, .err e) =>
          ({ core with trust := t1 }, s1, .err ("ServerCallback failed to add trust " ++ e))
        | (t1, .panic) => ({ core with trust := t1 }, s1, .panic)
        | (t1, .ok _) =>
          match Core.renderTrust lib { core with trust := t1 } with
          | (c1, .returned) =>
            Core.serverConfirm lib c1 s1 { serverConfirmation with State := StateQueued }
          | (c1, _) => (c1, s1, .panic)
      | .ok tr =>
        -- verify trust
        if tr.State ≠ StateAllowed then (core, s1, .err "ServerCallback denied access")
        else Core.serverConfirm lib core s1 serverConfirmation

/-! ## The file system (`os`, `io/ioutil`) -/

/-- The fields of a text between the occurrences of the separator. -/
def splitFields (sep : Char) : List Char → List (List Char)
  | [] => [[]]
  | ch :: rest =>
    if ch = sep then [] :: splitFields sep rest
    else
      match splitFields sep rest with
      | [] => [[ch]]
      | field :: fields => (ch :: field) :: fields

/-- The file system as the process sees it: the working directory (its
elements from the root), the directories and the regular files with their
content, each under its cleaned absolute path, and the random suffixes
`ioutil.TempFile` draws next. There are no symbolic links and no permissions,
and the root directory always exists. -/
structure Disk where
  cwd : List String
  dirs : List String
  files : Files
  random : List String
deriving DecidableEq, Repr

/-- The elements of a slash-separated path. -/
def pathParts (path : String) : List String :=
  (splitFields '/' path.toList).map String.mk

/-- The cleaned absolute path with these elements. -/
def absPath (elems : List String) : String :=
  "/" ++ "/".intercalate elems

/-- There is a directory with these elements. -/
def Disk.isDir (disk : Disk) (elems : List String) : Bool :=
  elems = [] || absPath elems ∈ disk.dirs

/-- There is a regular file with these elements. -/
def Disk.isFile (disk : Disk) (elems : List String) : Bool :=
  (mapGet (absPath elems) disk.files).isSome

/-- Where the walk from the directory `cur` along the path elements ends, as
the kernel resolves a path: an element that is not the last one has to be a
directory. -/
def Disk.walk (disk : Disk) : List String → List String → Option (List String)
  | cur, [] => some cur
  | cur, part :: rest =>
    if part = "" ∨ part = "." then disk.walk cur rest
    else if part = ".." then disk.walk cur.dropLast rest
    else if rest = [] then some (cur ++ [part])
    else if disk.isDir (cur ++ [part]) then disk.walk (cur ++ [part]) rest
    else none

/-- The directory a path starts from: the root for an absolute path, the
working directory otherwise. -/
def Disk.start (disk : Disk) (path : String) : List String :=
  if path.toList.head? = some '/' then [] else disk.cwd

/-- The elements of the file or directory a path names; none when the path
is empty or steps through something that is not a directory. -/
def Disk.resolve (disk : Disk) (path : String) : Option (List String) :=
  if path = "" then none else disk.walk (disk.start path) (pathParts path)

/-- The call `os.Stat(name)`: the error, if any. -/
def Disk.stat (disk : Disk) (name : String) : Option String :=
  match disk.resolve name with
  | none => some ("stat " ++ name ++ ": no such file or directory")
  | some elems =>
    if disk.isDir elems ∨ disk.isFile elems then none
    else some ("stat " ++ name ++ ": no such file or directory")

/-- The directories after `os.MkdirAll` has walked the path elements from
`cur`, and its error: every element is created unless it is there, and a regular
file in the way is an error. -/
def Disk.makeDirs (disk : Disk) :
    List String → List String → List String → List String × Option String
  | _, [], dirs => (dirs, none)
  | cur, part :: rest, dirs =>
    if part = "" ∨ part = "." then disk.makeDirs cur rest dirs
    else if part = ".." then disk.makeDirs cur.dropLast rest dirs
    else if disk.isFile (cur ++ [part]) then
      (dirs, some ("mkdir " ++ absPath (cur ++ [part]) ++ ": not a directory"))
    else if absPath (cur ++ [part]) ∈ dirs then disk.makeDirs (cur ++ [part]) rest dirs
    else disk.makeDirs (cur ++ [part]) rest (dirs ++ [absPath (cur ++ [part])])

/-- The call `os.MkdirAll(path, 0700)`. -/
def Disk.mkdirAll (disk : Disk) (path : String) : Disk × Option String :=
  if path = "" then (disk, some "mkdir : no such file or directory")
  else
    let made := disk.makeDirs (disk.start path) (pathParts path) disk.dirs
    ({ disk with dirs := made.1 }, made.2)

/-- The call `ioutil.WriteFile(name, data, 0600)`: create or truncate the
file and write the data. -/
def Disk.writeFile (disk : Disk) (name : String) (data : List Nat) : Disk × Option String :=
  match disk.resolve name with
  | none => (disk, some ("open " ++ name ++ ": no such file or directory"))
  | some elems =>
    if disk.isDir elems then (disk, some ("open " ++ name ++ ": is a directory"))
    else if disk.isDir elems.dropLast = false then
      (disk, some ("open " ++ name ++ ": no such file or directory"))
    else ({ disk with files := mapSet (absPath elems) data disk.files }, none)

/-- The loop of `ioutil.TempFile` over the random strings still to draw: the
name is `stem`, the random string and `tail`; a name that exists is skipped,
and the file is created empty. The result is the name of the file. -/
def Disk.tempFile.loop (disk : Disk) (stem tail : String) : List String → Disk × Lib String
  | [] => ({ disk with random := [] }, .error "ioutil.TempFile: no name left")
  | random :: rest =>
    let name := stem ++ random ++ tail
    match disk.resolve name with
    | none =>
      ({ disk with random := rest }, .error ("open " ++ name ++ ": no such file or directory"))
    | some elems =>
      if disk.isDir elems ∨ disk.isFile elems then Disk.tempFile.loop disk stem tail rest
      else if disk.isDir elems.dropLast = false then
        ({ disk with random := rest }, .error ("open " ++ name ++ ": no such file or directory"))
      else
        ({ disk with random := rest, files := mapSet (absPath elems) [] disk.files }, .ok name)

/-- The call `ioutil.TempFile(dir, pattern)` followed by `Name()` and
`Close()`: the file created and its name. A pattern with a path separator is
refused; the random string replaces the last `*` of the pattern or, without
one, follows the pattern; the name is the directory, a separator unless the
directory ends with one, and that; an empty `dir` is the default directory for
temporary files. -/
def Disk.tempFile (disk : Disk) (dir pattern : String) : Disk × Lib String :=
  if pattern.toList.contains '/' then
    (disk, .error ("createtemp " ++ pattern ++ ": pattern contains path separator"))
  else
    let tmp := if dir = "" then "/tmp" else dir
    let sep := if tmp.toList.getLast? = some '/' then "" else "/"
    let afterStar := (pattern.toList.reverse.takeWhile (fun ch => ch ≠ '*')).reverse
    match pattern.toList.reverse.dropWhile (fun ch => ch ≠ '*') with
    | [] => Disk.tempFile.loop disk (tmp ++ sep ++ pattern) "" disk.random
    | _ :: beforeStar =>
      Disk.tempFile.loop disk (tmp ++ sep ++ String.mk beforeStar.reverse)
        (String.mk afterStar) disk.random

/-! ## The spool (`net.go`) -/

/-- What is saved alongside the content (`MetaRecord`). -/
structure MetaRecord where
  Version : Nat
  Mime : String
  Created : Time
deriving DecidableEq, Repr, Inhabited

/-- Function `newRandomFileName`. -/
def newRandomFileName (disk : Disk) (tmpDir pfx : String) : Disk × Lib String :=
  match disk.tempFile tmpDir pfx with
  | (d1, .error e) => (d1, .error e)
  | (d1, .ok name) => (d1, .ok (pathBase name))

/-- Method `Core.serverSendFile`, on the file system `disk` at clock reading
`now`; `marshalMeta` is the call `json.Marshal(meta)`. -/
def Core.serverSendFile (marshalMeta : MetaRecord → Lib (List Nat)) (now : Time)
    (core : Core B) (disk : Disk) (rsf : Option RpcSendFile) (peer : Option PublicIdentity) :
    Core B × Disk × Res Unit :=
  match peer with
  | none => (core, disk, .panic)
  | some p =>
    -- create holding area
    let targetDir := core.scommsDir ++ "/spool/" ++ p.Address ++ "/"
    match disk.mkdirAll targetDir with
    | (d1, some e) => (core, d1, .err e)
    | (d1, none) =>
      match rsf with
      | none => (core, d1, .panic)
      | some f =>
        -- see if we were sent a filename hint
        let hint : Disk × Lib String :=
          if f.Filename = "" then newRandomFileName d1 targetDir "unknown"
          else
            -- sanitize filename
            (d1, .ok f.Filename)
        match hint with
        | (d2, .error e) => (core, d2, .err e)
        | (d2, .ok filename) =>
          -- look for dups
          let unique : Disk × Lib String :=
            match d2.stat filename with
            | none =>
              -- exists, create temp file instead
              newRandomFileName d2 targetDir filename
            | some _ => (d2, .ok filename)
          match unique with
          | (d3, .error e) => (core, d3, .err e)
          | (d3, .ok name) =>
            -- write meta
            match marshalMeta { Version := 1, Mime := f.Mime, Created := now } with
            | .error e => (core, d3, .err e)
            | .ok metaJson =>
              match d3.writeFile (targetDir ++ name ++ ".meta") metaJson with
              | (d4, some e) => (core, d4, .err e)
              | (d4, none) =>
                -- write content
                match d4.writeFile (targetDir ++ name) f.Content with
                | (d5, some e) => (core, d5, .err e)
                | (d5, none) =>
                  (core.popup "New message"
                    ("You have received a message and it was saved in: " ++ targetDir ++ name
                      ++ "\n"), d5, .ok ())

/-- The receive loop of `ServerCallback`, for at most `fuel` rounds (none when
they do not suffice): it ends when `RpcReceive` fails, an error of
`serverSendFile` is only logged, and a command of another type is skipped. The
clock reading is the same in every round. -/
def Core.serverLoop (lib : Ext B M) (marshalMeta : MetaRecord → Lib (List Nat)) (now : Time) :
    Nat → Core B → Disk → Session B → Option (Core B × Disk × Session B × Res Unit)
  | 0, _, _, _ => none
  | fuel + 1, core, disk, s =>
    match Session.RpcReceive lib s with
    | (s1, .err e) => some (core, disk, s1, .err ("ServerCallback RpcReceive " ++ e))
    | (s1, .panic) => some (core, disk, s1, .panic)
    | (s1, .ok (.sendFile command)) =>
      match Core.serverSendFile marshalMeta now core disk command s1.peer with
      | (c1, d1, .panic) => some (c1, d1, s1, .panic)
      | (c1, d1, _) => Core.serverLoop lib marshalMeta now fuel c1 d1 s1
    | (s1, .ok _) => Core.serverLoop lib marshalMeta now fuel core disk s1

/-- The frames the connection of the session still has to deliver. -/
def Session.pending (s : Session B) : Nat :=
  match s.conn with
  | none => 0
  | some c => c.incoming.length

/-- Method `Core.ServerCallback`: the handshake, then the receive loop, which
runs one round more than there are frames to deliver. The result names the
debug line of the return taken. -/
def Core.ServerCallback (lib : Ext B M) (marshalMeta : MetaRecord → Lib (List Nat))
    (now : Time) (newId : Option Identity × Option String) (core : Core B) (disk : Disk)
    (s : Session B) : Option (Core B × Disk × Session B × Res Unit) :=
  match Core.serverHandshake lib now newId core s with
  | (c1, s1, .ok _) => Core.serverLoop lib marshalMeta now (s1.pending + 1) c1 disk s1
  | (c1, s1, r) => some (c1, disk, s1, r)

/-! ## The listeners (`net.go`) -/

/-- A bound listener (`net.Listener`): the network it was opened on and the
address. -/
structure Listener where
  Network : String
  Addr : String
deriving DecidableEq, Repr, Inhabited

/-- What `NewServer` and `parseListeners` consume from packages `net`,
`crypto/tls` and `runtime`. -/
structure Net where
  /-- The call `net.SplitHostPort(addr)`: host and port, or the error. -/
  splitHostPort : String → Lib (String × String)
  /-- The call `net.ParseIP(host)`: nil when `host` is not the text of an IP
  address. -/
  parseIP : String → Option (List Nat)
  /-- The call `ip.To4()`: nil when `ip` is not an IPv4 address. -/
  to4 : List Nat → Option (List Nat)
  /-- The constant `runtime.GOOS`. -/
  goos : String
  /-- The call `tls.LoadX509KeyPair(cert, key)`: the error, if any. -/
  loadX509KeyPair : String → String → Option String
  /-- The call `tls.Listen(network, addr, &tlsConfig)` when the listeners
  given first are bound already: the error, if any. -/
  listen : List Listener → String → String → Option String

/-- The loop of `parseListeners` over the addresses still to do, with the two
slices built so far; an error returns at once with nil slices. -/
def parseListeners.loop (net : Net) :
    List String → List String → List String → List String × List String × Option String
  | [], ipv4ListenAddrs, ipv6ListenAddrs => (ipv4ListenAddrs, ipv6ListenAddrs, none)
  | addr :: rest, ipv4ListenAddrs, ipv6ListenAddrs =>
    match net.splitHostPort addr with
    | .error e =>
      -- Shouldn't happen due to already being normalized.
      ([], [], some e)
    | .ok (host, _) =>
      -- Empty host or host of * on plan9 is both IPv4 and IPv6.
      if host = "" ∨ (host = "*" ∧ net.goos = "plan9") then
        parseListeners.loop net rest (ipv4ListenAddrs ++ [addr]) (ipv6ListenAddrs ++ [addr])
      else
        -- Parse the IP.
        match net.parseIP host with
        | none => ([], [], some ("'" ++ host ++ "' is not a valid IP address"))
        | some ip =>
          if (net.to4 ip).isNone then
            parseListeners.loop net rest ipv4ListenAddrs (ipv6ListenAddrs ++ [addr])
          else
            parseListeners.loop net rest (ipv4ListenAddrs ++ [addr]) ipv6ListenAddrs

/-- Function `parseListeners`: the IPv4 slice, the IPv6 slice and the error. -/
def parseListeners (net : Net) (addrs : List String) :
    List String × List String × Option String :=
  parseListeners.loop net addrs [] []

/-- The server (`Server`). -/
structure Server where
  listeners : List Listener
deriving DecidableEq, Repr, Inhabited

/-- One of the two loops of `NewServer`: listen on every address of the
slice, skip the ones that fail. -/
def NewServer.bind (net : Net) (network : String) : List String → List Listener → List Listener
  | [], listeners => listeners
  | addr :: rest, listeners =>
    match net.listen listeners network addr with
    | some _ => NewServer.bind net network rest listeners
    | none => NewServer.bind net network rest (listeners ++ [{ Network := network, Addr := addr }])

/-- Function `NewServer`, up to the listeners: the HTTP server and the
goroutines that serve the listeners are not modelled. The error of
`parseListeners` is not looked at. -/
def NewServer (net : Net) (listenAddrs : List String) (cert key : String) : Lib Server :=
  match net.loadX509KeyPair cert key with
  | some e => .error e
  | none =>
    let parsed := parseListeners net listenAddrs
    let listeners :=
      NewServer.bind net "tcp6" parsed.2.1 (NewServer.bind net "tcp4" parsed.1 [])
    if listeners.length = 0 then .error "no valid listen address"
    else .ok { listeners := listeners }

/-- The address is one `parseListeners` takes: it splits into host and port
and the host is empty, or `*` on plan9, or the text of an IP address. -/
def Net.accepts (net : Net) (addr : String) : Bool :=
  match net.splitHostPort addr with
  | .error _ => false
  | .ok (host, _) =>
    host = "" || (host = "*" && net.goos = "plan9") || (net.parseIP host).isSome

/-- The address is one `parseListeners` puts in the IPv4 slice: the host is
empty, or `*` on plan9, or an IP address for which `To4` is not nil. -/
def Net.listedIPv4 (net : Net) (addr : String) : Bool :=
  match net.splitHostPort addr with
  | .error _ => false
  | .ok (host, _) =>
    host = "" || (host = "*" && net.goos = "plan9") ||
      (match net.parseIP host with
        | none => false
        | some ip => (net.to4 ip).isSome)

/-- The address is one `parseListeners` puts in the IPv6 slice: the host is
empty, or `*` on plan9, or an IP address for which `To4` is nil. -/
def Net.listedIPv6 (net : Net) (addr : String) : Bool :=
  match net.splitHostPort addr with
  | .error _ => false
  | .ok (host, _) =>
    host = "" || (host = "*" && net.goos = "plan9") ||
      (match net.parseIP host with
        | none => false
        | some ip => (net.to4 ip).isNone)

/-! ## Runs of a session -/

/-- A new session as `NewClient` and the accept handler of `NewServer` make
it: only the connection and the role are set. -/
def Session.fresh (server : Bool) (c : Conn B) : Session B :=
  { pid := none, peer := none, sid := none, speer := none, conn := some c,
    confirmation := none, server := server, phase := phaseStartOfDay }

/-- One call of a phase operation, with its arguments. -/
inductive Call where
  | sessionPhase (newId : Option Identity × Option String)
  | identityPhase (pid : Option PublicIdentity)
  | confirmationPhase (c : Option Confirmation)
  | becomeReady

/-- The session after one call. -/
def Call.run (lib : Ext B M) (s : Session B) : Call → Session B
  | .sessionPhase newId => (Session.SessionPhase lib newId s).1
  | .identityPhase pid => (Session.IdentityPhase lib s pid).1
  | .confirmationPhase c => (Session.ConfirmationPhase lib s c).1
  | .becomeReady => s.BecomeReady.1

/-- The session after a sequence of calls, in order. -/
def Session.runCalls (lib : Ext B M) (s : Session B) (calls : List Call) : Session B :=
  calls.foldl (Call.run lib) s

/-- The identity argument of a call is not nil. -/
def Call.identityGiven : Call → Prop
  | .identityPhase pid => pid.isSome = true
  | _ => True

/-- All slots but the connection are the same in both sessions. -/
def Session.sameSlots (s s1 : Session B) : Prop :=
  s1.pid = s.pid ∧ s1.peer = s.peer ∧ s1.sid = s.sid ∧ s1.speer = s.speer ∧
  s1.confirmation = s.confirmation ∧ s1.server = s.server ∧ s1.phase = s.phase

/-- The five slots `BecomeReady` checks are all set. -/
def Session.slotsPresent (s : Session B) : Prop :=
  s.peer.isSome = true ∧ s.sid.isSome = true ∧ s.speer.isSome = true ∧
  s.confirmation.isSome = true ∧ s.conn.isSome = true

/-- A session in the Message phase has the five checked slots set. -/
def Session.readyInv (s : Session B) : Prop :=
  s.phase = phaseMessage → s.slotsPresent

/-- A session that has completed the Identity phase has its own identity. -/
def Session.pidInv (s : Session B) : Prop :=
  (s.phase = phaseIdentity ∨ s.phase = phaseConfirmation ∨ s.phase = phaseMessage) →
    s.pid.isSome = true

/-! ## Assumptions on the library, and the payloads legal in a phase -/

/-- JSON decoding inverts JSON encoding of an RPC document: the encoded
document parses to a map with a `command` and a `payload` entry that decode to
the command string and to the payload. -/
def Ext.jsonInverts (lib : Ext B M) : Prop :=
  ∀ rpc j, lib.marshalRpc rpc = .ok j →
    ∃ objmap rawCommand rawPayload,
      lib.unmarshalObjmap j = .ok objmap ∧
      objmap.lookup "command" = some rawCommand ∧
      objmap.lookup "payload" = some rawPayload ∧
      lib.unmarshalString rawCommand = .ok rpc.Command ∧
      (∀ p, rpc.Payload = .publicIdentity (some p) →
        lib.unmarshalPublicIdentity rawPayload = .ok p) ∧
      (∀ c, rpc.Payload = .confirmation (some c) →
        lib.unmarshalConfirmation rawPayload = .ok c) ∧
      (∀ f, rpc.Payload = .sendFile (some f) →
        lib.unmarshalRpcSendFile rawPayload = .ok f)

/-- Reading a frame as an envelope inverts writing the envelope to a frame. -/
def Ext.frameInverts (lib : Ext B M) : Prop :=
  ∀ m frame, lib.frameOfMessage m = .ok frame → lib.messageOfFrame frame = .ok m

/-- The payload `x` is a value of the type that is legal in `phase`, and `tag`
is the command tag of that type: a public identity in Session (`identity`), a
`Confirmation` in Identity (`confirmation`), an `RpcSendFile` in Message
(`sendfile`). -/
def Payload.legalIn (x : Payload) (phase : Int) (tag : String) : Prop :=
  (phase = phaseSession ∧ tag = RpcIdentity ∧ ∃ p, x = .publicIdentity (some p)) ∨
  (phase = phaseIdentity ∧ tag = RpcConfirmation ∧ ∃ c, x = .confirmation (some c)) ∨
  (phase = phaseMessage ∧ tag = RpcSendFileCommand ∧ ∃ f, x = .sendFile (some f))

/-- The payload `x` is a pointer, nil or not, of the type that is legal in
`phase`, and `tag` is the command tag of that type. -/
def Payload.typedIn (x : Payload) (phase : Int) (tag : String) : Prop :=
  (phase = phaseSession ∧ tag = RpcIdentity ∧ ∃ p, x = .publicIdentity p) ∨
  (phase = phaseIdentity ∧ tag = RpcConfirmation ∧ ∃ c, x = .confirmation c) ∨
  (phase = phaseMessage ∧ tag = RpcSendFileCommand ∧ ∃ f, x = .sendFile f)

/-! ## The channel steps of a call -/

/-- The kind of a channel step: `true` for a write, `false` for a read. -/
def Event.isWrite : Event B → Bool
  | .write _ _ => true
  | .read _ => false

/-- The log of the session's connection (empty when there is none). -/
def Session.log (s : Session B) : List (Event B) :=
  match s.conn with
  | none => []
  | some c => c.log

/-- Between session `s` and session `s1` exactly the channel steps of the
kinds `kinds` were performed, in that order. -/
def Session.didSteps (s s1 : Session B) (kinds : List Bool) : Prop :=
  ∃ evs, s1.log = s.log ++ evs ∧ evs.map Event.isWrite = kinds

/-- The channel steps a client may have performed in one phase call: none,
its send, or its send and then its receive. -/
def Session.clientOrder (s s1 : Session B) : Prop :=
  s.didSteps s1 [] ∨ s.didSteps s1 [true] ∨ s.didSteps s1 [true, false]

/-- The channel steps a server may have performed in one phase call: none,
its receive, or its receive and then its send. -/
def Session.serverOrder (s s1 : Session B) : Prop :=
  s.didSteps s1 [] ∨ s.didSteps s1 [false] ∨ s.didSteps s1 [false, true]

/-- A step that writes at most one frame, and exactly one when it succeeds. -/
def Session.sendLike (s s1 : Session B) (r : Res Unit) : Prop :=
  (r = .ok () ∧ s.didSteps s1 [true]) ∨
  (r ≠ .ok () ∧ (s.didSteps s1 [] ∨ s.didSteps s1 [true]))

/-- A step that reads at most one frame, and exactly one when it succeeds. -/
def Session.recvLike (s s1 : Session B) (r : Res Unit) : Prop :=
  (r = .ok () ∧ s.didSteps s1 [false]) ∨
  (r ≠ .ok () ∧ (s.didSteps s1 [] ∨ s.didSteps s1 [false]))

/-- The role fixed the order of the channel steps of a phase call that took
the session from `s` to `after` with result `r`, where `sendFirst` and
`recvFirst` are the outcomes of the phase's send step and receive step run on
`s`. A client that fails its send step returns that outcome and otherwise
performed its send, or its send and then its receive (both when the call
succeeded); a server likewise with receive before send. -/
def Session.roleFixesOrder (s : Session B) (sendFirst recvFirst : Session B × Res Unit)
    (after : Session B) (r : Res Unit) : Prop :=
  (s.server = false →
    (sendFirst.2 ≠ .ok () → (after, r) = sendFirst) ∧
    s.clientOrder after ∧
    (r = .ok () → s.didSteps after [true, false])) ∧
  (s.server = true →
    (recvFirst.2 ≠ .ok () → (after, r) = recvFirst) ∧
    s.serverOrder after ∧
    (r = .ok () → s.didSteps after [false, true]))

/-! ## A reference instance of the library

Serialized data is kept symbolic: a document is the value it encodes, an
envelope records the sender key, the recipient key and the plaintext, and a
decoder accepts exactly the documents of its own type (a JSON `null` leaves
the zero value). It is used to run the definitions on concrete inputs. -/

/-- Plaintext documents of the reference instance. -/
inductive SymDoc where
  | rpc (r : Rpc)
  | str (s : String)
  | pid (p : Option PublicIdentity)
  | conf (c : Option Confirmation)
  | file (f : Option RpcSendFile)
  | trust (t : TrustRecord)
deriving DecidableEq, Repr

/-- Envelopes of the reference instance. -/
structure SymMsg where
  Sender : PubKey
  Recipient : PubKey
  Body : SymDoc
deriving DecidableEq, Repr

/-- Serialized bytes of the reference instance. -/
inductive SymBytes where
  | doc (d : SymDoc)
  | msg (m : SymMsg)
deriving DecidableEq, Repr

/-- The document of a payload in the reference instance. -/
def symPayload : Payload → SymDoc
  | .publicIdentity p => .pid p
  | .confirmation c => .conf c
  | .sendFile f => .file f
  | .other typeName => .str typeName

/-- The reference instance of the library functions. -/
def symLib : Ext SymBytes SymMsg where
  marshalRpc r := .ok (.doc (.rpc r))
  unmarshalObjmap b :=
    match b with
    | .doc (.rpc r) =>
      .ok [("command", .doc (.str r.Command)), ("payload", .doc (symPayload r.Payload))]
    | _ => .error "json: cannot unmarshal into map"
  unmarshalString b :=
    match b with
    | .doc (.str v) => .ok v
    | _ => .error "json: cannot unmarshal into string"
  unmarshalPublicIdentity b :=
    match b with
    | .doc (.pid (some p)) => .ok p
    | .doc (.pid none) => .ok default
    | _ => .error "json: cannot unmarshal into PublicIdentity"
  unmarshalConfirmation b :=
    match b with
    | .doc (.conf (some c)) => .ok c
    | .doc (.conf none) => .ok default
    | _ => .error "json: cannot unmarshal into Confirmation"
  unmarshalRpcSendFile b :=
    match b with
    | .doc (.file (some f)) => .ok f
    | .doc (.file none) => .ok default
    | _ => .error "json: cannot unmarshal into RpcSendFile"
  encrypt id recipient b :=
    match b with
    | .doc d => .ok { Sender := id.PublicIdentity.Key, Recipient := recipient, Body := d }
    | .msg _ => .error "cannot encrypt"
  decrypt id sender m :=
    if m.Recipient = id.PublicIdentity.Key ∧ m.Sender = sender then .ok (.doc m.Body)
    else .error "could not decrypt"
  frameOfMessage m := .ok (.msg m)
  messageOfFrame b :=
    match b with
    | .msg m => .ok m
    | .doc _ => .error "json: cannot unmarshal into Message"
  frameOfPublicIdentity p := .ok (.doc (.pid (some p)))
  publicIdentityOfFrame b old :=
    match b with
    | .doc (.pid p) => (p, none)
    | _ => (some (old.getD default), some "json: cannot unmarshal into PublicIdentity")
  marshalTrustRecord t := .ok (.doc (.trust t))
  unmarshalTrustRecord b :=
    match b with
    | .doc (.trust t) => .ok t
    | _ => .error "json: cannot unmarshal into TrustRecord"
  messageMarshal m := .ok (.msg m)
  unmarshalMessage b :=
    match b with
    | .msg m => .ok m
    | .doc _ => .error "could not unmarshal message"
  fingerprint p := "fp:" ++ p.Address ++ ":" ++ String.mk (p.Key.map Char.ofNat)

/-! ## A reference instance of the network functions

Text is handled as a list of characters. The IP parser covers dotted-decimal
IPv4 text and colon-hexadecimal IPv6 text, also with an IPv4 address at its
end, without zone. It is used to run `parseListeners` and `NewServer` on
concrete inputs. -/

/-- The text before and after the first `::`, if there is one. -/
def splitEllipsis : List Char → Option (List Char × List Char)
  | [] => none
  | ch :: rest =>
    match ch, rest with
    | ':', ':' :: tail => some ([], tail)
    | _, _ =>
      match splitEllipsis rest with
      | none => none
      | some (left, right) => some (ch :: left, right)

/-- The value of a decimal or hexadecimal digit. -/
def digitValue (ch : Char) : Option Nat :=
  if '0' ≤ ch ∧ ch ≤ '9' then some (ch.toNat - '0'.toNat)
  else if 'a' ≤ ch ∧ ch ≤ 'f' then some (ch.toNat - 'a'.toNat + 10)
  else if 'A' ≤ ch ∧ ch ≤ 'F' then some (ch.toNat - 'A'.toNat + 10)
  else none

/-- The number written by the digits in the base, when every character is a
digit of the base. -/
def numberIn (base : Nat) (digits : List Char) : Option Nat :=
  digits.foldl
    (fun acc ch =>
      match acc, digitValue ch with
      | some n, some d => if d < base then some (n * base + d) else none
      | _, _ => none)
    (some 0)

/-- One field of a dotted-decimal IPv4 address: one to three digits, no
leading zero, at most 255. -/
def refOctet (field : List Char) : Option Nat :=
  if field = [] ∨ 3 < field.length ∨ (1 < field.length ∧ field.head? = some '0') then none
  else
    match numberIn 10 field with
    | some n => if n ≤ 255 then some n else none
    | none => none

/-- One group of a colon-hexadecimal IPv6 address: one to four hexadecimal
digits, as its two bytes. -/
def refGroup (field : List Char) : Option (List Nat) :=
  if field = [] ∨ 4 < field.length then none
  else
    match numberIn 16 field with
    | some n => some [n / 256, n % 256]
    | none => none

/-- The 16-byte form of an IPv4 address (`net.IPv4`). -/
def refIPv4 (a b c d : Nat) : List Nat :=
  [0, 0, 0, 0, 0, 0, 0, 0, 0, 0, 255, 255, a, b, c, d]

/-- The four bytes of a dotted-decimal IPv4 text. -/
def refDotted (text : List Char) : Option (List Nat) :=
  match splitFields '.' text with
  | [f1, f2, f3, f4] =>
    match refOctet f1, refOctet f2, refOctet f3, refOctet f4 with
    | some a, some b, some c, some d => some [a, b, c, d]
    | _, _, _, _ => none
  | _ => none

/-- The groups of the last field of an IPv6 text: one group of hexadecimal
digits or, when `dotted` allows it, the two groups of an embedded IPv4
address. -/
def refLastGroups (dotted : Bool) (field : List Char) : Option (List (List Nat)) :=
  if dotted = true ∧ field.contains '.' then
    match refDotted field with
    | some [a, b, c, d] => some [[a, b], [c, d]]
    | _ => none
  else
    match refGroup field with
    | some g => some [g]
    | none => none

/-- The bytes of the colon-separated groups of a text, none when a group is
not valid; the empty text has no group. The last field may be an embedded
IPv4 address when `dotted` allows it. -/
def refGroups (dotted : Bool) (text : List Char) : Option (List (List Nat)) :=
  if text = [] then some []
  else
    (splitFields ':' text).foldr
      (fun field acc =>
        match acc with
        | none => none
        | some [] => refLastGroups dotted field
        | some gs =>
          match refGroup field with
          | some g => some (g :: gs)
          | none => none)
      (some [])

/-- A reference `net.ParseIP`: the 16 bytes of the address, for
dotted-decimal IPv4 text and for colon-hexadecimal IPv6 text, with or without
`::` and an IPv4 address at its end, without zone. -/
def refParseIP (host : String) : Option (List Nat) :=
  let text := host.toList
  if text.contains ':' then
    match splitEllipsis text with
    | none =>
      match refGroups true text with
      | some groups => if groups.length = 8 then some groups.flatten else none
      | none => none
    | some (left, right) =>
      match refGroups false left, refGroups true right with
      | some front, some back =>
        if front.length + back.length ≤ 7 then
          some (front.flatten ++ List.replicate (2 * (8 - (front.length + back.length))) 0
            ++ back.flatten)
        else none
      | _, _ => none
  else
    match refDotted text with
    | some [a, b, c, d] => some (refIPv4 a b c d)
    | _ => none

/-- A reference `IP.To4`: the four bytes of a 4-byte address or of a 16-byte
address with the IPv4-in-IPv6 prefix. -/
def refTo4 (ip : List Nat) : Option (List Nat) :=
  if ip.length = 4 then some ip
  else if ip.length = 16 ∧ ip.take 10 = List.replicate 10 0 ∧ (ip.drop 10).take 2 = [255, 255]
  then some (ip.drop 12)
  else none

/-- A reference `net.SplitHostPort`. -/
def refSplitHostPort (hostport : String) : Lib (String × String) :=
  let text := hostport.toList
  let fail (why : String) : Lib (String × String) :=
    .error ("address " ++ hostport ++ ": " ++ why)
  -- The port starts after the last colon.
  let port := (text.reverse.takeWhile (fun ch => ch ≠ ':')).reverse
  match text.reverse.dropWhile (fun ch => ch ≠ ':') with
  | [] => fail "missing port in address"
  | _ :: beforeRev =>
    let before := beforeRev.reverse
    match text with
    | '[' :: inner =>
      -- Expect the first ']' just before the last ':'.
      let host := inner.takeWhile (fun ch => ch ≠ ']')
      match inner.dropWhile (fun ch => ch ≠ ']') with
      | [] => fail "missing ']' in address"
      | _ :: [] => fail "missing port in address"
      | _ :: ':' :: tail =>
        if tail.contains ':' then fail "too many colons in address"
        else if inner.contains '[' then fail "unexpected '[' in address"
        else if tail.contains ']' then fail "unexpected ']' in address"
        else .ok (String.mk host, String.mk port)
      | _ :: _ => fail "missing port in address"
    | _ =>
      if before.contains ':' then fail "too many colons in address"
      else if text.contains '[' then fail "unexpected '[' in address"
      else if text.contains ']' then fail "unexpected ']' in address"
      else .ok (String.mk before, String.mk port)

/-- The reference network on the operating system `goos`: the key pair
always loads, and a listen fails exactly when the address is in `busy` or is
bound already on that network. -/
def refNet (goos : String) (busy : List Listener) : Net where
  splitHostPort := refSplitHostPort
  parseIP := refParseIP
  to4 := refTo4
  goos := goos
  loadX509KeyPair _ _ := none
  listen bound network addr :=
    if { Network := network, Addr := addr } ∈ busy ∨ { Network := network, Addr := addr } ∈ bound
    then some ("listen " ++ network ++ " " ++ addr ++ ": bind: address already in use")
    else none

/-- Alice, the local identity of the examples. -/
def alice : Identity :=
  { PublicIdentity :=
      { Name := "Alice", Address := "alice@localhost", Key := [1, 1], Signature := [],
        Identifiers := [] },
    PrivateKey := [7] }

/-- Bob, the peer of the examples. -/
def bob : Identity :=
  { PublicIdentity :=
      { Name := "Bob", Address := "bob@localhost", Key := [2, 2], Signature := [],
        Identifiers := [] },
    PrivateKey := [8] }

/-- Alice's ephemeral session identity in the examples. -/
def aliceSid : Identity :=
  { PublicIdentity := { Name := "", Address := "", Key := [3], Signature := [], Identifiers := [] },
    PrivateKey := [9] }

/-- Bob's ephemeral session identity in the examples. -/
def bobSid : Identity :=
  { PublicIdentity := { Name := "", Address := "", Key := [4], Signature := [], Identifiers := [] },
    PrivateKey := [10] }

/-- The confirmation Alice sends when she dials Bob. -/
def aliceLooksForBob : Confirmation :=
  { LookingFor := "bob@localhost", MaxFrameSize := 10485760, Error := "", State := 0 }

/-- The RPC frame `from` sends to `to` in the reference instance. -/
def symFrame (sender recipient : Identity) (command : String) (payload : Payload) : SymBytes :=
  .msg { Sender := sender.PublicIdentity.Key, Recipient := recipient.PublicIdentity.Key,
         Body := .rpc { Command := command, Payload := payload } }

/-- The client side of a handshake with Bob's server: the connection delivers
Bob's session identity, his long-term identity and his echo of the
confirmation, and every write succeeds. -/
def clientConn : Conn SymBytes :=
  { incoming :=
      [.ok (.doc (.pid (some bobSid.PublicIdentity))),
       .ok (symFrame bobSid aliceSid RpcIdentity (.publicIdentity (some bob.PublicIdentity))),
       .ok (symFrame bobSid aliceSid RpcConfirmation (.confirmation (some aliceLooksForBob)))],
    outcomes := [none, none, none],
    log := [] }

/-- The calls of a complete client handshake in which Alice passes her
long-term public identity. -/
def clientCalls : List Call :=
  [.sessionPhase (some aliceSid, none), .identityPhase (some alice.PublicIdentity),
   .confirmationPhase (some aliceLooksForBob), .becomeReady]

/-- The calls of a complete client handshake in which the caller passes a nil
public identity to `IdentityPhase`. -/
def clientCallsNilIdentity : List Call :=
  [.sessionPhase (some aliceSid, none), .identityPhase none,
   .confirmationPhase (some aliceLooksForBob), .becomeReady]

/-- A confirmation that names an address Bob does not have. -/
def aliceLooksForEve : Confirmation :=
  { LookingFor := "eve@localhost", MaxFrameSize := 10485760, Error := "", State := 0 }

/-- The confirmation `ServerCallback` prepares for a peer it trusts. -/
def serverReply : Confirmation :=
  { LookingFor := "", MaxFrameSize := 10 * 1024 * 1024, Error := "", State := 0 }

/-- The server side of a handshake in which the client asks for the wrong
address: the connection delivers Alice's session identity, her long-term
identity and a confirmation looking for `eve@localhost`; every write
succeeds. -/
def serverConnWrongAddress : Conn SymBytes :=
  { incoming :=
      [.ok (.doc (.pid (some aliceSid.PublicIdentity))),
       .ok (symFrame aliceSid bobSid RpcIdentity (.publicIdentity (some alice.PublicIdentity))),
       .ok (symFrame aliceSid bobSid RpcConfirmation (.confirmation (some aliceLooksForEve)))],
    outcomes := [none, none, none],
    log := [] }

/-- Bob's server session after `SessionPhase` and `IdentityPhase` on that
connection: it is in the Identity phase and the confirmation is still to be
read. -/
def serverAtIdentity : Session SymBytes :=
  Session.runCalls symLib (Session.fresh true serverConnWrongAddress)
    [.sessionPhase (some bobSid, none), .identityPhase (some bob.PublicIdentity)]

/-- Bob's server session in the Identity phase when an `identity` message is
delivered once more. -/
def identityReplayed : Session SymBytes :=
  { serverAtIdentity with
    conn := some
      { incoming :=
          [.ok (symFrame aliceSid bobSid RpcIdentity
            (.publicIdentity (some alice.PublicIdentity)))],
        outcomes := [], log := [] } }

/-- Alice's client session after `SessionPhase`. -/
def clientAtSession : Session SymBytes :=
  Session.runCalls symLib (Session.fresh false clientConn) [.sessionPhase (some aliceSid, none)]

/-- Bob's server session after `SessionPhase`; the next frame on its
connection is Alice's `identity` message. -/
def serverAtSession : Session SymBytes :=
  Session.runCalls symLib (Session.fresh true serverConnWrongAddress)
    [.sessionPhase (some bobSid, none)]

/-- Bob's server session after `SessionPhase` when the frame its connection
delivers next is an `identity` message with a nil public identity. -/
def serverGetsNilIdentity : Session SymBytes :=
  { serverAtSession with
    conn := some
      { incoming := [.ok (symFrame aliceSid bobSid RpcIdentity (.publicIdentity none))],
        outcomes := [], log := [] } }

/-- Eve, a third identity of the examples. -/
def eve : Identity :=
  { PublicIdentity :=
      { Name := "Eve", Address := "eve@localhost", Key := [5, 5], Signature := [],
        Identifiers := [] },
    PrivateKey := [11] }

/-- Eve's ephemeral session identity in the examples. -/
def eveSid : Identity :=
  { PublicIdentity := { Name := "", Address := "", Key := [6], Signature := [], Identifiers := [] },
    PrivateKey := [12] }

/-- The connection of Bob's server for an inbound session of `peer`, whose
session identity is `peerSid` and who sends the confirmation `conf`; every
write succeeds. -/
def serverConnFrom (peer peerSid : Identity) (conf : Confirmation) : Conn SymBytes :=
  { incoming :=
      [.ok (.doc (.pid (some peerSid.PublicIdentity))),
       .ok (symFrame peerSid bobSid RpcIdentity (.publicIdentity (some peer.PublicIdentity))),
       .ok (symFrame peerSid bobSid RpcConfirmation (.confirmation (some conf)))],
    outcomes := [none, none, none],
    log := [] }

/-- Bob's orchestrator with the trust store `trust`, no waiter, no client. -/
def bobCore (trust : Trust SymBytes) : Core SymBytes :=
  { identity := some bob, trust := trust, mtxVerifyWaiter := false, verifyWaiters := [],
    clients := [], files := [], events := [] }

/-- Bob's orchestrator after the first inbound session, from Alice, on an
empty trust store. -/
def bobAfterAlice : Core SymBytes :=
  (Core.serverHandshake symLib 7 (some bobSid, none) (bobCore ⟨[]⟩)
    (Session.fresh true (serverConnFrom alice aliceSid aliceLooksForBob))).1

/-- Bob's orchestrator after the operator has promoted the one record shown
in the trust view to Allowed (`UpdateTrustRecord`). -/
def bobAfterPromotion : Core SymBytes :=
  (Core.handleIncoming symLib 8 bobAfterAlice
    (.updateTrustRecord
      (some { PublicIdentity := some bob.PublicIdentity, Inserted := 7, LastUpdate := 0,
              State := StateAllowed, FreeToUse := none }))).1

/-- The connection of Alice's client when the node she dialled presents the
long-term identity `peer`; the last frame is the confirmation `reply` of the
server, and every write succeeds. -/
def clientConnTo (peer peerSid : Identity) (reply : Confirmation) : Conn SymBytes :=
  { incoming :=
      [.ok (.doc (.pid (some peerSid.PublicIdentity))),
       .ok (symFrame peerSid aliceSid RpcIdentity (.publicIdentity (some peer.PublicIdentity))),
       .ok (symFrame peerSid aliceSid RpcConfirmation (.confirmation (some reply)))],
    outcomes := [none, none, none, none],
    log := [] }

/-- Alice's client session after `DefaultSession` on such a connection. -/
def clientAfterDefault (peer peerSid : Identity) (reply : Confirmation) : Session SymBytes :=
  (Session.DefaultSession symLib (some aliceSid, none)
    (Session.fresh false (clientConnTo peer peerSid reply)) (some alice.PublicIdentity)).1

/-- The file Alice sends in the examples. -/
def noteForBob : SendFile :=
  { To := "bob@localhost", Filename := "/home/alice/note.txt", Mime := "text/plain" }

/-- Alice's orchestrator with the trust store `trust` and one client session. -/
def aliceCore (trust : Trust SymBytes) (client : Session SymBytes) : Core SymBytes :=
  { identity := some alice, trust := trust, mtxVerifyWaiter := false, verifyWaiters := [],
    clients := [client], files := [("/home/alice/note.txt", [104, 101, 108, 108, 111])],
    events := [] }

/-- A trust store of Alice that holds Bob as Allowed and nothing else. -/
def aliceTrustsBob : Trust SymBytes :=
  (Trust.Add symLib ⟨[]⟩ (some alice) (some bob.PublicIdentity) StateAllowed none false 3).1

/-- The confirmation Bob's server sends to a peer it has just queued. -/
def queuedReply : Confirmation :=
  { serverConfirmation with State := StateQueued }

/-- Alice's orchestrator parked in `verifyHost` for the unknown peer Bob. -/
def aliceParked : Core SymBytes :=
  (Core.verifyHost symLib (aliceCore ⟨[]⟩ (clientAfterDefault bob bobSid serverConfirmation))
    "bob@localhost" 0 (.handleSendFile 0 noteForBob)).1

/-- Alice's trust store after a first contact she accepted: the UI was
asked about her own identity and answered Allowed with the identity it was
asked about, so the one record is her own. -/
def aliceTrustsSelf : Trust SymBytes :=
  (Core.handleIncoming symLib 5 aliceParked
    (.uiConfirmPublicIdentityReply (some alice.PublicIdentity) StateAllowed)).1.trust

/-- A file Alice sends to her own address. -/
def noteForSelf : SendFile :=
  { To := "alice@localhost", Filename := "/home/alice/note.txt", Mime := "text/plain" }

/-- A trust store of Alice that holds herself and Eve as Allowed. -/
def aliceTrustsEveAndSelf : Trust SymBytes :=
  (Trust.Add symLib
    (Trust.Add symLib ⟨[]⟩ (some alice) (some alice.PublicIdentity) StateAllowed none false 3).1
    (some alice) (some eve.PublicIdentity) StateAllowed none false 4).1

/-- A trust store of Bob that holds himself and Alice as Allowed. -/
def bobTrustsAliceAndSelf : Trust SymBytes :=
  (Trust.Add symLib
    (Trust.Add symLib ⟨[]⟩ (some bob) (some bob.PublicIdentity) StateAllowed none false 3).1
    (some bob) (some alice.PublicIdentity) StateAllowed none false 4).1

/-- A confirmation of Alice that asks for a frame size of 4096. -/
def aliceAsksSmallFrames : Confirmation :=
  { LookingFor := "bob@localhost", MaxFrameSize := 4096, Error := "", State := 0 }

/-- Bob's server session after `DefaultSession` with Alice as peer, when she
asks for small frames. -/
def serverAfterDefault : Session SymBytes :=
  (Session.DefaultSession symLib (some bobSid, none)
    (Session.fresh true (serverConnFrom alice aliceSid aliceAsksSmallFrames))
    (some bob.PublicIdentity)).1

/-- That session after the receive step of the confirmation phase. -/
def serverAfterRecv : Session SymBytes :=
  (Session.confirmationPhaseRecv symLib serverAfterDefault).1

/-- The connection of that session: everything has been read, one write is
to come. -/
def serverConnAfterRecv : Conn SymBytes :=
  { incoming := [],
    outcomes := [none],
    log :=
      [.read (.ok (.doc (.pid (some aliceSid.PublicIdentity)))),
       .write (.doc (.pid (some bobSid.PublicIdentity))) none,
       .read (.ok (symFrame aliceSid bobSid RpcIdentity
        (.publicIdentity (some alice.PublicIdentity)))),
       .write (symFrame bobSid aliceSid RpcIdentity
        (.publicIdentity (some bob.PublicIdentity))) none,
       .read (.ok (symFrame aliceSid bobSid RpcConfirmation
        (.confirmation (some aliceAsksSmallFrames))))] }

/-- A trust store of Alice that holds Bob with the state 7, which has no
name in `State`. -/
def aliceHoldsOddState : Trust SymBytes :=
  (Trust.Add symLib ⟨[]⟩ (some alice) (some bob.PublicIdentity) 7 none false 3).1

/-- A reference `json.Marshal` of a `MetaRecord`: the version, the creation
time and the characters of the MIME type. -/
def refMarshalMeta (m : MetaRecord) : Lib (List Nat) :=
  .ok (m.Version :: m.Created.toNat :: m.Mime.toList.map Char.toNat)

/-- Bob's orchestrator with its directory under his home directory; the trust
store holds Bob himself and Alice as Allowed. -/
def bobNode : Core SymBytes :=
  { bobCore bobTrustsAliceAndSelf with scommsDir := "/home/bob/scomms" }

/-- Bob's file system before any file is received: the process runs in his
home directory, and the directory of the node holds his identity file. -/
def bobDisk : Disk :=
  { cwd := ["home", "bob"],
    dirs := ["/home", "/home/bob", "/home/bob/scomms"],
    files := [("/home/bob/scomms/scomms.id", [1, 2, 3])],
    random := ["123456", "654321"] }

/-- Bob's file system when his spool holds a file `note.txt` received from
Alice before. -/
def bobDiskWithNote : Disk :=
  { bobDisk with
    dirs := bobDisk.dirs ++ ["/home/bob/scomms/spool", "/home/bob/scomms/spool/alice@localhost"],
    files :=
      bobDisk.files ++ [("/home/bob/scomms/spool/alice@localhost/note.txt", [111, 108, 100])] }

/-- A confirmation of Alice that asks for a frame size of 4 bytes. -/
def aliceAsksTinyFrames : Confirmation :=
  { LookingFor := "bob@localhost", MaxFrameSize := 4, Error := "", State := 0 }

/-- The connection of Bob's server for an inbound session of Alice who sends
the confirmation `conf` and then the files `sent`; every write succeeds. -/
def serverConnWithFiles (conf : Confirmation) (sent : List RpcSendFile) : Conn SymBytes :=
  { incoming :=
      (serverConnFrom alice aliceSid conf).incoming ++
        sent.map (fun f => .ok (symFrame aliceSid bobSid RpcSendFileCommand (.sendFile (some f)))),
    outcomes := [none, none, none],
    log := [] }

/-- The file `note.txt` with the five bytes of `hello`. -/
def helloNote : RpcSendFile :=
  { Filename := "note.txt", Mime := "text/plain", Content := [104, 101, 108, 108, 111] }

/-- A file whose name climbs out of the spool to Bob's identity file. -/
def climbingNote : RpcSendFile :=
  { Filename := "../../scomms.id", Mime := "text/plain", Content := [104, 101, 108, 108, 111] }

/-- A file whose name climbs out of the spool to a name that does not exist
in the directory of the node. -/
def plantedNote : RpcSendFile :=
  { Filename := "../../planted.txt", Mime := "text/plain", Content := [104, 101, 108, 108, 111] }

/-- Bob's file system when, besides the note in his spool, the working
directory of the process holds a file `note.txt` of its own. -/
def bobDiskNoteInCwd : Disk :=
  { bobDiskWithNote with files := bobDiskWithNote.files ++ [("/home/bob/note.txt", [7])] }

/-- The sidecar the reference instance writes for a `text/plain` file at clock
reading 9. -/
def plainMeta : List Nat :=
  [1, 9, 116, 101, 120, 116, 47, 112, 108, 97, 105, 110]

/-! ## Lemmas on the store -/

theorem dbGet_dbPut_self (key : PubKey) (value : B) (db : Db B) :
    dbGet key (dbPut key value db) = .ok value := by
  induction db with
  | nil => simp [dbPut, dbGet]
  | cons head rest ih =>
    obtain ⟨k, v⟩ := head
    unfold dbPut
    by_cases h1 : k = key
    · simp [h1, dbGet]
    · by_cases h2 : keyLt key k = true
      · simp [h1, h2, dbGet]
      · simp [h1, h2, dbGet, ih]

theorem dbGet_dbPut_other (key other : PubKey) (value : B) (db : Db B)
    (hne : other ≠ key) : dbGet other (dbPut key value db) = dbGet other db := by
  induction db with
  | nil => simp [dbPut, dbGet, Ne.symm hne]
  | cons head rest ih =>
    obtain ⟨k, v⟩ := head
    unfold dbPut
    by_cases h1 : k = key
    · subst h1
      simp [dbGet, Ne.symm hne]
    · by_cases h2 : keyLt key k = true
      · simp [h1, h2, dbGet, Ne.symm hne]
      · simp [h1, h2, dbGet, ih]

/-- A successful `put` went through every library call and stored the
serialized envelope under the record's public key. -/
theorem Trust.put_ok (lib : Ext B M) (t t1 : Trust B) (id : Option Identity)
    (tr : TrustRecord) (h : Trust.put lib t id tr = (t1, .ok ())) :
    ∃ idv p payload msg dbPayload,
      id = some idv ∧ tr.PublicIdentity = some p ∧
      lib.marshalTrustRecord tr = .ok payload ∧
      lib.encrypt idv idv.PublicIdentity.Key payload = .ok msg ∧
      lib.messageMarshal msg = .ok dbPayload ∧
      t1 = { t with db := dbPut p.Key dbPayload t.db } := by
  unfold Trust.put at h
  split at h
  · simp at h
  · rename_i payload hpayload
    split at h
    · simp at h
    · rename_i idv
      split at h
      · simp at h
      · rename_i msg hmsg
        split at h
        · simp at h
        · rename_i dbPayload hdb
          split at h
          · simp at h
          · rename_i p hp
            simp at h
            exact ⟨idv, p, payload, msg, dbPayload, rfl, hp, hpayload, hmsg, hdb, h.symm⟩

/-- A successful `Add` is a successful `put` of the fresh record. -/
theorem Trust.Add_ok (lib : Ext B M) (t t1 : Trust B) (id : Option Identity)
    (trustee : Option PublicIdentity) (state : Int)
    (freeToUse : Option (List (String × String))) (overwrite : Bool) (now : Time)
    (h : Trust.Add lib t id trustee state freeToUse overwrite now = (t1, .ok ())) :
    Trust.put lib t id
      { PublicIdentity := trustee, Inserted := now, LastUpdate := 0,
        State := state, FreeToUse := freeToUse } = (t1, .ok ()) := by
  unfold Trust.Add at h
  simp only at h
  split at h
  · split at h
    · simp at h
    · split at h
      · simp at h
      · exact h
  · exact h

/-! ## Laws of the reference instance -/

theorem symLib_trustRecord_inverts (tr : TrustRecord) (b : SymBytes)
    (h : symLib.marshalTrustRecord tr = .ok b) : symLib.unmarshalTrustRecord b = .ok tr := by
  simp only [symLib, Lib.ok.injEq] at h
  subst h
  rfl

theorem symLib_message_inverts (m : SymMsg) (b : SymBytes)
    (h : symLib.messageMarshal m = .ok b) : symLib.unmarshalMessage b = .ok m := by
  simp only [symLib, Lib.ok.injEq] at h
  subst h
  rfl

theorem symLib_frame_inverts (m : SymMsg) (b : SymBytes)
    (h : symLib.frameOfMessage m = .ok b) : symLib.messageOfFrame b = .ok m := by
  simp only [symLib, Lib.ok.injEq] at h
  subst h
  rfl

theorem symLib_decrypt_encrypt (a r : Identity) (b : SymBytes) (m : SymMsg)
    (h : symLib.encrypt a r.PublicIdentity.Key b = .ok m) :
    symLib.decrypt r a.PublicIdentity.Key m = .ok b := by
  cases b with
  | doc d =>
    simp only [symLib, Lib.ok.injEq] at h
    subst h
    simp [symLib]
  | msg m1 => simp [symLib] at h

theorem symLib_self_decrypt (id : Identity) (b : SymBytes) (m : SymMsg)
    (h : symLib.encrypt id id.PublicIdentity.Key b = .ok m) :
    symLib.decrypt id id.PublicIdentity.Key m = .ok b :=
  symLib_decrypt_encrypt id id b m h

theorem symLib_jsonInverts : symLib.jsonInverts := by
  intro rpc j h
  simp only [symLib, Lib.ok.injEq] at h
  subst h
  refine ⟨_, _, _, rfl, rfl, rfl, rfl, ?_, ?_, ?_⟩
  · intro p hp
    simp only [hp, symPayload]
    rfl
  · intro c hc
    simp only [hc, symPayload]
    rfl
  · intro f hf
    simp only [hf, symPayload]
    rfl

theorem symLib_frameInverts : symLib.frameInverts :=
  symLib_frame_inverts

/-! ## Trust store: duplicate insert and round trip -/

/-- C1: after a successful `Trust.Add` of a peer without overwrite, a second
`Trust.Add` without overwrite for the same peer public key returns the
duplicate error `public key already exists` and leaves the store as it was,
for every local identity, state, `free_to_use` map and clock reading of either
call. -/
theorem Trust.Add_duplicate_fails (lib : Ext B M) (t t1 : Trust B)
    (id id2 : Option Identity) (peer peer2 : PublicIdentity) (s1 s2 : Int)
    (f1 f2 : Option (List (String × String))) (now1 now2 : Time)
    (hkey : peer2.Key = peer.Key)
    (hadd : Trust.Add lib t id (some peer) s1 f1 false now1 = (t1, .ok ())) :
    Trust.Add lib t1 id2 (some peer2) s2 f2 false now2
      = (t1, .err "public key already exists") := by
  obtain ⟨idv, p, payload, msg, dbPayload, -, hp, -, -, -, ht1⟩ :=
    Trust.put_ok lib t t1 id _ (Trust.Add_ok lib t t1 id _ s1 f1 false now1 hadd)
  simp only [Option.some.injEq] at hp
  subst hp
  subst ht1
  unfold Trust.Add
  simp [hkey, dbGet_dbPut_self]

/-- Witness of C1: Alice adds Bob as Allowed with a note, then adds him again
as Queued. -/
theorem Trust.Add_duplicate_fails_witness :
    Trust.Add symLib (⟨[]⟩ : Trust SymBytes) (some alice) (some bob.PublicIdentity)
        StateAllowed (some [("moo", "meh")]) false 5
      = (⟨[([2, 2], .msg ⟨[1, 1], [1, 1],
            .trust ⟨some bob.PublicIdentity, 5, 0, StateAllowed, some [("moo", "meh")]⟩⟩)]⟩,
          .ok ()) ∧
    Trust.Add symLib
        (⟨[([2, 2], .msg ⟨[1, 1], [1, 1],
            .trust ⟨some bob.PublicIdentity, 5, 0, StateAllowed, some [("moo", "meh")]⟩⟩)]⟩ :
          Trust SymBytes)
        (some alice) (some bob.PublicIdentity) StateQueued none false 9
      = (⟨[([2, 2], .msg ⟨[1, 1], [1, 1],
            .trust ⟨some bob.PublicIdentity, 5, 0, StateAllowed, some [("moo", "meh")]⟩⟩)]⟩,
          .err "public key already exists") :=
  ⟨rfl, Trust.Add_duplicate_fails symLib ⟨[]⟩ _ (some alice) (some alice)
    bob.PublicIdentity bob.PublicIdentity StateAllowed StateQueued
    (some [("moo", "meh")]) none 5 9 rfl rfl⟩

/-- C2: round trip of the trust store. When unmarshalling inverts marshalling
of envelopes and of trust records and decrypting with `id` what `id` encrypted
to itself returns the plaintext, then after a successful `Trust.Add` of a peer
(with or without overwrite) `Trust.Get` of that peer succeeds and returns the
record with the added public identity, state and `free_to_use`, the insertion
time of the add, and the zero `last_update`. -/
theorem Trust.Get_after_Add (lib : Ext B M) (t t1 : Trust B) (id : Identity)
    (peer : PublicIdentity) (state : Int) (freeToUse : Option (List (String × String)))
    (overwrite : Bool) (now : Time)
    (hjson : ∀ tr b, lib.marshalTrustRecord tr = .ok b → lib.unmarshalTrustRecord b = .ok tr)
    (hmsg : ∀ m b, lib.messageMarshal m = .ok b → lib.unmarshalMessage b = .ok m)
    (hcrypt : ∀ b m, lib.encrypt id id.PublicIdentity.Key b = .ok m →
      lib.decrypt id id.PublicIdentity.Key m = .ok b)
    (hadd : Trust.Add lib t (some id) (some peer) state freeToUse overwrite now
      = (t1, .ok ())) :
    Trust.Get lib t1 (some id) (some peer)
      = .ok { PublicIdentity := some peer, Inserted := now, LastUpdate := 0,
              State := state, FreeToUse := freeToUse } := by
  obtain ⟨idv, p, payload, msg, dbPayload, hid, hp, hpayload, hmsg1, hdb, ht1⟩ :=
    Trust.put_ok lib t t1 (some id) _
      (Trust.Add_ok lib t t1 (some id) _ state freeToUse overwrite now hadd)
  simp only [Option.some.injEq] at hid hp
  subst hid
  subst hp
  subst ht1
  unfold Trust.Get Trust.get Trust.decrypt
  simp [dbGet_dbPut_self, hmsg _ _ hdb, hcrypt _ _ hmsg1, hjson _ _ hpayload]

/-- Witness of C2: Alice adds Bob with a note and reads the record back. -/
theorem Trust.Get_after_Add_witness :
    Trust.Get symLib
        (Trust.Add symLib (⟨[]⟩ : Trust SymBytes) (some alice) (some bob.PublicIdentity)
          StateAllowed (some [("note", "hi")]) false 5).1
        (some alice) (some bob.PublicIdentity)
      = .ok { PublicIdentity := some bob.PublicIdentity, Inserted := 5, LastUpdate := 0,
              State := StateAllowed, FreeToUse := some [("note", "hi")] } :=
  Trust.Get_after_Add symLib ⟨[]⟩ _ alice bob.PublicIdentity StateAllowed
    (some [("note", "hi")]) false 5
    symLib_trustRecord_inverts symLib_message_inverts (symLib_self_decrypt alice) rfl

/-! ## What each step of a session may change -/

theorem Session.RpcSend_sameSlots (lib : Ext B M) (s : Session B) (command : Payload) :
    Session.sameSlots s (Session.RpcSend lib s command).1 := by
  unfold Session.RpcSend Session.sameSlots
  simp only
  repeat' split
  all_goals simp

theorem Session.RpcReceive_sameSlots (lib : Ext B M) (s : Session B) :
    Session.sameSlots s (Session.RpcReceive lib s).1 := by
  unfold Session.RpcReceive Session.sameSlots
  simp only
  repeat' split
  all_goals simp

theorem Session.sessionPhaseSend_keeps (lib : Ext B M)
    (newId : Option Identity × Option String) (s : Session B) :
    (Session.sessionPhaseSend lib newId s).1.pid = s.pid ∧
    (Session.sessionPhaseSend lib newId s).1.server = s.server ∧
    (Session.sessionPhaseSend lib newId s).1.phase = s.phase := by
  unfold Session.sessionPhaseSend
  simp only
  repeat' split
  all_goals simp

theorem Session.sessionPhaseRecv_keeps (lib : Ext B M) (s : Session B) :
    (Session.sessionPhaseRecv lib s).1.pid = s.pid ∧
    (Session.sessionPhaseRecv lib s).1.server = s.server ∧
    (Session.sessionPhaseRecv lib s).1.phase = s.phase := by
  unfold Session.sessionPhaseRecv
  repeat' split
  all_goals simp

theorem Session.identityPhaseRecv_keeps (lib : Ext B M) (s : Session B) :
    (Session.identityPhaseRecv lib s).1.pid = s.pid ∧
    (Session.identityPhaseRecv lib s).1.server = s.server ∧
    (Session.identityPhaseRecv lib s).1.phase = s.phase := by
  have h := Session.RpcReceive_sameSlots lib s
  unfold Session.sameSlots at h
  unfold Session.identityPhaseRecv
  split <;> simp_all

theorem Session.confirmationPhaseRecv_keeps (lib : Ext B M) (s : Session B) :
    (Session.confirmationPhaseRecv lib s).1.pid = s.pid ∧
    (Session.confirmationPhaseRecv lib s).1.server = s.server ∧
    (Session.confirmationPhaseRecv lib s).1.phase = s.phase := by
  have h := Session.RpcReceive_sameSlots lib s
  unfold Session.sameSlots at h
  unfold Session.confirmationPhaseRecv
  split <;> simp_all

theorem Session.advance_ok (s : Session B) (r : Res Unit) (f : Session B → Session B) :
    ((Session.advance s r f).2 = .ok () ∧ r = .ok () ∧ (Session.advance s r f).1 = f s) ∨
    ((Session.advance s r f).2 ≠ .ok () ∧ (Session.advance s r f).2 = r ∧
      (Session.advance s r f).1 = s) := by
  unfold Session.advance
  cases r <;> simp

theorem Session.SessionPhase_effect (lib : Ext B M)
    (newId : Option Identity × Option String) (s : Session B) :
    (Session.SessionPhase lib newId s).1.pid = s.pid ∧
    (((Session.SessionPhase lib newId s).2 = .ok () ∧ s.phase = phaseStartOfDay ∧
        (Session.SessionPhase lib newId s).1.phase = phaseSession) ∨
      ((Session.SessionPhase lib newId s).2 ≠ .ok () ∧
        (Session.SessionPhase lib newId s).1.phase = s.phase)) := by
  unfold Session.SessionPhase
  by_cases hp : s.phase = phaseStartOfDay
  · by_cases hs : s.server = true
    · have h1 := Session.sessionPhaseRecv_keeps lib s
      rcases hrecv : Session.sessionPhaseRecv lib s with ⟨s1, r1⟩
      have h2 := Session.sessionPhaseSend_keeps lib newId s1
      rcases hsend : Session.sessionPhaseSend lib newId s1 with ⟨s2, r2⟩
      rw [hrecv] at h1
      rw [hsend] at h2
      cases r1 <;> cases r2 <;> simp_all [Session.advance]
    · have h1 := Session.sessionPhaseSend_keeps lib newId s
      rcases hsend : Session.sessionPhaseSend lib newId s with ⟨s1, r1⟩
      have h2 := Session.sessionPhaseRecv_keeps lib s1
      rcases hrecv : Session.sessionPhaseRecv lib s1 with ⟨s2, r2⟩
      rw [hsend] at h1
      rw [hrecv] at h2
      cases r1 <;> cases r2 <;> simp_all [Session.advance]
  · simp [hp]

theorem Session.IdentityPhase_effect (lib : Ext B M) (s : Session B)
    (pid : Option PublicIdentity) :
    ((Session.IdentityPhase lib s pid).2 = .ok () ∧ s.phase = phaseSession ∧
        (Session.IdentityPhase lib s pid).1.phase = phaseIdentity ∧
        (Session.IdentityPhase lib s pid).1.pid = pid) ∨
      ((Session.IdentityPhase lib s pid).2 ≠ .ok () ∧
        (Session.IdentityPhase lib s pid).1.phase = s.phase ∧
        (Session.IdentityPhase lib s pid).1.pid = s.pid) := by
  unfold Session.IdentityPhase Session.identityPhaseSend
  by_cases hp : s.phase = phaseSession
  · by_cases hs : s.server = true
    · have h1 := Session.identityPhaseRecv_keeps lib s
      rcases hrecv : Session.identityPhaseRecv lib s with ⟨s1, r1⟩
      have h2 := Session.RpcSend_sameSlots lib s1 (.publicIdentity pid)
      rcases hsend : Session.RpcSend lib s1 (.publicIdentity pid) with ⟨s2, r2⟩
      rw [hrecv] at h1
      rw [hsend] at h2
      unfold Session.sameSlots at h2
      cases r1 <;> cases r2 <;> simp_all [Session.advance]
    · have h1 := Session.RpcSend_sameSlots lib s (.publicIdentity pid)
      rcases hsend : Session.RpcSend lib s (.publicIdentity pid) with ⟨s1, r1⟩
      have h2 := Session.identityPhaseRecv_keeps lib s1
      rcases hrecv : Session.identityPhaseRecv lib s1 with ⟨s2, r2⟩
      rw [hsend] at h1
      rw [hrecv] at h2
      unfold Session.sameSlots at h1
      cases r1 <;> cases r2 <;> simp_all [Session.advance]
  · simp [hp]

theorem Session.ConfirmationPhase_effect (lib : Ext B M) (s : Session B)
    (c : Option Confirmation) :
    (Session.ConfirmationPhase lib s c).1.pid = s.pid ∧
    ((s.phase = phaseIdentity ∧
        (Session.ConfirmationPhase lib s c).1.phase = phaseConfirmation ∧
        (Session.ConfirmationPhase lib s c).2.2 = .ok ()) ∨
      (Session.ConfirmationPhase lib s c).1.phase = s.phase) := by
  unfold Session.ConfirmationPhase Session.confirmationPhaseSend
  by_cases hp : s.phase = phaseIdentity
  · by_cases hs : s.server = true
    · have h1 := Session.confirmationPhaseRecv_keeps lib s
      rcases hrecv : Session.confirmationPhaseRecv lib s with ⟨s1, r1⟩
      rw [hrecv] at h1
      cases r1 with
      | ok u =>
        simp only [hp, hs, ne_eq, not_true_eq_false, if_false, if_true]
        split
        · rename_i pidv conf hpid hconf
          split
          · split
            · simp_all
            · rename_i cv
              have h2 := Session.RpcSend_sameSlots lib s1
                (.confirmation (some { cv with Error := "unknown user " ++ conf.LookingFor }))
              unfold Session.sameSlots at h2
              simp_all
          · have h2 := Session.RpcSend_sameSlots lib s1 (.confirmation c)
            rcases hsend : Session.RpcSend lib s1 (.confirmation c) with ⟨s2, r2⟩
            rw [hsend] at h2
            unfold Session.sameSlots at h2
            cases r2 <;> simp_all [Session.advance]
        · simp_all
      | err e => simp_all
      | panic => simp_all
    · have h1 := Session.RpcSend_sameSlots lib s (.confirmation c)
      rcases hsend : Session.RpcSend lib s (.confirmation c) with ⟨s1, r1⟩
      have h2 := Session.confirmationPhaseRecv_keeps lib s1
      rcases hrecv : Session.confirmationPhaseRecv lib s1 with ⟨s2, r2⟩
      rw [hsend] at h1
      rw [hrecv] at h2
      unfold Session.sameSlots at h1
      cases r1 <;> cases r2 <;> simp_all [Session.advance]
      split <;> simp_all
      split <;> simp_all
  · simp [hp]

/-- The address-mismatch branch of the server: the reply carries the
`unknown user` message, it is handed to `confirmationPhaseSend`, and the call
returns what that send returns, with the phase left as the send left it. -/
theorem Session.ConfirmationPhase_mismatch (lib : Ext B M) (s s1 : Session B)
    (cv : Confirmation) (pid : PublicIdentity) (conf : Confirmation)
    (hp : s.phase = phaseIdentity) (hs : s.server = true)
    (hrecv : Session.confirmationPhaseRecv lib s = (s1, .ok ()))
    (hpid : s1.pid = some pid) (hconf : s1.confirmation = some conf)
    (hne : pid.Address ≠ conf.LookingFor) :
    Session.ConfirmationPhase lib s (some cv)
      = ((Session.confirmationPhaseSend lib s1
            (some { cv with Error := "unknown user " ++ conf.LookingFor })).1,
          some { cv with Error := "unknown user " ++ conf.LookingFor },
          (Session.confirmationPhaseSend lib s1
            (some { cv with Error := "unknown user " ++ conf.LookingFor })).2) := by
  unfold Session.ConfirmationPhase
  simp [hp, hs, hrecv, hpid, hconf, hne]

/-- Apart from the address-mismatch branch of the server, a
`ConfirmationPhase` that returns no error has moved the phase to
Confirmation. -/
theorem Session.ConfirmationPhase_ok_advances (lib : Ext B M) (s : Session B)
    (c : Option Confirmation)
    (hok : (Session.ConfirmationPhase lib s c).2.2 = .ok ()) :
    (Session.ConfirmationPhase lib s c).1.phase = phaseConfirmation ∨
    (s.server = true ∧ ∃ pid conf,
      (Session.confirmationPhaseRecv lib s).1.pid = some pid ∧
      (Session.confirmationPhaseRecv lib s).1.confirmation = some conf ∧
      pid.Address ≠ conf.LookingFor) := by
  unfold Session.ConfirmationPhase at hok ⊢
  by_cases hp : s.phase = phaseIdentity
  · by_cases hs : s.server = true
    · simp only [hp, hs, ne_eq, not_true_eq_false, if_false, if_true] at hok ⊢
      rcases hrecv : Session.confirmationPhaseRecv lib s with ⟨s1, r1⟩
      rw [hrecv] at hok
      cases r1 with
      | ok u =>
        simp only at hok ⊢
        split
        · rename_i pidv conf hpid hconf
          rw [hpid, hconf] at hok
          simp only at hok
          by_cases hne : pidv.Address = conf.LookingFor
          · left
            simp only [hne, not_true_eq_false, if_false] at hok ⊢
            unfold Session.advance at hok ⊢
            cases hres : (Session.confirmationPhaseSend lib s1 c).2 with
            | ok u2 => simp
            | err e => simp [hres] at hok
            | panic => simp [hres] at hok
          · exact Or.inr ⟨trivial, pidv, conf, hpid, hconf, hne⟩
        · rename_i hnone
          split at hok
          · rename_i pidv conf hpid hconf
            exact absurd hconf (by
              intro h
              exact hnone pidv conf hpid h)
          · simp at hok
      | err e => simp at hok
      | panic => simp at hok
    · have hs1 : s.server = false := by simpa using hs
      simp only [hp, hs1, ne_eq, not_true_eq_false, Bool.false_eq_true, if_false] at hok ⊢
      left
      rcases hsend : Session.confirmationPhaseSend lib s c with ⟨s1, r1⟩
      rw [hsend] at hok
      cases r1 with
      | ok u =>
        simp only at hok ⊢
        rcases hrecv : Session.confirmationPhaseRecv lib s1 with ⟨s2, r2⟩
        rw [hrecv] at hok
        cases r2 with
        | ok u2 =>
          simp only at hok ⊢
          split at hok
          · simp at hok
          · rename_i conf hconf
            simp only [hconf]
            split at hok
            · simp at hok
            · rename_i herr
              simp [herr]
        | err e => simp at hok
        | panic => simp at hok
      | err e => simp at hok
      | panic => simp at hok
  · simp [hp] at hok

theorem Session.BecomeReady_effect (s : Session B) :
    (s.BecomeReady.2 = .ok () ∧ s.phase = phaseConfirmation ∧ s.slotsPresent ∧
        s.BecomeReady.1 = { s with phase := phaseMessage }) ∨
      (s.BecomeReady.2 ≠ .ok () ∧ s.BecomeReady.1 = s) := by
  unfold Session.BecomeReady Session.slotsPresent
  repeat' split
  all_goals simp_all [Option.isSome_iff_ne_none]

theorem Session.SessionPhase_out_of_phase (lib : Ext B M)
    (newId : Option Identity × Option String) (s : Session B)
    (h : s.phase ≠ phaseStartOfDay) :
    Session.SessionPhase lib newId s = (s, .err "invalid phase") := by
  unfold Session.SessionPhase
  simp [h]

theorem Session.IdentityPhase_out_of_phase (lib : Ext B M) (s : Session B)
    (pid : Option PublicIdentity) (h : s.phase ≠ phaseSession) :
    Session.IdentityPhase lib s pid = (s, .err "invalid phase") := by
  unfold Session.IdentityPhase
  simp [h]

theorem Session.ConfirmationPhase_out_of_phase (lib : Ext B M) (s : Session B)
    (c : Option Confirmation) (h : s.phase ≠ phaseIdentity) :
    Session.ConfirmationPhase lib s c = (s, c, .err "invalid phase") := by
  unfold Session.ConfirmationPhase
  simp [h]

theorem Session.BecomeReady_out_of_phase (s : Session B) (h : s.phase ≠ phaseConfirmation) :
    s.BecomeReady = (s, .err "invalid phase") := by
  unfold Session.BecomeReady
  simp [h]

theorem Call.run_readyInv (lib : Ext B M) (s : Session B) (call : Call)
    (h : s.readyInv) : (call.run lib s).readyInv := by
  unfold Session.readyInv at h ⊢
  intro hm
  cases call with
  | sessionPhase newId =>
    simp only [Call.run] at hm ⊢
    rcases (Session.SessionPhase_effect lib newId s).2 with h1 | h1
    · rw [h1.2.2] at hm
      simp [phaseSession, phaseMessage] at hm
    · have hs : s.phase ≠ phaseStartOfDay := by
        rw [← h1.2, hm]
        simp [phaseStartOfDay, phaseMessage]
      rw [Session.SessionPhase_out_of_phase lib newId s hs] at hm ⊢
      exact h hm
  | identityPhase pid =>
    simp only [Call.run] at hm ⊢
    rcases Session.IdentityPhase_effect lib s pid with h1 | h1
    · rw [h1.2.2.1] at hm
      simp [phaseIdentity, phaseMessage] at hm
    · have hs : s.phase ≠ phaseSession := by
        rw [← h1.2.1, hm]
        simp [phaseSession, phaseMessage]
      rw [Session.IdentityPhase_out_of_phase lib s pid hs] at hm ⊢
      exact h hm
  | confirmationPhase c =>
    simp only [Call.run] at hm ⊢
    rcases (Session.ConfirmationPhase_effect lib s c).2 with h1 | h1
    · rw [h1.2.1] at hm
      simp [phaseConfirmation, phaseMessage] at hm
    · have hs : s.phase ≠ phaseIdentity := by
        rw [← h1, hm]
        simp [phaseIdentity, phaseMessage]
      rw [Session.ConfirmationPhase_out_of_phase lib s c hs] at hm ⊢
      exact h hm
  | becomeReady =>
    simp only [Call.run] at hm ⊢
    rcases Session.BecomeReady_effect s with h1 | h1
    · rw [h1.2.2.2]
      have h2 := h1.2.2.1
      unfold Session.slotsPresent at h2 ⊢
      simpa using h2
    · rw [h1.2] at hm ⊢
      exact h hm

theorem Call.run_pidInv (lib : Ext B M) (s : Session B) (call : Call)
    (hgiven : call.identityGiven) (h : s.pidInv) : (call.run lib s).pidInv := by
  unfold Session.pidInv at h ⊢
  intro hm
  cases call with
  | sessionPhase newId =>
    simp only [Call.run] at hm ⊢
    have h0 := Session.SessionPhase_effect lib newId s
    rw [h0.1]
    rcases h0.2 with h1 | h1
    · rw [h1.2.2] at hm
      simp [phaseSession, phaseIdentity, phaseConfirmation, phaseMessage] at hm
    · rw [h1.2] at hm
      exact h hm
  | identityPhase pid =>
    simp only [Call.run] at hm ⊢
    rcases Session.IdentityPhase_effect lib s pid with h1 | h1
    · rw [h1.2.2.2]
      exact hgiven
    · rw [h1.2.1] at hm
      rw [h1.2.2]
      exact h hm
  | confirmationPhase c =>
    simp only [Call.run] at hm ⊢
    have h0 := Session.ConfirmationPhase_effect lib s c
    rw [h0.1]
    rcases h0.2 with h1 | h1
    · exact h (Or.inl h1.1)
    · rw [h1] at hm
      exact h hm
  | becomeReady =>
    simp only [Call.run] at hm ⊢
    rcases Session.BecomeReady_effect s with h1 | h1
    · rw [h1.2.2.2]
      exact h (Or.inr (Or.inl h1.2.1))
    · rw [h1.2] at hm ⊢
      exact h hm

theorem Session.runCalls_readyInv (lib : Ext B M) (calls : List Call) (s : Session B)
    (h : s.readyInv) : (s.runCalls lib calls).readyInv := by
  induction calls generalizing s with
  | nil => exact h
  | cons call rest ih =>
    simp only [Session.runCalls, List.foldl_cons]
    exact ih _ (Call.run_readyInv lib s call h)

theorem Session.runCalls_pidInv (lib : Ext B M) (calls : List Call) (s : Session B)
    (hgiven : ∀ call ∈ calls, call.identityGiven) (h : s.pidInv) :
    (s.runCalls lib calls).pidInv := by
  induction calls generalizing s with
  | nil => exact h
  | cons call rest ih =>
    simp only [Session.runCalls, List.foldl_cons]
    exact ih _ (fun x hx => hgiven x (List.mem_cons_of_mem _ hx))
      (Call.run_pidInv lib s call (hgiven call (List.mem_cons_self _ _)) h)

/-! ## Sessions that reach the Message phase -/

/-- C3 as the claim states it fails: a client that passes a nil public
identity to `IdentityPhase` completes the handshake and reaches the Message
phase with `Session.pid` (the local public identity) empty. -/
theorem Session.message_phase_pid_empty :
    (Session.runCalls symLib (Session.fresh false clientConn) clientCallsNilIdentity).phase
        = phaseMessage ∧
      (Session.runCalls symLib (Session.fresh false clientConn) clientCallsNilIdentity).pid
        = none := by
  decide

/-- C3, amended: for every session that reaches the Message phase through
`SessionPhase`, `IdentityPhase`, `ConfirmationPhase` and `BecomeReady` from a
fresh session, `peer`, `sid`, `speer` and `confirmation` are non-empty and the
connection is present; and `pid` is non-empty as well when every
`IdentityPhase` call was given a non-nil public identity. -/
theorem Session.message_phase_slots (lib : Ext B M) (server : Bool) (c : Conn B)
    (calls : List Call)
    (hmsg : (Session.runCalls lib (Session.fresh server c) calls).phase = phaseMessage) :
    (Session.runCalls lib (Session.fresh server c) calls).slotsPresent ∧
    ((∀ call ∈ calls, call.identityGiven) →
      (Session.runCalls lib (Session.fresh server c) calls).pid.isSome = true) := by
  constructor
  · apply Session.runCalls_readyInv lib calls (Session.fresh server c) _ hmsg
    intro h
    simp [Session.fresh, phaseStartOfDay, phaseMessage] at h
  · intro hgiven
    apply Session.runCalls_pidInv lib calls (Session.fresh server c) hgiven _
      (Or.inr (Or.inr hmsg))
    intro h
    simp [Session.fresh, phaseStartOfDay, phaseIdentity, phaseConfirmation,
      phaseMessage] at h

/-- Witness of C3: the complete client handshake of Alice with Bob. -/
theorem Session.message_phase_slots_witness :
    (Session.runCalls symLib (Session.fresh false clientConn) clientCalls).phase
        = phaseMessage ∧
    (Session.runCalls symLib (Session.fresh false clientConn) clientCalls).slotsPresent ∧
    ((∀ call ∈ clientCalls, call.identityGiven) →
      (Session.runCalls symLib (Session.fresh false clientConn) clientCalls).pid.isSome
        = true) :=
  ⟨by decide, Session.message_phase_slots symLib false clientConn clientCalls (by decide)⟩

/-! ## Phase checks -/

/-- C4: a phase operation attempted out of its legal phase fails with
`invalid phase`: `SessionPhase` unless the phase is StartOfDay, `IdentityPhase`
unless it is Session, `ConfirmationPhase` unless it is Identity, `BecomeReady`
unless it is Confirmation. The session returned is the session passed in, the
connection with its log and pending traffic included, so nothing was sent or
received and no field changed; the caller's confirmation is untouched too. -/
theorem Session.out_of_phase_fails (lib : Ext B M) (s : Session B)
    (newId : Option Identity × Option String) (pid : Option PublicIdentity)
    (c : Option Confirmation) :
    (s.phase ≠ phaseStartOfDay →
      Session.SessionPhase lib newId s = (s, .err "invalid phase")) ∧
    (s.phase ≠ phaseSession →
      Session.IdentityPhase lib s pid = (s, .err "invalid phase")) ∧
    (s.phase ≠ phaseIdentity →
      Session.ConfirmationPhase lib s c = (s, c, .err "invalid phase")) ∧
    (s.phase ≠ phaseConfirmation →
      s.BecomeReady = (s, .err "invalid phase")) :=
  ⟨Session.SessionPhase_out_of_phase lib newId s,
   Session.IdentityPhase_out_of_phase lib s pid,
   Session.ConfirmationPhase_out_of_phase lib s c,
   Session.BecomeReady_out_of_phase s⟩

/-- Witness of C4: in the Message phase all four operations are refused, and
a fresh session refuses everything but `SessionPhase`. -/
theorem Session.out_of_phase_fails_witness :
    (Session.SessionPhase symLib (some aliceSid, none)
        (Session.runCalls symLib (Session.fresh false clientConn) clientCalls)
      = (Session.runCalls symLib (Session.fresh false clientConn) clientCalls,
          .err "invalid phase")) ∧
    (Session.IdentityPhase symLib (Session.fresh false clientConn) (some alice.PublicIdentity)
      = (Session.fresh false clientConn, .err "invalid phase")) ∧
    (Session.ConfirmationPhase symLib (Session.fresh false clientConn) (some aliceLooksForBob)
      = (Session.fresh false clientConn, some aliceLooksForBob, .err "invalid phase")) ∧
    ((Session.fresh false clientConn).BecomeReady
      = (Session.fresh false clientConn, .err "invalid phase")) :=
  ⟨(Session.out_of_phase_fails symLib _ (some aliceSid, none) none none).1 (by decide),
   (Session.out_of_phase_fails symLib _ (none, none) (some alice.PublicIdentity) none).2.1
     (by decide),
   (Session.out_of_phase_fails symLib _ (none, none) none (some aliceLooksForBob)).2.2.1
     (by decide),
   (Session.out_of_phase_fails symLib (Session.fresh false clientConn) (none, none) none
     none).2.2.2 (by decide)⟩

/-- C6: `BecomeReady` returns no error exactly when the phase is Confirmation
and the peer identity, the session identity, the peer session identity, the
connection and the confirmation are all present. On success the session is the
old one with the phase set to Message; otherwise it returns an error (it never
panics) and the session is unchanged. -/
theorem Session.BecomeReady_iff (s : Session B) :
    (s.BecomeReady.2 = .ok () ↔
      (s.phase = phaseConfirmation ∧ s.peer.isSome = true ∧ s.sid.isSome = true ∧
        s.speer.isSome = true ∧ s.conn.isSome = true ∧ s.confirmation.isSome = true)) ∧
    (s.BecomeReady.2 = .ok () → s.BecomeReady.1 = { s with phase := phaseMessage }) ∧
    (s.BecomeReady.2 ≠ .ok () → (∃ e, s.BecomeReady.2 = .err e) ∧ s.BecomeReady.1 = s) := by
  unfold Session.BecomeReady
  repeat' split
  all_goals simp_all [Option.isSome_iff_ne_none]

/-- Witness of C6: after the first three phases of the client handshake
`BecomeReady` succeeds and moves the session to the Message phase. -/
theorem Session.BecomeReady_iff_witness :
    (Session.runCalls symLib (Session.fresh false clientConn)
        (clientCalls.take 3)).BecomeReady.2 = .ok () ∧
    (Session.runCalls symLib (Session.fresh false clientConn)
        (clientCalls.take 3)).BecomeReady.1.phase = phaseMessage :=
  ⟨(Session.BecomeReady_iff _).1.2 (by decide), by
    rw [(Session.BecomeReady_iff _).2.1 ((Session.BecomeReady_iff _).1.2 (by decide))]⟩

/-! ## The address check of the server -/

/-- C5 at the failing input: Bob's server session is in the Identity phase,
the client's confirmation looks for `eve@localhost`, the error reply is sent
successfully; `ConfirmationPhase` returns no error and the phase is still
Identity, not Confirmation. -/
theorem Session.ConfirmationPhase_no_error_no_advance :
    serverAtIdentity.phase = phaseIdentity ∧
    (Session.ConfirmationPhase symLib serverAtIdentity (some serverReply)).2.2 = .ok () ∧
    (Session.ConfirmationPhase symLib serverAtIdentity (some serverReply)).1.phase
      = phaseIdentity := by
  decide

/-- C10 at the failing input: on the address mismatch the server fills the
`Error` field of its reply with `unknown user eve@localhost`, writes the reply
to the client as a `confirmation` RPC, and, the write having succeeded, returns
no error to its caller. -/
theorem Session.ConfirmationPhase_mismatch_returns_nil :
    (Session.ConfirmationPhase symLib serverAtIdentity (some serverReply)).2
      = (some { serverReply with Error := "unknown user eve@localhost" }, .ok ()) ∧
    ((Session.ConfirmationPhase symLib serverAtIdentity (some serverReply)).1.conn.map
        (fun c => c.log.getLast?))
      = some (some (Event.write
          (symFrame bobSid aliceSid RpcConfirmation
            (.confirmation (some { serverReply with Error := "unknown user eve@localhost" })))
          none)) := by
  decide

/-! ## The command tag is validated against the phase -/

/-- The result of `RpcReceive` when the connection delivers a frame that
decodes and decrypts to the document `j`. -/
theorem Session.RpcReceive_decoded (lib : Ext B M) (s : Session B) (c : Conn B)
    (frame : B) (rest : List (Lib B)) (msg : M) (sid : Identity) (speer : PublicIdentity)
    (j : B)
    (hconn : s.conn = some c) (hread : c.incoming = .ok frame :: rest)
    (hframe : lib.messageOfFrame frame = .ok msg)
    (hsid : s.sid = some sid) (hspeer : s.speer = some speer)
    (hdec : lib.decrypt sid speer.Key msg = .ok j) :
    (Session.RpcReceive lib s).2 =
      match Session.rpcDecode lib s.phase j with
      | .ok v => .ok v
      | .error e => .err e := by
  unfold Session.RpcReceive Conn.read
  simp only [hconn, hread, hframe, hsid, hspeer, hdec]
  split <;> simp_all

/-- C7: let the connection deliver a frame that decrypts to a document with
field map `objmap`. If the map has no `command` entry, or the entry is not a
string, `RpcReceive` returns an error. If the tag is `identity` and the phase
is not Session, `confirmation` and the phase is not Identity, `sendfile` and
the phase is not Message, or the tag is none of the three, it returns an error
and no payload. Whenever it returns a payload, the tag and the phase match and
the payload has the type of the tag. -/
theorem Session.RpcReceive_validates (lib : Ext B M) (s : Session B) (c : Conn B)
    (frame : B) (rest : List (Lib B)) (msg : M) (sid : Identity) (speer : PublicIdentity)
    (j : B) (objmap : List (String × B))
    (hconn : s.conn = some c) (hread : c.incoming = .ok frame :: rest)
    (hframe : lib.messageOfFrame frame = .ok msg)
    (hsid : s.sid = some sid) (hspeer : s.speer = some speer)
    (hdec : lib.decrypt sid speer.Key msg = .ok j)
    (hobj : lib.unmarshalObjmap j = .ok objmap) :
    (objmap.lookup "command" = none → ∃ e, (Session.RpcReceive lib s).2 = .err e) ∧
    (∀ raw, objmap.lookup "command" = some raw →
      (∀ e, lib.unmarshalString raw = .error e → (Session.RpcReceive lib s).2 = .err e) ∧
      (∀ command, lib.unmarshalString raw = .ok command →
        (command = RpcIdentity → s.phase ≠ phaseSession →
          (Session.RpcReceive lib s).2 = .err "can't receive identity; wrong phase") ∧
        (command = RpcConfirmation → s.phase ≠ phaseIdentity →
          (Session.RpcReceive lib s).2 = .err "can't receive confirmation; wrong phase") ∧
        (command = RpcSendFileCommand → s.phase ≠ phaseMessage →
          (Session.RpcReceive lib s).2 = .err "not in message phase") ∧
        (command ≠ RpcIdentity → command ≠ RpcConfirmation → command ≠ RpcSendFileCommand →
          (Session.RpcReceive lib s).2 = .err ("invalid RPC command " ++ command)) ∧
        (∀ v, (Session.RpcReceive lib s).2 = .ok v →
          (command = RpcIdentity ∧ s.phase = phaseSession ∧
            ∃ p, v = .publicIdentity (some p)) ∨
          (command = RpcConfirmation ∧ s.phase = phaseIdentity ∧
            ∃ p, v = .confirmation (some p)) ∨
          (command = RpcSendFileCommand ∧ s.phase = phaseMessage ∧
            ∃ p, v = .sendFile (some p))))) := by
  rw [Session.RpcReceive_decoded lib s c frame rest msg sid speer j hconn hread hframe
    hsid hspeer hdec]
  unfold Session.rpcDecode
  simp only [hobj]
  refine ⟨?_, ?_⟩
  · intro hnone
    simp [hnone, jsonUnmarshal]
  · intro raw hraw
    have hcmd : jsonUnmarshal lib.unmarshalString (objmap.lookup "command")
        = lib.unmarshalString raw := by
      simp [hraw, jsonUnmarshal]
    simp only [hcmd]
    refine ⟨?_, ?_⟩
    · intro e he
      simp [he]
    · intro command hcommand
      simp only [hcommand]
      have h12 : RpcIdentity ≠ RpcConfirmation := by decide
      have h13 : RpcIdentity ≠ RpcSendFileCommand := by decide
      have h23 : RpcConfirmation ≠ RpcSendFileCommand := by decide
      refine ⟨?_, ?_, ?_, ?_, ?_⟩
      · intro h1 h2
        simp [h1, h2]
      · intro h1 h2
        subst h1
        simp [h12.symm, h2]
      · intro h1 h2
        subst h1
        simp [h13.symm, h23.symm, h2]
      · intro h1 h2 h3
        simp [h1, h2, h3]
      · intro v hv
        by_cases h1 : command = RpcIdentity
        · subst h1
          by_cases hp : s.phase = phaseSession
          · left
            refine ⟨rfl, hp, ?_⟩
            cases hx : jsonUnmarshal lib.unmarshalPublicIdentity (objmap.lookup "payload") with
            | ok p => exact ⟨p, by simp_all⟩
            | error e => simp_all
          · simp [hp] at hv
        · by_cases h2 : command = RpcConfirmation
          · subst h2
            by_cases hp : s.phase = phaseIdentity
            · right; left
              refine ⟨rfl, hp, ?_⟩
              cases hx : jsonUnmarshal lib.unmarshalConfirmation (objmap.lookup "payload") with
              | ok p => exact ⟨p, by simp_all⟩
              | error e => simp_all
            · simp [h1, hp] at hv
          · by_cases h3 : command = RpcSendFileCommand
            · subst h3
              by_cases hp : s.phase = phaseMessage
              · right; right
                refine ⟨rfl, hp, ?_⟩
                cases hx : jsonUnmarshal lib.unmarshalRpcSendFile (objmap.lookup "payload") with
                | ok p => exact ⟨p, by simp_all⟩
                | error e => simp_all
              · simp [h1, h2, hp] at hv
            · simp [h1, h2, h3] at hv

/-- Witness of C7: an `identity` message that arrives in the Identity phase
is refused. -/
theorem Session.RpcReceive_validates_witness :
    (Session.RpcReceive symLib identityReplayed).2
      = .err "can't receive identity; wrong phase" :=
  ((((Session.RpcReceive_validates symLib identityReplayed
      { incoming :=
          [.ok (symFrame aliceSid bobSid RpcIdentity
            (.publicIdentity (some alice.PublicIdentity)))],
        outcomes := [], log := [] }
      (symFrame aliceSid bobSid RpcIdentity (.publicIdentity (some alice.PublicIdentity)))
      []
      { Sender := [3], Recipient := [4],
        Body := .rpc ⟨RpcIdentity, .publicIdentity (some alice.PublicIdentity)⟩ }
      bobSid aliceSid.PublicIdentity
      (.doc (.rpc ⟨RpcIdentity, .publicIdentity (some alice.PublicIdentity)⟩))
      [("command", .doc (.str RpcIdentity)),
       ("payload", .doc (.pid (some alice.PublicIdentity)))]
      rfl rfl rfl rfl rfl rfl rfl).2 (.doc (.str RpcIdentity)) rfl).2 RpcIdentity rfl).1 rfl)
    (by decide)

/-! ## RPC framing round trip -/

/-- What `RpcReceive` returns is never a nil pointer: every payload it
returns points to a value it has just decoded. -/
theorem Session.RpcReceive_nonnil (lib : Ext B M) (s : Session B) (v : Payload)
    (h : (Session.RpcReceive lib s).2 = .ok v) :
    (∃ p, v = .publicIdentity (some p)) ∨ (∃ c, v = .confirmation (some c)) ∨
      (∃ f, v = .sendFile (some f)) := by
  unfold Session.RpcReceive at h
  split at h
  · simp at h
  · simp only at h
    split at h
    · simp at h
    · split at h
      · simp at h
      · split at h
        · split at h
          · simp at h
          · split at h
            · simp at h
            · rename_i v1 hdec
              simp only [Res.ok.injEq] at h
              subst h
              unfold Session.rpcDecode at hdec
              repeat' split at hdec
              all_goals
                first
                | (simp at hdec; done)
                | (simp only [Lib.ok.injEq] at hdec
                   subst hdec
                   simp)
        · simp at h

/-- C8 as the claim states it fails: in the Session phase Alice's client calls
`RpcSend` with a nil public identity, a payload of the type that is legal
there. The frame is written, with the tag `identity`; Bob's server, in the
same phase and with the matching session keys, gets from `RpcReceive` on that
frame a pointer to a zero identity, not the nil that was sent. -/
theorem Session.RpcSend_RpcReceive_nil_payload :
    clientAtSession.phase = phaseSession ∧ serverGetsNilIdentity.phase = phaseSession ∧
    (Session.RpcSend symLib clientAtSession (.publicIdentity none)).2 = .ok () ∧
    (Session.RpcSend symLib clientAtSession (.publicIdentity none)).1.log.getLast?
      = some (.write (symFrame aliceSid bobSid RpcIdentity (.publicIdentity none)) none) ∧
    serverGetsNilIdentity.conn.map (fun c => c.incoming)
      = some [.ok (symFrame aliceSid bobSid RpcIdentity (.publicIdentity none))] ∧
    serverGetsNilIdentity.sid = some bobSid ∧
    serverGetsNilIdentity.speer = some aliceSid.PublicIdentity ∧
    (Session.RpcReceive symLib serverGetsNilIdentity).2
      = .ok (.publicIdentity (some default)) ∧
    Payload.publicIdentity (some default) ≠ Payload.publicIdentity none := by
  decide

/-- C8, amended: let `x` be a pointer, nil or not, of the type legal in the
sender's phase and `tag` the command tag of that type. If the library calls of
the sender succeed, `RpcSend` hands the connection exactly one frame: the
two-field document with `Command = tag` and `Payload = x`, marshalled,
encrypted with the sender's session identity to the peer's session key and
written as a frame; its result is the result of that write. If the receiver is
in the same phase, holds the matching session keys and its connection delivers
that frame, then, decryption inverting encryption between the two session
identities and decoding inverting encoding, `RpcReceive` returns `x` when `x`
is not nil; when `x` is nil it does not return `x`. -/
theorem Session.RpcSend_RpcReceive_roundtrip (lib : Ext B M) (s r : Session B)
    (x : Payload) (tag : String) (cs cr : Conn B) (sidS sidR : Identity)
    (j : B) (ej : M) (frame : B) (rest : List (Lib B))
    (htyped : x.typedIn s.phase tag) (hphase : r.phase = s.phase)
    (hs_sid : s.sid = some sidS) (hs_speer : s.speer = some sidR.PublicIdentity)
    (hr_sid : r.sid = some sidR) (hr_speer : r.speer = some sidS.PublicIdentity)
    (hs_conn : s.conn = some cs) (hr_conn : r.conn = some cr)
    (hjson : lib.jsonInverts) (hframe : lib.frameInverts)
    (hcrypt : ∀ b m, lib.encrypt sidS sidR.PublicIdentity.Key b = .ok m →
      lib.decrypt sidR sidS.PublicIdentity.Key m = .ok b)
    (hj : lib.marshalRpc { Command := tag, Payload := x } = .ok j)
    (hej : lib.encrypt sidS sidR.PublicIdentity.Key j = .ok ej)
    (hfr : lib.frameOfMessage ej = .ok frame)
    (hdeliver : cr.incoming = .ok frame :: rest) :
    Session.RpcSend lib s x
      = ({ s with conn := some (cs.write frame).1 }, Res.ofError (cs.write frame).2) ∧
    (x.legalIn s.phase tag → (Session.RpcReceive lib r).2 = .ok x) ∧
    (¬ x.legalIn s.phase tag → (Session.RpcReceive lib r).2 ≠ .ok x) := by
  obtain ⟨objmap, rawCommand, rawPayload, hobj, hc, hp, hcs, hpi, hpc, hpf⟩ := hjson _ _ hj
  simp only at hcs hpi hpc hpf
  refine ⟨?_, ?_, ?_⟩
  · unfold Session.RpcSend
    rcases htyped with ⟨h1, h2, p, h3⟩ | ⟨h1, h2, p, h3⟩ | ⟨h1, h2, p, h3⟩ <;>
      · subst h2 h3
        simp [h1, hj, hs_sid, hs_speer, hej, hs_conn, hfr]
  · intro hlegal
    rw [Session.RpcReceive_decoded lib r cr frame rest ej sidR sidS.PublicIdentity j hr_conn
      hdeliver (hframe _ _ hfr) hr_sid hr_speer (hcrypt _ _ hej)]
    unfold Session.rpcDecode
    have h12 : RpcIdentity ≠ RpcConfirmation := by decide
    have h13 : RpcIdentity ≠ RpcSendFileCommand := by decide
    have h23 : RpcConfirmation ≠ RpcSendFileCommand := by decide
    rcases hlegal with ⟨h1, h2, p, h3⟩ | ⟨h1, h2, p, h3⟩ | ⟨h1, h2, p, h3⟩
    · subst h2 h3
      simp [hobj, hc, hp, jsonUnmarshal, hcs, hphase, h1, hpi p rfl]
    · subst h2 h3
      simp [hobj, hc, hp, jsonUnmarshal, hcs, hphase, h1, hpc p rfl, h12.symm]
    · subst h2 h3
      simp [hobj, hc, hp, jsonUnmarshal, hcs, hphase, h1, hpf p rfl, h13.symm, h23.symm]
  · intro hnot hrecv
    have hnn := Session.RpcReceive_nonnil lib r x hrecv
    apply hnot
    unfold Payload.legalIn
    rcases htyped with ⟨h1, h2, p, h3⟩ | ⟨h1, h2, p, h3⟩ | ⟨h1, h2, p, h3⟩
    · subst h3
      rcases hnn with ⟨q, hq⟩ | ⟨q, hq⟩ | ⟨q, hq⟩
      · exact Or.inl ⟨h1, h2, q, hq⟩
      · simp at hq
      · simp at hq
    · subst h3
      rcases hnn with ⟨q, hq⟩ | ⟨q, hq⟩ | ⟨q, hq⟩
      · simp at hq
      · exact Or.inr (Or.inl ⟨h1, h2, q, hq⟩)
      · simp at hq
    · subst h3
      rcases hnn with ⟨q, hq⟩ | ⟨q, hq⟩ | ⟨q, hq⟩
      · simp at hq
      · simp at hq
      · exact Or.inr (Or.inr ⟨h1, h2, q, hq⟩)

/-- Witness of C8: in the Session phase Alice's client sends her public
identity and Bob's server receives it. -/
theorem Session.RpcSend_RpcReceive_roundtrip_witness :
    Session.RpcSend symLib clientAtSession (.publicIdentity (some alice.PublicIdentity))
      = ({ clientAtSession with
            conn := some
              { incoming :=
                  [.ok (symFrame bobSid aliceSid RpcIdentity
                    (.publicIdentity (some bob.PublicIdentity))),
                   .ok (symFrame bobSid aliceSid RpcConfirmation
                    (.confirmation (some aliceLooksForBob)))],
                outcomes := [none],
                log :=
                  [.write (.doc (.pid (some aliceSid.PublicIdentity))) none,
                   .read (.ok (.doc (.pid (some bobSid.PublicIdentity)))),
                   .write (symFrame aliceSid bobSid RpcIdentity
                    (.publicIdentity (some alice.PublicIdentity))) none] } },
          .ok ()) ∧
    (Session.RpcReceive symLib serverAtSession).2
      = .ok (.publicIdentity (some alice.PublicIdentity)) :=
  have h := Session.RpcSend_RpcReceive_roundtrip symLib clientAtSession serverAtSession
    (.publicIdentity (some alice.PublicIdentity)) RpcIdentity
    { incoming :=
        [.ok (symFrame bobSid aliceSid RpcIdentity (.publicIdentity (some bob.PublicIdentity))),
         .ok (symFrame bobSid aliceSid RpcConfirmation
          (.confirmation (some aliceLooksForBob)))],
      outcomes := [none, none],
      log :=
        [.write (.doc (.pid (some aliceSid.PublicIdentity))) none,
         .read (.ok (.doc (.pid (some bobSid.PublicIdentity))))] }
    { incoming :=
        [.ok (symFrame aliceSid bobSid RpcIdentity
          (.publicIdentity (some alice.PublicIdentity))),
         .ok (symFrame aliceSid bobSid RpcConfirmation
          (.confirmation (some aliceLooksForEve)))],
      outcomes := [none, none],
      log :=
        [.read (.ok (.doc (.pid (some aliceSid.PublicIdentity)))),
         .write (.doc (.pid (some bobSid.PublicIdentity))) none] }
    aliceSid bobSid
    (.doc (.rpc ⟨RpcIdentity, .publicIdentity (some alice.PublicIdentity)⟩))
    { Sender := [3], Recipient := [4],
      Body := .rpc ⟨RpcIdentity, .publicIdentity (some alice.PublicIdentity)⟩ }
    (symFrame aliceSid bobSid RpcIdentity (.publicIdentity (some alice.PublicIdentity)))
    [.ok (symFrame aliceSid bobSid RpcConfirmation (.confirmation (some aliceLooksForEve)))]
    (Or.inl ⟨rfl, rfl, _, rfl⟩) rfl rfl rfl rfl rfl rfl rfl
    symLib_jsonInverts symLib_frameInverts (symLib_decrypt_encrypt aliceSid bobSid)
    rfl rfl rfl rfl
  ⟨h.1, h.2.1 (Or.inl ⟨rfl, rfl, _, rfl⟩)⟩

/-! ## Order of the channel steps -/

theorem Session.didSteps_trans (s s1 s2 : Session B) (k1 k2 : List Bool)
    (h1 : s.didSteps s1 k1) (h2 : s1.didSteps s2 k2) : s.didSteps s2 (k1 ++ k2) := by
  obtain ⟨e1, hl1, hk1⟩ := h1
  obtain ⟨e2, hl2, hk2⟩ := h2
  exact ⟨e1 ++ e2, by rw [hl2, hl1, List.append_assoc], by rw [List.map_append, hk1, hk2]⟩

theorem Session.didSteps_refl (s : Session B) : s.didSteps s [] :=
  ⟨[], by simp, rfl⟩

theorem Session.didSteps_of_log_eq (s s1 : Session B) (h : s1.log = s.log) :
    s.didSteps s1 [] :=
  ⟨[], by simp [h], rfl⟩

theorem Conn.write_log (c : Conn B) (frame : B) :
    (c.write frame).1.log = c.log ++ [Event.write frame (c.write frame).2] := by
  unfold Conn.write
  split <;> rfl

theorem Conn.read_log (c : Conn B) : c.read.1.log = c.log ++ [Event.read c.read.2] := by
  unfold Conn.read
  split <;> rfl

theorem Session.didSteps_write (s s1 : Session B) (c : Conn B) (frame : B)
    (hc : s.conn = some c) (h1 : s1.conn = some (c.write frame).1) :
    s.didSteps s1 [true] :=
  ⟨[Event.write frame (c.write frame).2], by
    simp [Session.log, hc, h1, Conn.write_log], rfl⟩

theorem Session.didSteps_read (s s1 : Session B) (c : Conn B)
    (hc : s.conn = some c) (h1 : s1.conn = some c.read.1) :
    s.didSteps s1 [false] :=
  ⟨[Event.read c.read.2], by simp [Session.log, hc, h1, Conn.read_log], rfl⟩

theorem Session.RpcSend_steps (lib : Ext B M) (s : Session B) (x : Payload) :
    ((Session.RpcSend lib s x).2 = .ok () ∧ s.didSteps (Session.RpcSend lib s x).1 [true]) ∨
    ((Session.RpcSend lib s x).2 ≠ .ok () ∧
      (s.didSteps (Session.RpcSend lib s x).1 [] ∨
        s.didSteps (Session.RpcSend lib s x).1 [true])) := by
  unfold Session.RpcSend
  simp only
  split
  · exact Or.inr ⟨by simp, Or.inl (Session.didSteps_refl s)⟩
  · split
    · exact Or.inr ⟨by simp, Or.inl (Session.didSteps_refl s)⟩
    · split
      · split
        · exact Or.inr ⟨by simp, Or.inl (Session.didSteps_refl s)⟩
        · split
          · exact Or.inr ⟨by simp, Or.inl (Session.didSteps_refl s)⟩
          · rename_i c hc
            split
            · exact Or.inr ⟨by simp, Or.inl (Session.didSteps_refl s)⟩
            · rename_i frame hframe
              have hw := Session.didSteps_write s { s with conn := some (c.write frame).1 }
                c frame hc rfl
              cases hres : (c.write frame).2 with
              | none => exact Or.inl ⟨by simp [Res.ofError], hw⟩
              | some e => exact Or.inr ⟨by simp [Res.ofError], Or.inr hw⟩
      · exact Or.inr ⟨by simp, Or.inl (Session.didSteps_refl s)⟩

theorem Session.RpcReceive_steps (lib : Ext B M) (s : Session B) :
    ((∃ v, (Session.RpcReceive lib s).2 = .ok v) ∧
      s.didSteps (Session.RpcReceive lib s).1 [false]) ∨
    ((∀ v, (Session.RpcReceive lib s).2 ≠ .ok v) ∧
      (s.didSteps (Session.RpcReceive lib s).1 [] ∨
        s.didSteps (Session.RpcReceive lib s).1 [false])) := by
  unfold Session.RpcReceive
  split
  · exact Or.inr ⟨by simp, Or.inl (Session.didSteps_refl s)⟩
  · rename_i c hc
    have hr := Session.didSteps_read s { s with conn := some c.read.1 } c hc rfl
    simp only
    split
    · exact Or.inr ⟨by simp, Or.inr hr⟩
    · split
      · exact Or.inr ⟨by simp, Or.inr hr⟩
      · split
        · split
          · exact Or.inr ⟨by simp, Or.inr hr⟩
          · split
            · exact Or.inr ⟨by simp, Or.inr hr⟩
            · exact Or.inl ⟨⟨_, rfl⟩, hr⟩
        · exact Or.inr ⟨by simp, Or.inr hr⟩

theorem Session.didSteps_congr (s s1 s2 : Session B) (k : List Bool)
    (hlog : s2.log = s1.log) (h : s.didSteps s1 k) : s.didSteps s2 k := by
  obtain ⟨evs, h1, h2⟩ := h
  exact ⟨evs, by rw [hlog, h1], h2⟩

theorem Session.RpcSend_sendLike (lib : Ext B M) (s : Session B) (x : Payload) :
    s.sendLike (Session.RpcSend lib s x).1 (Session.RpcSend lib s x).2 :=
  Session.RpcSend_steps lib s x

theorem Session.sessionPhaseSend_sendLike (lib : Ext B M)
    (newId : Option Identity × Option String) (s : Session B) :
    s.sendLike (Session.sessionPhaseSend lib newId s).1
      (Session.sessionPhaseSend lib newId s).2 := by
  have h0 : s.didSteps { s with sid := newId.1 } [] :=
    Session.didSteps_of_log_eq _ _ rfl
  unfold Session.sessionPhaseSend Session.sendLike
  simp only
  split
  · exact Or.inr ⟨by simp, Or.inl h0⟩
  · split
    · rename_i c sid hc hsid
      split
      · exact Or.inr ⟨by simp, Or.inl h0⟩
      · rename_i frame hframe
        have hw : s.didSteps
            { pid := s.pid, peer := s.peer, sid := newId.1, speer := s.speer,
              conn := some (c.write frame).1, confirmation := s.confirmation,
              server := s.server, phase := s.phase } [true] :=
          Session.didSteps_write s _ c frame hc rfl
        cases hres : (c.write frame).2 with
        | none => exact Or.inl ⟨by simp [Res.ofError], hw⟩
        | some e => exact Or.inr ⟨by simp [Res.ofError], Or.inr hw⟩
    · exact Or.inr ⟨by simp, Or.inl h0⟩

theorem Session.sessionPhaseRecv_recvLike (lib : Ext B M) (s : Session B) :
    s.recvLike (Session.sessionPhaseRecv lib s).1 (Session.sessionPhaseRecv lib s).2 := by
  unfold Session.sessionPhaseRecv Session.recvLike
  split
  · exact Or.inr ⟨by simp, Or.inl (Session.didSteps_refl s)⟩
  · rename_i c hc
    split
    · exact Or.inr ⟨by simp, Or.inr (Session.didSteps_read s _ c hc rfl)⟩
    · rename_i frame hframe
      have hr : s.didSteps
          { s with conn := some c.read.1,
                   speer := (lib.publicIdentityOfFrame frame s.speer).1 } [false] :=
        Session.didSteps_read s _ c hc rfl
      cases hres : (lib.publicIdentityOfFrame frame s.speer).2 with
      | none => exact Or.inl ⟨by simp [Res.ofError], hr⟩
      | some e => exact Or.inr ⟨by simp [Res.ofError], Or.inr hr⟩

theorem Session.identityPhaseRecv_recvLike (lib : Ext B M) (s : Session B) :
    s.recvLike (Session.identityPhaseRecv lib s).1 (Session.identityPhaseRecv lib s).2 := by
  have h := Session.RpcReceive_steps lib s
  unfold Session.identityPhaseRecv Session.recvLike
  split
  · rename_i s1 p heq
    rw [heq] at h
    rcases h with ⟨-, h2⟩ | ⟨h1, -⟩
    · exact Or.inl ⟨rfl, Session.didSteps_congr s s1 _ _ rfl h2⟩
    · exact absurd rfl (h1 _)
  · rename_i s1 v hne heq
    rw [heq] at h
    rcases h with ⟨-, h2⟩ | ⟨h1, -⟩
    · exact Or.inr ⟨by simp, Or.inr (Session.didSteps_congr s s1 _ _ rfl h2)⟩
    · exact absurd rfl (h1 _)
  · rename_i s1 e heq
    rw [heq] at h
    rcases h with ⟨⟨v, hv⟩, -⟩ | ⟨-, h2⟩
    · simp at hv
    · refine Or.inr ⟨by simp, ?_⟩
      rcases h2 with h2 | h2
      · exact Or.inl (Session.didSteps_congr s s1 _ _ rfl h2)
      · exact Or.inr (Session.didSteps_congr s s1 _ _ rfl h2)
  · rename_i s1 heq
    rw [heq] at h
    rcases h with ⟨⟨v, hv⟩, -⟩ | ⟨-, h2⟩
    · simp at hv
    · exact Or.inr ⟨by simp, h2⟩

theorem Session.confirmationPhaseRecv_recvLike (lib : Ext B M) (s : Session B) :
    s.recvLike (Session.confirmationPhaseRecv lib s).1
      (Session.confirmationPhaseRecv lib s).2 := by
  have h := Session.RpcReceive_steps lib s
  unfold Session.confirmationPhaseRecv Session.recvLike
  split
  · rename_i s1 e heq
    rw [heq] at h
    rcases h with ⟨⟨v, hv⟩, -⟩ | ⟨-, h2⟩
    · simp at hv
    · exact Or.inr ⟨by simp, h2⟩
  · rename_i s1 heq
    rw [heq] at h
    rcases h with ⟨⟨v, hv⟩, -⟩ | ⟨-, h2⟩
    · simp at hv
    · exact Or.inr ⟨by simp, h2⟩
  · rename_i s1 p heq
    rw [heq] at h
    rcases h with ⟨-, h2⟩ | ⟨h1, -⟩
    · exact Or.inl ⟨rfl, Session.didSteps_congr s s1 _ _ rfl h2⟩
    · exact absurd rfl (h1 _)
  · rename_i s1 v hne heq
    rw [heq] at h
    rcases h with ⟨-, h2⟩ | ⟨h1, -⟩
    · exact Or.inr ⟨by simp, Or.inr (Session.didSteps_congr s s1 _ _ rfl h2)⟩
    · exact absurd rfl (h1 _)

theorem Session.two_steps (s s1 s2 : Session B) (r1 r2 : Res Unit) (k1 k2 : Bool)
    (h1 : (r1 = .ok () ∧ s.didSteps s1 [k1]) ∨
      (r1 ≠ .ok () ∧ (s.didSteps s1 [] ∨ s.didSteps s1 [k1])))
    (h2 : (r2 = .ok () ∧ s1.didSteps s2 [k2]) ∨
      (r2 ≠ .ok () ∧ (s1.didSteps s2 [] ∨ s1.didSteps s2 [k2]))) :
    (r1 = .ok () →
      (s.didSteps s2 [k1] ∨ s.didSteps s2 [k1, k2]) ∧
      (r2 = .ok () → s.didSteps s2 [k1, k2])) ∧
    (r1 ≠ .ok () → s.didSteps s1 [] ∨ s.didSteps s1 [k1]) := by
  constructor
  · intro hr1
    rcases h1 with ⟨-, h1⟩ | ⟨hne, -⟩
    · rcases h2 with ⟨-, h2⟩ | ⟨hne2, h2 | h2⟩
      · exact ⟨Or.inr (Session.didSteps_trans s s1 s2 [k1] [k2] h1 h2),
          fun _ => Session.didSteps_trans s s1 s2 [k1] [k2] h1 h2⟩
      · exact ⟨Or.inl (Session.didSteps_trans s s1 s2 [k1] [] h1 h2),
          fun h => absurd h hne2⟩
      · exact ⟨Or.inr (Session.didSteps_trans s s1 s2 [k1] [k2] h1 h2),
          fun _ => Session.didSteps_trans s s1 s2 [k1] [k2] h1 h2⟩
    · exact absurd hr1 hne
  · intro hr1
    rcases h1 with ⟨h, -⟩ | ⟨-, h1⟩
    · exact absurd h hr1
    · exact h1

theorem Session.SessionPhase_order (lib : Ext B M)
    (newId : Option Identity × Option String) (s : Session B)
    (hp : s.phase = phaseStartOfDay) :
    (s.server = false →
      (∀ s1 r, Session.sessionPhaseSend lib newId s = (s1, r) → r ≠ .ok () →
        Session.SessionPhase lib newId s = (s1, r)) ∧
      s.clientOrder (Session.SessionPhase lib newId s).1 ∧
      ((Session.SessionPhase lib newId s).2 = .ok () →
        s.didSteps (Session.SessionPhase lib newId s).1 [true, false])) ∧
    (s.server = true →
      (∀ s1 r, Session.sessionPhaseRecv lib s = (s1, r) → r ≠ .ok () →
        Session.SessionPhase lib newId s = (s1, r)) ∧
      s.serverOrder (Session.SessionPhase lib newId s).1 ∧
      ((Session.SessionPhase lib newId s).2 = .ok () →
        s.didSteps (Session.SessionPhase lib newId s).1 [false, true])) := by
  unfold Session.SessionPhase Session.clientOrder Session.serverOrder
  simp only [hp, ne_eq, not_true_eq_false, if_false]
  constructor
  · intro hs
    simp only [hs, Bool.false_eq_true, if_false]
    rcases hsend : Session.sessionPhaseSend lib newId s with ⟨s1, r1⟩
    have h1 := Session.sessionPhaseSend_sendLike lib newId s
    rw [hsend] at h1
    rcases hrecv : Session.sessionPhaseRecv lib s1 with ⟨s2, r2⟩
    have h2 := Session.sessionPhaseRecv_recvLike lib s1
    rw [hrecv] at h2
    have h3 := Session.two_steps s s1 s2 r1 r2 true false h1 h2
    cases r1 with
    | ok u =>
      obtain ⟨h4, h5⟩ := h3.1 rfl
      cases r2 with
      | ok u2 =>
        simp only [hrecv, Session.advance]
        refine ⟨by simp, Or.inr (Or.inr ?_), fun _ => ?_⟩ <;>
          exact Session.didSteps_congr s s2 _ _ rfl (h5 rfl)
      | err e =>
        simp only [hrecv, Session.advance]
        refine ⟨by simp, ?_, by simp⟩
        rcases h4 with h4 | h4
        · exact Or.inr (Or.inl h4)
        · exact Or.inr (Or.inr h4)
      | panic =>
        simp only [hrecv, Session.advance]
        refine ⟨by simp, ?_, by simp⟩
        rcases h4 with h4 | h4
        · exact Or.inr (Or.inl h4)
        · exact Or.inr (Or.inr h4)
    | err e =>
      refine ⟨by simp, ?_, by simp⟩
      rcases h3.2 (by simp) with h4 | h4
      · exact Or.inl h4
      · exact Or.inr (Or.inl h4)
    | panic =>
      refine ⟨by simp, ?_, by simp⟩
      rcases h3.2 (by simp) with h4 | h4
      · exact Or.inl h4
      · exact Or.inr (Or.inl h4)
  · intro hs
    simp only [hs, if_true]
    rcases hrecv : Session.sessionPhaseRecv lib s with ⟨s1, r1⟩
    have h1 := Session.sessionPhaseRecv_recvLike lib s
    rw [hrecv] at h1
    rcases hsend : Session.sessionPhaseSend lib newId s1 with ⟨s2, r2⟩
    have h2 := Session.sessionPhaseSend_sendLike lib newId s1
    rw [hsend] at h2
    have h3 := Session.two_steps s s1 s2 r1 r2 false true h1 h2
    cases r1 with
    | ok u =>
      obtain ⟨h4, h5⟩ := h3.1 rfl
      cases r2 with
      | ok u2 =>
        simp only [hsend, Session.advance]
        refine ⟨by simp, Or.inr (Or.inr ?_), fun _ => ?_⟩ <;>
          exact Session.didSteps_congr s s2 _ _ rfl (h5 rfl)
      | err e =>
        simp only [hsend, Session.advance]
        refine ⟨by simp, ?_, by simp⟩
        rcases h4 with h4 | h4
        · exact Or.inr (Or.inl h4)
        · exact Or.inr (Or.inr h4)
      | panic =>
        simp only [hsend, Session.advance]
        refine ⟨by simp, ?_, by simp⟩
        rcases h4 with h4 | h4
        · exact Or.inr (Or.inl h4)
        · exact Or.inr (Or.inr h4)
    | err e =>
      refine ⟨by simp, ?_, by simp⟩
      rcases h3.2 (by simp) with h4 | h4
      · exact Or.inl h4
      · exact Or.inr (Or.inl h4)
    | panic =>
      refine ⟨by simp, ?_, by simp⟩
      rcases h3.2 (by simp) with h4 | h4
      · exact Or.inl h4
      · exact Or.inr (Or.inl h4)

theorem Session.IdentityPhase_order (lib : Ext B M) (s : Session B)
    (pid : Option PublicIdentity) (hp : s.phase = phaseSession) :
    (s.server = false →
      (∀ s1 r, Session.identityPhaseSend lib s pid = (s1, r) → r ≠ .ok () →
        Session.IdentityPhase lib s pid = (s1, r)) ∧
      s.clientOrder (Session.IdentityPhase lib s pid).1 ∧
      ((Session.IdentityPhase lib s pid).2 = .ok () →
        s.didSteps (Session.IdentityPhase lib s pid).1 [true, false])) ∧
    (s.server = true →
      (∀ s1 r, Session.identityPhaseRecv lib s = (s1, r) → r ≠ .ok () →
        Session.IdentityPhase lib s pid = (s1, r)) ∧
      s.serverOrder (Session.IdentityPhase lib s pid).1 ∧
      ((Session.IdentityPhase lib s pid).2 = .ok () →
        s.didSteps (Session.IdentityPhase lib s pid).1 [false, true])) := by
  unfold Session.IdentityPhase Session.clientOrder Session.serverOrder
  simp only [hp, ne_eq, not_true_eq_false, if_false]
  constructor
  · intro hs
    simp only [hs, Bool.false_eq_true, if_false]
    rcases hsend : Session.identityPhaseSend lib s pid with ⟨s1, r1⟩
    have h1 := Session.RpcSend_sendLike lib s (.publicIdentity pid)
    rw [show Session.RpcSend lib s (.publicIdentity pid) = Session.identityPhaseSend lib s pid from rfl, hsend] at h1
    rcases hrecv : Session.identityPhaseRecv lib s1 with ⟨s2, r2⟩
    have h2 := Session.identityPhaseRecv_recvLike lib s1
    rw [hrecv] at h2
    have h3 := Session.two_steps s s1 s2 r1 r2 true false h1 h2
    cases r1 with
    | ok u =>
      obtain ⟨h4, h5⟩ := h3.1 rfl
      cases r2 with
      | ok u2 =>
        simp only [hrecv, Session.advance]
        refine ⟨by simp, Or.inr (Or.inr ?_), fun _ => ?_⟩ <;>
          exact Session.didSteps_congr s s2 _ _ rfl (h5 rfl)
      | err e =>
        simp only [hrecv, Session.advance]
        refine ⟨by simp, ?_, by simp⟩
        rcases h4 with h4 | h4
        · exact Or.inr (Or.inl h4)
        · exact Or.inr (Or.inr h4)
      | panic =>
        simp only [hrecv, Session.advance]
        refine ⟨by simp, ?_, by simp⟩
        rcases h4 with h4 | h4
        · exact Or.inr (Or.inl h4)
        · exact Or.inr (Or.inr h4)
    | err e =>
      refine ⟨by simp, ?_, by simp⟩
      rcases h3.2 (by simp) with h4 | h4
      · exact Or.inl h4
      · exact Or.inr (Or.inl h4)
    | panic =>
      refine ⟨by simp, ?_, by simp⟩
      rcases h3.2 (by simp) with h4 | h4
      · exact Or.inl h4
      · exact Or.inr (Or.inl h4)
  · intro hs
    simp only [hs, if_true]
    rcases hrecv : Session.identityPhaseRecv lib s with ⟨s1, r1⟩
    have h1 := Session.identityPhaseRecv_recvLike lib s
    rw [hrecv] at h1
    rcases hsend : Session.identityPhaseSend lib s1 pid with ⟨s2, r2⟩
    have h2 := Session.RpcSend_sendLike lib s1 (.publicIdentity pid)
    rw [show Session.RpcSend lib s1 (.publicIdentity pid) = Session.identityPhaseSend lib s1 pid from rfl, hsend] at h2
    have h3 := Session.two_steps s s1 s2 r1 r2 false true h1 h2
    cases r1 with
    | ok u =>
      obtain ⟨h4, h5⟩ := h3.1 rfl
      cases r2 with
      | ok u2 =>
        simp only [hsend, Session.advance]
        refine ⟨by simp, Or.inr (Or.inr ?_), fun _ => ?_⟩ <;>
          exact Session.didSteps_congr s s2 _ _ rfl (h5 rfl)
      | err e =>
        simp only [hsend, Session.advance]
        refine ⟨by simp, ?_, by simp⟩
        rcases h4 with h4 | h4
        · exact Or.inr (Or.inl h4)
        · exact Or.inr (Or.inr h4)
      | panic =>
        simp only [hsend, Session.advance]
        refine ⟨by simp, ?_, by simp⟩
        rcases h4 with h4 | h4
        · exact Or.inr (Or.inl h4)
        · exact Or.inr (Or.inr h4)
    | err e =>
      refine ⟨by simp, ?_, by simp⟩
      rcases h3.2 (by simp) with h4 | h4
      · exact Or.inl h4
      · exact Or.inr (Or.inl h4)
    | panic =>
      refine ⟨by simp, ?_, by simp⟩
      rcases h3.2 (by simp) with h4 | h4
      · exact Or.inl h4
      · exact Or.inr (Or.inl h4)

theorem Session.ConfirmationPhase_order (lib : Ext B M) (s : Session B)
    (c : Option Confirmation) (hp : s.phase = phaseIdentity) :
    (s.server = false →
      (∀ s1 r, Session.confirmationPhaseSend lib s c = (s1, r) → r ≠ .ok () →
        Session.ConfirmationPhase lib s c = (s1, c, r)) ∧
      s.clientOrder (Session.ConfirmationPhase lib s c).1 ∧
      ((Session.ConfirmationPhase lib s c).2.2 = .ok () →
        s.didSteps (Session.ConfirmationPhase lib s c).1 [true, false])) ∧
    (s.server = true →
      (∀ s1 r, Session.confirmationPhaseRecv lib s = (s1, r) → r ≠ .ok () →
        Session.ConfirmationPhase lib s c = (s1, c, r)) ∧
      s.serverOrder (Session.ConfirmationPhase lib s c).1 ∧
      ((Session.ConfirmationPhase lib s c).2.2 = .ok () →
        s.didSteps (Session.ConfirmationPhase lib s c).1 [false, true])) := by
  unfold Session.ConfirmationPhase Session.clientOrder Session.serverOrder
  simp only [hp, ne_eq, not_true_eq_false, if_false]
  constructor
  · intro hs
    simp only [hs, Bool.false_eq_true, if_false]
    rcases hsend : Session.confirmationPhaseSend lib s c with ⟨s1, r1⟩
    have h1 := Session.RpcSend_sendLike lib s (.confirmation c)
    rw [show Session.RpcSend lib s (.confirmation c)
      = Session.confirmationPhaseSend lib s c from rfl, hsend] at h1
    rcases hrecv : Session.confirmationPhaseRecv lib s1 with ⟨s2, r2⟩
    have h2 := Session.confirmationPhaseRecv_recvLike lib s1
    rw [hrecv] at h2
    have h3 := Session.two_steps s s1 s2 r1 r2 true false h1 h2
    cases r1 with
    | ok u =>
      obtain ⟨h4, h5⟩ := h3.1 rfl
      cases r2 with
      | ok u2 =>
        simp only [hrecv]
        have h6 := h5 rfl
        refine ⟨by simp, ?_, ?_⟩
        · split
          · exact Or.inr (Or.inr h6)
          · split
            · exact Or.inr (Or.inr h6)
            · exact Or.inr (Or.inr (Session.didSteps_congr s s2 _ _ rfl h6))
        · intro _
          split
          · exact h6
          · split
            · exact h6
            · exact Session.didSteps_congr s s2 _ _ rfl h6
      | err e =>
        simp only [hrecv]
        refine ⟨by simp, ?_, by simp⟩
        rcases h4 with h4 | h4
        · exact Or.inr (Or.inl h4)
        · exact Or.inr (Or.inr h4)
      | panic =>
        simp only [hrecv]
        refine ⟨by simp, ?_, by simp⟩
        rcases h4 with h4 | h4
        · exact Or.inr (Or.inl h4)
        · exact Or.inr (Or.inr h4)
    | err e =>
      refine ⟨by simp, ?_, by simp⟩
      rcases h3.2 (by simp) with h4 | h4
      · exact Or.inl h4
      · exact Or.inr (Or.inl h4)
    | panic =>
      refine ⟨by simp, ?_, by simp⟩
      rcases h3.2 (by simp) with h4 | h4
      · exact Or.inl h4
      · exact Or.inr (Or.inl h4)
  · intro hs
    simp only [hs, if_true]
    rcases hrecv : Session.confirmationPhaseRecv lib s with ⟨s1, r1⟩
    have h1 := Session.confirmationPhaseRecv_recvLike lib s
    rw [hrecv] at h1
    cases r1 with
    | ok u =>
      simp only
      have hr : s.didSteps s1 [false] := by
        rcases h1 with ⟨-, h⟩ | ⟨h, -⟩
        · exact h
        · exact absurd rfl h
      refine ⟨by simp, ?_⟩
      split
      · rename_i pidv conf hpid hconf
        split
        · split
          · exact ⟨Or.inr (Or.inl hr), by simp⟩
          · rename_i cv
            have hsend := Session.RpcSend_sendLike lib s1
              (.confirmation (some { cv with Error := "unknown user " ++ conf.LookingFor }))
            have h3 := Session.two_steps s s1 _ (.ok ()) _ false true
              (Or.inl ⟨rfl, hr⟩) hsend
            obtain ⟨h4, h5⟩ := h3.1 rfl
            refine ⟨?_, h5⟩
            rcases h4 with h4 | h4
            · exact Or.inr (Or.inl h4)
            · exact Or.inr (Or.inr h4)
        · have hsend := Session.RpcSend_sendLike lib s1 (.confirmation c)
          have h3 := Session.two_steps s s1 _ (.ok ()) _ false true
            (Or.inl ⟨rfl, hr⟩) hsend
          obtain ⟨h4, h5⟩ := h3.1 rfl
          unfold Session.confirmationPhaseSend Session.advance
          cases hres : (Session.RpcSend lib s1 (.confirmation c)).2 with
          | ok u2 =>
            rw [hres] at h5
            simp only
            exact ⟨Or.inr (Or.inr (Session.didSteps_congr s _ _ _ rfl (h5 rfl))),
              fun _ => Session.didSteps_congr s _ _ _ rfl (h5 rfl)⟩
          | err e =>
            simp only
            refine ⟨?_, by simp⟩
            rcases h4 with h4 | h4
            · exact Or.inr (Or.inl h4)
            · exact Or.inr (Or.inr h4)
          | panic =>
            simp only
            refine ⟨?_, by simp⟩
            rcases h4 with h4 | h4
            · exact Or.inr (Or.inl h4)
            · exact Or.inr (Or.inr h4)
      · exact ⟨Or.inr (Or.inl hr), by simp⟩
    | err e =>
      refine ⟨by simp, ?_, by simp⟩
      rcases h1 with ⟨h, -⟩ | ⟨-, h4 | h4⟩
      · simp at h
      · exact Or.inl h4
      · exact Or.inr (Or.inl h4)
    | panic =>
      refine ⟨by simp, ?_, by simp⟩
      rcases h1 with ⟨h, -⟩ | ⟨-, h4 | h4⟩
      · simp at h
      · exact Or.inl h4
      · exact Or.inr (Or.inl h4)

/-- C9: in `SessionPhase`, `IdentityPhase` and `ConfirmationPhase`, called in
their legal phase, the role fixes the order of the two channel steps. A client
performs no channel step, its send, or its send followed by its receive; a
server no channel step, its receive, or its receive followed by its send; a
call that returns no error performed both, in that order. When the first step
(the send of a client, the receive of a server) fails, the call returns the
session and the error of that step, so the second step was not attempted. -/
theorem Session.role_fixes_step_order (lib : Ext B M) (s : Session B)
    (newId : Option Identity × Option String) (pid : Option PublicIdentity)
    (c : Option Confirmation) :
    (s.phase = phaseStartOfDay →
      s.roleFixesOrder (Session.sessionPhaseSend lib newId s) (Session.sessionPhaseRecv lib s)
        (Session.SessionPhase lib newId s).1 (Session.SessionPhase lib newId s).2) ∧
    (s.phase = phaseSession →
      s.roleFixesOrder (Session.identityPhaseSend lib s pid) (Session.identityPhaseRecv lib s)
        (Session.IdentityPhase lib s pid).1 (Session.IdentityPhase lib s pid).2) ∧
    (s.phase = phaseIdentity →
      s.roleFixesOrder (Session.confirmationPhaseSend lib s c)
        (Session.confirmationPhaseRecv lib s)
        (Session.ConfirmationPhase lib s c).1 (Session.ConfirmationPhase lib s c).2.2) := by
  refine ⟨fun hp => ?_, fun hp => ?_, fun hp => ?_⟩
  · have h := Session.SessionPhase_order lib newId s hp
    refine ⟨fun hs => ⟨fun hne => ?_, (h.1 hs).2⟩, fun hs => ⟨fun hne => ?_, (h.2 hs).2⟩⟩
    · exact (h.1 hs).1 _ _ rfl hne
    · exact (h.2 hs).1 _ _ rfl hne
  · have h := Session.IdentityPhase_order lib s pid hp
    refine ⟨fun hs => ⟨fun hne => ?_, (h.1 hs).2⟩, fun hs => ⟨fun hne => ?_, (h.2 hs).2⟩⟩
    · exact (h.1 hs).1 _ _ rfl hne
    · exact (h.2 hs).1 _ _ rfl hne
  · have h := Session.ConfirmationPhase_order lib s c hp
    refine ⟨fun hs => ⟨fun hne => ?_, (h.1 hs).2⟩, fun hs => ⟨fun hne => ?_, (h.2 hs).2⟩⟩
    · rw [(h.1 hs).1 (Session.confirmationPhaseSend lib s c).1
        (Session.confirmationPhaseSend lib s c).2 rfl hne]
    · rw [(h.2 hs).1 (Session.confirmationPhaseRecv lib s).1
        (Session.confirmationPhaseRecv lib s).2 rfl hne]

/-- Witness of C9: Alice's client writes its session identity and then reads
Bob's; Bob's server reads Alice's and then writes its own. -/
theorem Session.role_fixes_step_order_witness :
    (Session.fresh false clientConn).didSteps
      (Session.SessionPhase symLib (some aliceSid, none) (Session.fresh false clientConn)).1
      [true, false] ∧
    (Session.fresh true serverConnWrongAddress).didSteps
      (Session.SessionPhase symLib (some bobSid, none)
        (Session.fresh true serverConnWrongAddress)).1
      [false, true] :=
  ⟨(((Session.role_fixes_step_order symLib (Session.fresh false clientConn)
      (some aliceSid, none) none none).1 rfl).1 rfl).2.2 (by decide),
   (((Session.role_fixes_step_order symLib (Session.fresh true serverConnWrongAddress)
      (some bobSid, none) none none).1 rfl).2 rfl).2.2 (by decide)⟩

/-! ## The server keys its trust decision by the wrong identity -/

/-- C11 at the failing input: Bob's trust store is empty and Alice, unknown,
connects and looks for `bob@localhost`. After the handshake the session holds
Alice as peer, the confirmation sent carries state Queued, and the one record
of the store is keyed by Bob's own public key and holds Bob's own public
identity as Queued; there is no record under Alice's key. -/
theorem Core.serverHandshake_queues_local_identity :
    (Core.serverHandshake symLib 7 (some bobSid, none) (bobCore ⟨[]⟩)
        (Session.fresh true (serverConnFrom alice aliceSid aliceLooksForBob))).2.1.peer
      = some alice.PublicIdentity ∧
    ((Core.serverHandshake symLib 7 (some bobSid, none) (bobCore ⟨[]⟩)
        (Session.fresh true (serverConnFrom alice aliceSid aliceLooksForBob))).2.1.conn.map
        (fun c => c.log.getLast?))
      = some (some (Event.write
          (symFrame bobSid aliceSid RpcConfirmation (.confirmation (some queuedReply))) none)) ∧
    (Core.serverHandshake symLib 7 (some bobSid, none) (bobCore ⟨[]⟩)
        (Session.fresh true (serverConnFrom alice aliceSid aliceLooksForBob))).1.trust.db.map
        Prod.fst
      = [bob.PublicIdentity.Key] ∧
    Trust.Get symLib bobAfterAlice.trust (some bob) (some bob.PublicIdentity)
      = .ok { PublicIdentity := some bob.PublicIdentity, Inserted := 7, LastUpdate := 0,
              State := StateQueued, FreeToUse := none } ∧
    Trust.Get symLib bobAfterAlice.trust (some bob) (some alice.PublicIdentity)
      = .err "leveldb: not found" := by
  decide

/-- C12 at the failing input: the only record of Bob's store is the one under
his own key, promoted to Allowed by the operator. Eve, for whose key the store
has no record, connects: the handshake succeeds, `BecomeReady` has moved the
session to the Message phase and the receive loop starts. -/
theorem Core.serverHandshake_admits_unknown_peer :
    Trust.Get symLib bobAfterPromotion.trust (some bob) (some eve.PublicIdentity)
      = .err "leveldb: not found" ∧
    (Core.serverHandshake symLib 9 (some bobSid, none) bobAfterPromotion
        (Session.fresh true (serverConnFrom eve eveSid aliceLooksForBob))).2.2 = .ok () ∧
    (Core.serverHandshake symLib 9 (some bobSid, none) bobAfterPromotion
        (Session.fresh true (serverConnFrom eve eveSid aliceLooksForBob))).2.1.peer
      = some eve.PublicIdentity ∧
    (Core.serverHandshake symLib 9 (some bobSid, none) bobAfterPromotion
        (Session.fresh true (serverConnFrom eve eveSid aliceLooksForBob))).2.1.phase
      = phaseMessage := by
  decide

/-! ## The client keys its trust decision by the wrong identity -/

/-- C13 at the failing input: Alice's trust store holds her own record as
Allowed, the one an accepted first contact leaves, and no record for Eve.
Alice dials `alice@localhost` and the node that answers presents the identity
of `eve@localhost`. `verifyHost` compares the dialled address with the address
of Alice's own identity and looks up her own record: nothing is reported, the
connection is not closed, the continuation is called, the session reaches the
Message phase and the file is sent to Eve. -/
theorem Core.verifyHost_approves_mismatched_peer :
    (clientAfterDefault eve eveSid serverConfirmation).peer = some eve.PublicIdentity ∧
    (clientAfterDefault eve eveSid serverConfirmation).pid = some alice.PublicIdentity ∧
    eve.PublicIdentity.Address ≠ "alice@localhost" ∧
    Trust.Get symLib aliceTrustsSelf (some alice) (some eve.PublicIdentity)
      = .err "leveldb: not found" ∧
    Trust.Get symLib aliceTrustsSelf (some alice) (some alice.PublicIdentity)
      = .ok { PublicIdentity := some alice.PublicIdentity, Inserted := 5, LastUpdate := 0,
              State := StateAllowed, FreeToUse := none } ∧
    (Core.verifyHost symLib
        (aliceCore aliceTrustsSelf (clientAfterDefault eve eveSid serverConfirmation))
        "alice@localhost" 0 (.handleSendFile 0 noteForSelf)).1.events
      = [.invoked (.handleSendFile 0 noteForSelf)] ∧
    (Core.verifyHost symLib
        (aliceCore aliceTrustsSelf (clientAfterDefault eve eveSid serverConfirmation))
        "alice@localhost" 0 (.handleSendFile 0 noteForSelf)).1.clients.map
        (fun s => (s.phase, s.conn.map (fun c => c.closed), s.log.getLast?))
      = [(phaseMessage, some false,
          some (.write (symFrame aliceSid eveSid RpcSendFileCommand
            (.sendFile (some { Filename := "note.txt", Mime := "text/plain",
                               Content := [104, 101, 108, 108, 111] }))) none))] := by
  decide

/-- With an empty trust store and a dialled address other than Alice's own:
Alice dials `bob@localhost`, the node that answers presents the identity of
`eve@localhost`. `verifyHost` returns without reporting an error and without
closing the connection: it has sent one request to the UI, about Alice's own
identity, and parked the continuation. -/
theorem Core.verifyHost_mismatch_parks :
    (clientAfterDefault eve eveSid serverConfirmation).peer = some eve.PublicIdentity ∧
    (Core.verifyHost symLib (aliceCore ⟨[]⟩ (clientAfterDefault eve eveSid serverConfirmation))
        "bob@localhost" 0 (.handleSendFile 0 noteForBob))
      = ({ aliceCore ⟨[]⟩ (clientAfterDefault eve eveSid serverConfirmation) with
            verifyWaiters :=
              [(symLib.fingerprint alice.PublicIdentity,
                .finishVerify "bob@localhost" 0 (.handleSendFile 0 noteForBob))],
            events := [.toUi (.confirmPublicIdentity (some alice.PublicIdentity))] },
          .returned) ∧
    ((clientAfterDefault eve eveSid serverConfirmation).conn.map (fun c => c.closed))
      = some false := by
  decide

/-- C14 at the failing input: Alice dials `bob@localhost`, the peer is Bob,
whose address is the dialled one, and her trust store holds Bob as Allowed.
`verifyHost` does not call the continuation: it finds no record (it looks up
Alice's own identity), asks the UI to confirm Alice's own identity and
parks. -/
theorem Core.verifyHost_allowed_peer_not_approved :
    (clientAfterDefault bob bobSid serverConfirmation).peer = some bob.PublicIdentity ∧
    Trust.Get symLib aliceTrustsBob (some alice) (some bob.PublicIdentity)
      = .ok { PublicIdentity := some bob.PublicIdentity, Inserted := 3, LastUpdate := 0,
              State := StateAllowed, FreeToUse := none } ∧
    (Core.verifyHost symLib
        (aliceCore aliceTrustsBob (clientAfterDefault bob bobSid serverConfirmation))
        "bob@localhost" 0 (.handleSendFile 0 noteForBob)).1.events
      = [.toUi (.confirmPublicIdentity (some alice.PublicIdentity))] ∧
    (Core.verifyHost symLib
        (aliceCore aliceTrustsBob (clientAfterDefault bob bobSid serverConfirmation))
        "bob@localhost" 0 (.handleSendFile 0 noteForBob)).1.verifyWaiters
      = [(symLib.fingerprint alice.PublicIdentity,
          .finishVerify "bob@localhost" 0 (.handleSendFile 0 noteForBob))] := by
  decide

/-- C15 at the failing input: Alice dials the unknown peer Bob with an empty
trust store. The request sent to the UI carries Alice's own public identity,
not Bob's, and the continuation is registered under Alice's fingerprint: there
is no waiter under Bob's. -/
theorem Core.verifyHost_unknown_peer_asks_for_local_identity :
    (clientAfterDefault bob bobSid serverConfirmation).peer = some bob.PublicIdentity ∧
    aliceParked.events = [.toUi (.confirmPublicIdentity (some alice.PublicIdentity))] ∧
    aliceParked.verifyWaiters
      = [(symLib.fingerprint alice.PublicIdentity,
          .finishVerify "bob@localhost" 0 (.handleSendFile 0 noteForBob))] ∧
    mapGet (symLib.fingerprint bob.PublicIdentity) aliceParked.verifyWaiters = none := by
  decide

/-- A reply that names the peer, which the UI of the repository does not
send (it returns the identity it was asked about): were Alice, parked for the
unknown peer Bob, to handle a reply Allowed with Bob's public identity, the
store would hold Bob as Allowed but no waiter would be found under Bob's
fingerprint: the core reports an impossible condition, the continuation is not
called and the waiter stays in the table. -/
theorem Core.handleIncoming_allowed_reply_no_waiter :
    (Trust.Get symLib
        (Core.handleIncoming symLib 5 aliceParked
          (.uiConfirmPublicIdentityReply (some bob.PublicIdentity) StateAllowed)).1.trust
        (some alice) (some bob.PublicIdentity))
      = .ok { PublicIdentity := some bob.PublicIdentity, Inserted := 5, LastUpdate := 0,
              State := StateAllowed, FreeToUse := none } ∧
    (Core.handleIncoming symLib 5 aliceParked
        (.uiConfirmPublicIdentityReply (some bob.PublicIdentity) StateAllowed)).1.events
      = [.toUi (.confirmPublicIdentity (some alice.PublicIdentity)),
         .toUi (.renderTrust
          [{ PublicIdentity := some bob.PublicIdentity, Inserted := 5, LastUpdate := 0,
             State := StateAllowed, FreeToUse := none }]),
         .toUi (.popup "Public Identity Verification Failed"
          "Impossible condition, check code at handleVerifyWaiter")] ∧
    (Core.handleIncoming symLib 5 aliceParked
        (.uiConfirmPublicIdentityReply (some bob.PublicIdentity) StateAllowed)).1.verifyWaiters
      = aliceParked.verifyWaiters ∧
    aliceParked.verifyWaiters ≠ [] := by
  decide

/-- C17 at the failing input: Alice is parked and the UI answers the request
it was sent with state 0, neither Allowed nor Denied. The core deletes the
waiter and does nothing else: the connection of the parked client is still
open and nothing is reported. -/
theorem Core.handleIncoming_cancel_leaves_connection_open :
    Core.handleIncoming symLib 5 aliceParked
        (.uiConfirmPublicIdentityReply (some alice.PublicIdentity) StateInvalid)
      = ({ aliceParked with verifyWaiters := [] }, .returned) ∧
    aliceParked.verifyWaiters ≠ [] ∧
    aliceParked.clients.map (fun s => s.conn.map (fun c => c.closed)) = [some false] := by
  decide

/-! ## The client does not look at the state of the confirmation -/

/-- C19 at the failing input: the server answers Alice's confirmation with
the confirmation it sends to a peer it has queued (state Queued, empty error).
The client's `ConfirmationPhase` returns no error and the session is in the
Confirmation phase; `handleSendFile` goes on to the Message phase and writes
the `sendfile` message. -/
theorem Session.ConfirmationPhase_queued_reply_accepted :
    (Session.ConfirmationPhase symLib (clientAfterDefault bob bobSid queuedReply)
        (some aliceLooksForBob)).2.2 = .ok () ∧
    (Session.ConfirmationPhase symLib (clientAfterDefault bob bobSid queuedReply)
        (some aliceLooksForBob)).1.phase = phaseConfirmation ∧
    (Session.ConfirmationPhase symLib (clientAfterDefault bob bobSid queuedReply)
        (some aliceLooksForBob)).1.confirmation = some queuedReply ∧
    queuedReply.State = StateQueued ∧
    (Core.handleSendFile symLib (aliceCore ⟨[]⟩ (clientAfterDefault bob bobSid queuedReply)) 0
        noteForBob).1.clients.map
        (fun s => (s.phase, s.conn.map (fun c => c.log.getLast?)))
      = [(phaseMessage,
          some (some (Event.write
            (symFrame aliceSid bobSid RpcSendFileCommand
              (.sendFile (some { Filename := "note.txt", Mime := "text/plain",
                                 Content := [104, 101, 108, 108, 111] })))
            none)))] := by
  decide

/-! ## The confirmation of the server -/

/-- C20 as the claim states it fails: Bob's store holds Alice (and Bob) as
Allowed and Alice's confirmation looks for `bob@localhost` with a frame size
of 4096. The confirmation Bob's server sends back has an empty `LookingFor`
and a frame size of 10485760. -/
theorem Core.serverHandshake_reply_not_echo :
    Trust.Get symLib bobTrustsAliceAndSelf (some bob) (some alice.PublicIdentity)
      = .ok { PublicIdentity := some alice.PublicIdentity, Inserted := 4, LastUpdate := 0,
              State := StateAllowed, FreeToUse := none } ∧
    ((Core.serverHandshake symLib 9 (some bobSid, none) (bobCore bobTrustsAliceAndSelf)
        (Session.fresh true (serverConnFrom alice aliceSid aliceAsksSmallFrames))).2.1.conn.map
        (fun c => c.log.getLast?))
      = some (some (Event.write
          (symFrame bobSid aliceSid RpcConfirmation
            (.confirmation (some { LookingFor := "", MaxFrameSize := 10485760, Error := "",
                                   State := 0 })))
          none)) ∧
    aliceAsksSmallFrames.LookingFor = bob.PublicIdentity.Address ∧
    aliceAsksSmallFrames.LookingFor ≠ "" ∧ aliceAsksSmallFrames.MaxFrameSize ≠ 10485760 := by
  decide

/-! ## The verify-waiter table -/

theorem mapGet_mapSet_self {α : Type} (k : String) (v : α) (m : List (String × α)) :
    mapGet k (mapSet k v m) = some v := by
  induction m with
  | nil => simp [mapSet, mapGet, List.lookup]
  | cons head rest ih =>
    obtain ⟨k1, v1⟩ := head
    unfold mapSet
    by_cases h : k1 = k
    · simp [h, mapGet, List.lookup]
    · have h1 : (k == k1) = false := by simpa using Ne.symm h
      simp only [h, if_false]
      unfold mapGet at ih ⊢
      simp [List.lookup, h1, ih]

theorem mapGet_mapSet_other {α : Type} (k other : String) (v : α) (m : List (String × α))
    (hne : other ≠ k) : mapGet other (mapSet k v m) = mapGet other m := by
  induction m with
  | nil =>
    have h1 : (other == k) = false := by simpa using hne
    simp [mapSet, mapGet, List.lookup, h1]
  | cons head rest ih =>
    obtain ⟨k1, v1⟩ := head
    unfold mapSet
    by_cases h : k1 = k
    · subst h
      have h1 : (other == k1) = false := by simpa using hne
      simp [mapGet, List.lookup, h1]
    · simp only [h, if_false]
      unfold mapGet at ih ⊢
      cases h2 : (other == k1) <;> simp [List.lookup, h2, ih]

theorem mem_keys_mapSet {α : Type} (k x : String) (v : α) (m : List (String × α))
    (h : x ∈ (mapSet k v m).map Prod.fst) : x = k ∨ x ∈ m.map Prod.fst := by
  induction m with
  | nil =>
    simp [mapSet] at h
    exact Or.inl h
  | cons head rest ih =>
    obtain ⟨k1, v1⟩ := head
    unfold mapSet at h
    by_cases h1 : k1 = k
    · simp only [h1, if_true, List.map_cons, List.mem_cons] at h
      rcases h with h | h
      · exact Or.inl h
      · exact Or.inr (by simp [h])
    · simp only [h1, if_false, List.map_cons, List.mem_cons] at h
      rcases h with h | h
      · exact Or.inr (by simp [h])
      · rcases ih h with h2 | h2
        · exact Or.inl h2
        · exact Or.inr (by simp [h2])

theorem keys_mapSet_nodup {α : Type} (k : String) (v : α) (m : List (String × α))
    (h : (m.map Prod.fst).Nodup) : ((mapSet k v m).map Prod.fst).Nodup := by
  induction m with
  | nil => simp [mapSet]
  | cons head rest ih =>
    obtain ⟨k1, v1⟩ := head
    simp only [List.map_cons, List.nodup_cons] at h
    unfold mapSet
    by_cases h1 : k1 = k
    · subst h1
      simp only [if_true, List.map_cons, List.nodup_cons]
      exact h
    · simp only [h1, if_false, List.map_cons, List.nodup_cons]
      refine ⟨fun hmem => ?_, ih h.2⟩
      rcases mem_keys_mapSet k k1 v rest hmem with h2 | h2
      · exact h1 h2
      · exact h.1 h2

/-- C18: with the mutex of the table free, `addVerifyWaiter` for a
fingerprint that has no waiter returns with the callback stored under that
fingerprint, every other entry of the table as before and nothing reported;
for a fingerprint that already has a waiter it returns (no panic) after a
popup, with the table unchanged. A table with at most one entry per fingerprint
stays so. -/
theorem Core.addVerifyWaiter_one_per_fingerprint (lib : Ext B M) (core : Core B)
    (pid : PublicIdentity) (callback : Callback) (hfree : core.mtxVerifyWaiter = false) :
    (mapGet (lib.fingerprint pid) core.verifyWaiters = none →
      (Core.addVerifyWaiter lib core (some pid) callback).2 = .returned ∧
      mapGet (lib.fingerprint pid)
        (Core.addVerifyWaiter lib core (some pid) callback).1.verifyWaiters = some callback ∧
      (∀ other, other ≠ lib.fingerprint pid →
        mapGet other (Core.addVerifyWaiter lib core (some pid) callback).1.verifyWaiters
          = mapGet other core.verifyWaiters) ∧
      (Core.addVerifyWaiter lib core (some pid) callback).1.events = core.events) ∧
    (∀ first, mapGet (lib.fingerprint pid) core.verifyWaiters = some first →
      Core.addVerifyWaiter lib core (some pid) callback
        = (core.popup "Public Identity Verification Failed"
            "Impossible condition, check code at addVerifyWaiter", .returned) ∧
      (core.popup "Public Identity Verification Failed"
          "Impossible condition, check code at addVerifyWaiter").verifyWaiters
        = core.verifyWaiters) ∧
    ((core.verifyWaiters.map Prod.fst).Nodup →
      ((Core.addVerifyWaiter lib core (some pid) callback).1.verifyWaiters.map
        Prod.fst).Nodup) := by
  unfold Core.addVerifyWaiter
  simp only [hfree, Bool.false_eq_true, if_false]
  refine ⟨fun hnone => ?_, fun first hsome => ?_, fun hnodup => ?_⟩
  · simp only [hnone]
    exact ⟨trivial, mapGet_mapSet_self _ _ _,
      fun other hne => mapGet_mapSet_other _ _ _ _ hne, trivial⟩
  · simp only [hsome]
    exact ⟨trivial, rfl⟩
  · cases hget : mapGet (lib.fingerprint pid) core.verifyWaiters with
    | none => exact keys_mapSet_nodup _ _ _ hnodup
    | some first => exact hnodup

/-- Witness of C18: a second waiter for Alice's fingerprint is refused with a
popup and the parked continuation stays. -/
theorem Core.addVerifyWaiter_one_per_fingerprint_witness :
    Core.addVerifyWaiter symLib aliceParked (some alice.PublicIdentity)
        (.handleSendFile 0 noteForBob)
      = (aliceParked.popup "Public Identity Verification Failed"
          "Impossible condition, check code at addVerifyWaiter", .returned) ∧
    (aliceParked.popup "Public Identity Verification Failed"
        "Impossible condition, check code at addVerifyWaiter").verifyWaiters
      = aliceParked.verifyWaiters :=
  (Core.addVerifyWaiter_one_per_fingerprint symLib aliceParked alice.PublicIdentity
    (.handleSendFile 0 noteForBob) (by decide)).2.1
    (.finishVerify "bob@localhost" 0 (.handleSendFile 0 noteForBob)) (by decide)

/-! ## The address `verifyHost` compares the dialled address with -/

theorem Trust.Get_ne_panic (lib : Ext B M) (t : Trust B) (id : Identity)
    (p : PublicIdentity) : Trust.Get lib t (some id) (some p) ≠ .panic := by
  unfold Trust.Get Trust.decrypt
  simp only
  repeat' split
  all_goals simp

/-- The closure `finishVerify` on an address that differs from the one it
compares with: the connection is closed and the mismatch reported. -/
theorem Core.invoke_finishVerify_mismatch (lib : Ext B M) (core : Core B) (host : String)
    (client : Nat) (callback : Callback) (s : Session B) (pid : PublicIdentity) (c : Conn B)
    (hclient : core.clients[client]? = some s) (hpid : s.pid = some pid)
    (hconn : s.conn = some c) (hne : host ≠ pid.Address) :
    Core.invoke lib (.finishVerify host client callback) core
      = ((core.setClient client { s with conn := some c.close }).popup
          "Public Identity Verification Failed"
          ("Address does not match public identity\n\nContacted " ++ host ++
            " and reply came from " ++ pid.Address), .returned) := by
  unfold Core.invoke Core.finishVerifyFailed Core.closeClient
  simp [hclient, hpid, hconn, hne]

theorem Core.addVerifyWaiter_events (lib : Ext B M) (core : Core B)
    (pid : Option PublicIdentity) (callback : Callback) :
    (Core.addVerifyWaiter lib core pid callback).1.clients = core.clients ∧
    ((Core.addVerifyWaiter lib core pid callback).1.events = core.events ∨
      (Core.addVerifyWaiter lib core pid callback).1.events
        = core.events ++ [.toUi (.popup "Public Identity Verification Failed"
            "Impossible condition, check code at addVerifyWaiter")]) := by
  unfold Core.addVerifyWaiter Core.popup Core.sendUi
  repeat' split
  all_goals simp

/-- The address `verifyHost` compares the dialled address with is the one of
the node's own identity (`Session.pid`). When they differ, whatever the peer
is and whatever the trust store contains, `verifyHost` does not call the
continuation: either it fails at once, closing the connection and reporting
the error with a popup, or, only when its trust lookup finds no record, it
sends the request to confirm the identity to the UI and parks, leaving the
connection as it is; the parked continuation, when it is run, fails in that
same way. -/
theorem Core.verifyHost_own_address_mismatch (lib : Ext B M) (core : Core B) (host : String)
    (client : Nat) (callback : Callback) (s : Session B) (id : Identity)
    (pid : PublicIdentity) (c : Conn B)
    (hclient : core.clients[client]? = some s) (hid : core.identity = some id)
    (hpid : s.pid = some pid) (hconn : s.conn = some c)
    (hlocal : host ≠ pid.Address) :
    ((∃ message, Core.verifyHost lib core host client callback
        = ((core.setClient client { s with conn := some c.close }).popup
            "Public Identity Verification Failed" message, .returned)) ∨
      ((∃ e, Trust.Get lib core.trust core.identity s.pid = .err e) ∧
        Core.verifyHost lib core host client callback
          = Core.addVerifyWaiter lib (core.sendUi (.confirmPublicIdentity s.pid)) s.pid
              (.finishVerify host client callback) ∧
        (Core.verifyHost lib core host client callback).1.clients = core.clients)) ∧
    (∀ cb, CoreEvent.invoked cb ∈ (Core.verifyHost lib core host client callback).1.events →
      CoreEvent.invoked cb ∈ core.events) ∧
    (∀ core1 : Core B, core1.clients[client]? = some s →
      ∃ message, Core.invoke lib (.finishVerify host client callback) core1
        = ((core1.setClient client { s with conn := some c.close }).popup
            "Public Identity Verification Failed" message, .returned)) := by
  have hinv := Core.invoke_finishVerify_mismatch lib core host client callback s pid c hclient
    hpid hconn hlocal
  unfold Core.verifyHost
  simp only [hclient]
  cases hget : Trust.Get lib core.trust core.identity s.pid with
  | panic =>
    rw [hid, hpid] at hget
    exact absurd hget (Trust.Get_ne_panic lib core.trust id pid)
  | err e =>
    simp only
    have hadd := Core.addVerifyWaiter_events lib (core.sendUi (.confirmPublicIdentity s.pid))
      s.pid (.finishVerify host client callback)
    refine ⟨Or.inr ⟨⟨e, rfl⟩, trivial, hadd.1⟩, ?_, ?_⟩
    · intro cb hcb
      rcases hadd.2 with h | h
      · rw [h] at hcb
        simpa [Core.sendUi] using hcb
      · rw [h] at hcb
        simpa [Core.sendUi] using hcb
    · intro core1 h1
      exact ⟨_, Core.invoke_finishVerify_mismatch lib core1 host client callback s pid c h1
        hpid hconn hlocal⟩
  | ok tr =>
    simp only
    refine ⟨Or.inl ⟨_, hinv⟩, ?_, ?_⟩
    · intro cb hcb
      rw [hinv] at hcb
      simpa [Core.popup, Core.sendUi, Core.setClient] using hcb
    · intro core1 h1
      exact ⟨_, Core.invoke_finishVerify_mismatch lib core1 host client callback s pid c h1
        hpid hconn hlocal⟩

/-- An instance of that: Alice dials `bob@localhost`, the answering node
presents Eve's identity, and Alice's store holds Eve (and Alice) as Allowed: the
connection is closed and the mismatch is reported. -/
theorem Core.verifyHost_own_address_mismatch_example :
    ∃ message,
      Core.verifyHost symLib
          (aliceCore aliceTrustsEveAndSelf (clientAfterDefault eve eveSid serverConfirmation))
          "bob@localhost" 0 (.handleSendFile 0 noteForBob)
        = (((aliceCore aliceTrustsEveAndSelf
              (clientAfterDefault eve eveSid serverConfirmation)).setClient 0
              { clientAfterDefault eve eveSid serverConfirmation with
                conn := some
                  { incoming :=
                      [.ok (symFrame eveSid aliceSid RpcConfirmation
                        (.confirmation (some serverConfirmation)))],
                    outcomes := [none, none],
                    log :=
                      [.write (.doc (.pid (some aliceSid.PublicIdentity))) none,
                       .read (.ok (.doc (.pid (some eveSid.PublicIdentity)))),
                       .write (symFrame aliceSid eveSid RpcIdentity
                        (.publicIdentity (some alice.PublicIdentity))) none,
                       .read (.ok (symFrame eveSid aliceSid RpcIdentity
                        (.publicIdentity (some eve.PublicIdentity))))],
                    closed := true } }).popup
            "Public Identity Verification Failed" message, .returned) :=
  ((Core.verifyHost_own_address_mismatch symLib
      (aliceCore aliceTrustsEveAndSelf (clientAfterDefault eve eveSid serverConfirmation))
      "bob@localhost" 0 (.handleSendFile 0 noteForBob)
      (clientAfterDefault eve eveSid serverConfirmation) alice alice.PublicIdentity
      { incoming :=
          [.ok (symFrame eveSid aliceSid RpcConfirmation
            (.confirmation (some serverConfirmation)))],
        outcomes := [none, none],
        log :=
          [.write (.doc (.pid (some aliceSid.PublicIdentity))) none,
           .read (.ok (.doc (.pid (some eveSid.PublicIdentity)))),
           .write (symFrame aliceSid eveSid RpcIdentity
            (.publicIdentity (some alice.PublicIdentity))) none,
           .read (.ok (symFrame eveSid aliceSid RpcIdentity
            (.publicIdentity (some eve.PublicIdentity))))] }
      rfl rfl rfl rfl (by decide)).1).resolve_right
    (by
      rintro ⟨⟨e, he⟩, -⟩
      have hok : Trust.Get symLib
          (aliceCore aliceTrustsEveAndSelf
            (clientAfterDefault eve eveSid serverConfirmation)).trust
          (aliceCore aliceTrustsEveAndSelf
            (clientAfterDefault eve eveSid serverConfirmation)).identity
          (clientAfterDefault eve eveSid serverConfirmation).pid
          = .ok { PublicIdentity := some alice.PublicIdentity, Inserted := 3, LastUpdate := 0,
                  State := StateAllowed, FreeToUse := none } := by decide
      rw [hok] at he
      exact Res.noConfusion he)

/-- The address is compared with the node's own also when it is the address
of the peer: with a record of her own in the store, Alice dials
`bob@localhost`, Bob answers, and `verifyHost` closes the connection and
reports a mismatch. -/
theorem Core.verifyHost_rejects_matching_peer :
    (clientAfterDefault bob bobSid serverConfirmation).peer = some bob.PublicIdentity ∧
    bob.PublicIdentity.Address = "bob@localhost" ∧
    (Core.verifyHost symLib
        (aliceCore aliceTrustsSelf (clientAfterDefault bob bobSid serverConfirmation))
        "bob@localhost" 0 (.handleSendFile 0 noteForBob)).1.events
      = [.toUi (.popup "Public Identity Verification Failed"
          ("Address does not match public identity\n\nContacted bob@localhost and " ++
            "reply came from alice@localhost"))] ∧
    (Core.verifyHost symLib
        (aliceCore aliceTrustsSelf (clientAfterDefault bob bobSid serverConfirmation))
        "bob@localhost" 0 (.handleSendFile 0 noteForBob)).1.clients.map
        (fun s => s.conn.map (fun c => c.closed)) = [some true] := by
  decide

/-! ## What the server sends back -/

/-- `RpcSend` of a confirmation in the Identity phase when the library calls
succeed: one frame is written. -/
theorem Session.RpcSend_confirmation (lib : Ext B M) (s : Session B)
    (x : Option Confirmation) (sid : Identity) (speer : PublicIdentity) (c : Conn B)
    (j : B) (ej : M) (frame : B)
    (hphase : s.phase = phaseIdentity) (hsid : s.sid = some sid)
    (hspeer : s.speer = some speer) (hconn : s.conn = some c)
    (hj : lib.marshalRpc { Command := RpcConfirmation, Payload := .confirmation x } = .ok j)
    (hej : lib.encrypt sid speer.Key j = .ok ej) (hfr : lib.frameOfMessage ej = .ok frame) :
    Session.RpcSend lib s (.confirmation x)
      = ({ s with conn := some (c.write frame).1 }, Res.ofError (c.write frame).2) := by
  unfold Session.RpcSend
  simp [hphase, hj, hsid, hspeer, hej, hconn, hfr]

theorem Session.BecomeReady_conn (s : Session B) : s.BecomeReady.1.conn = s.conn := by
  rcases Session.BecomeReady_effect s with h | h
  · rw [h.2.2.2]
  · rw [h.2]

theorem Session.DefaultSession_ok_phase (lib : Ext B M)
    (newId : Option Identity × Option String) (s s1 : Session B)
    (pid : Option PublicIdentity)
    (h : Session.DefaultSession lib newId s pid = (s1, .ok ())) :
    s1.phase = phaseIdentity := by
  unfold Session.DefaultSession at h
  simp only at h
  rcases hs : Session.SessionPhase lib newId s with ⟨s0, r0⟩
  rw [hs] at h
  cases r0 with
  | ok u =>
    simp only at h
    rcases hi : Session.IdentityPhase lib s0 pid with ⟨s2, r2⟩
    have heff := Session.IdentityPhase_effect lib s0 pid
    rw [hi] at h heff
    cases r2 with
    | ok u2 =>
      simp only [Prod.mk.injEq] at h
      rcases heff with h1 | h1
      · rw [← h.1]
        exact h1.2.2.1
      · exact absurd rfl h1.1
    | err e =>
      simp only at h
      split at h <;> simp at h
    | panic => simp at h
  | err e =>
    simp only at h
    split at h <;> simp at h
  | panic => simp at h

theorem Core.serverConfirm_conn (lib : Ext B M) (core : Core B) (s : Session B)
    (confirmation : Confirmation) :
    (Core.serverConfirm lib core s confirmation).2.1.conn
      = (Session.ConfirmationPhase lib s (some confirmation)).1.conn ∧
    (Core.serverConfirm lib core s confirmation).1 = core := by
  unfold Core.serverConfirm
  rcases hcp : Session.ConfirmationPhase lib s (some confirmation) with ⟨s1, c1, r1⟩
  cases r1 with
  | ok u =>
    cases c1 with
    | none => simp
    | some cv =>
      simp only
      split
      · simp
      · have hb := Session.BecomeReady_conn s1
        rcases hready : s1.BecomeReady with ⟨s2, r2⟩
        rw [hready] at hb
        cases r2 <;> simp_all
  | err e => simp
  | panic => simp

theorem Session.ConfirmationPhase_server_match_conn (lib : Ext B M) (s1 s2 : Session B)
    (x : Confirmation) (pid : PublicIdentity) (conf : Confirmation)
    (sid : Identity) (speer : PublicIdentity) (c : Conn B) (j : B) (ej : M) (frame : B)
    (hphase : s1.phase = phaseIdentity) (hserver : s1.server = true)
    (hrecv : Session.confirmationPhaseRecv lib s1 = (s2, .ok ()))
    (hpid : s2.pid = some pid) (hconf : s2.confirmation = some conf)
    (hown : pid.Address = conf.LookingFor)
    (hsid : s2.sid = some sid) (hspeer : s2.speer = some speer) (hconn : s2.conn = some c)
    (hj : lib.marshalRpc { Command := RpcConfirmation, Payload := .confirmation (some x) }
      = .ok j)
    (hej : lib.encrypt sid speer.Key j = .ok ej) (hfr : lib.frameOfMessage ej = .ok frame) :
    (Session.ConfirmationPhase lib s1 (some x)).1.conn = some (c.write frame).1 := by
  have hkeep := Session.confirmationPhaseRecv_keeps lib s1
  rw [hrecv] at hkeep
  have hphase2 : s2.phase = phaseIdentity := by rw [hkeep.2.2, hphase]
  have hsend := Session.RpcSend_confirmation lib s2 (some x) sid speer c j ej
    frame hphase2 hsid hspeer hconn hj hej hfr
  unfold Session.ConfirmationPhase Session.confirmationPhaseSend
  simp only [hphase, hserver, hrecv, hpid, hconf, hown, hsend, ne_eq, not_true_eq_false,
    if_false, if_true]
  unfold Session.advance
  cases (c.write frame).2 <;> simp [Res.ofError]

/-- C20, amended: for every server session for which the trust lookup of
`ServerCallback` finds a record with state Allowed and whose received
confirmation names the server's own address, the confirmation written to the
client is the server's own, whatever the client sent: empty `LookingFor`, frame
size 10485760, empty error and state 0. The orchestrator is left as it was. -/
theorem Core.serverHandshake_sends_own_confirmation (lib : Ext B M) (now : Time)
    (newId : Option Identity × Option String) (core : Core B) (s s1 s2 : Session B)
    (id : Identity) (tr : TrustRecord) (pid : PublicIdentity) (conf : Confirmation)
    (sid : Identity) (speer : PublicIdentity) (c : Conn B) (j : B) (ej : M) (frame : B)
    (hid : core.identity = some id)
    (hdefault : Session.DefaultSession lib newId s (some id.PublicIdentity) = (s1, .ok ()))
    (hserver : s1.server = true)
    (hget : Trust.Get lib core.trust core.identity s1.pid = .ok tr)
    (hallowed : tr.State = StateAllowed)
    (hrecv : Session.confirmationPhaseRecv lib s1 = (s2, .ok ()))
    (hpid : s2.pid = some pid) (hconf : s2.confirmation = some conf)
    (hown : pid.Address = conf.LookingFor)
    (hsid : s2.sid = some sid) (hspeer : s2.speer = some speer) (hconn : s2.conn = some c)
    (hj : lib.marshalRpc
      { Command := RpcConfirmation,
        Payload := .confirmation (some { LookingFor := "", MaxFrameSize := 10485760,
                                         Error := "", State := 0 }) } = .ok j)
    (hej : lib.encrypt sid speer.Key j = .ok ej) (hfr : lib.frameOfMessage ej = .ok frame) :
    (Core.serverHandshake lib now newId core s).2.1.conn = some (c.write frame).1 ∧
    (Core.serverHandshake lib now newId core s).1 = core := by
  have hphase1 := Session.DefaultSession_ok_phase lib newId s s1 _ hdefault
  have hcp := Session.ConfirmationPhase_server_match_conn lib s1 s2 serverConfirmation pid conf
    sid speer c j ej frame hphase1 hserver hrecv hpid hconf hown hsid hspeer hconn hj hej hfr
  have hsc := Core.serverConfirm_conn lib core s1 serverConfirmation
  rw [hid] at hget
  unfold Core.serverHandshake
  simp only [hid, hdefault, hget, hallowed, ne_eq, not_true_eq_false, if_false]
  exact ⟨by rw [hsc.1, hcp], hsc.2⟩

/-- Witness of C20: Alice, whom Bob trusts, asks for `bob@localhost` and
frames of 4096; the frame Bob's server writes carries its own confirmation. -/
theorem Core.serverHandshake_sends_own_confirmation_witness :
    (Core.serverHandshake symLib 9 (some bobSid, none) (bobCore bobTrustsAliceAndSelf)
        (Session.fresh true (serverConnFrom alice aliceSid aliceAsksSmallFrames))).2.1.conn
      = some (serverConnAfterRecv.write
          (symFrame bobSid aliceSid RpcConfirmation
            (.confirmation (some { LookingFor := "", MaxFrameSize := 10485760, Error := "",
                                   State := 0 })))).1 ∧
    (Core.serverHandshake symLib 9 (some bobSid, none) (bobCore bobTrustsAliceAndSelf)
        (Session.fresh true (serverConnFrom alice aliceSid aliceAsksSmallFrames))).1
      = bobCore bobTrustsAliceAndSelf :=
  Core.serverHandshake_sends_own_confirmation symLib 9 (some bobSid, none)
    (bobCore bobTrustsAliceAndSelf)
    (Session.fresh true (serverConnFrom alice aliceSid aliceAsksSmallFrames))
    serverAfterDefault serverAfterRecv bob
    { PublicIdentity := some bob.PublicIdentity, Inserted := 3, LastUpdate := 0,
      State := StateAllowed, FreeToUse := none }
    bob.PublicIdentity aliceAsksSmallFrames bobSid aliceSid.PublicIdentity serverConnAfterRecv
    (.doc (.rpc ⟨RpcConfirmation, .confirmation (some serverConfirmation)⟩))
    { Sender := [4], Recipient := [3],
      Body := .rpc ⟨RpcConfirmation, .confirmation (some serverConfirmation)⟩ }
    (symFrame bobSid aliceSid RpcConfirmation (.confirmation (some serverConfirmation)))
    rfl (by decide) (by decide) (by decide) (by decide) (by decide) (by decide) (by decide)
    (by decide) (by decide) (by decide) (by decide) rfl rfl rfl

/-! ## General facts behind the failing inputs -/

theorem Trust.put_other_keys (lib : Ext B M) (t : Trust B) (id : Option Identity)
    (tr : TrustRecord) (p : PublicIdentity) (key : PubKey)
    (hp : tr.PublicIdentity = some p) (hne : key ≠ p.Key) :
    dbGet key (Trust.put lib t id tr).1.db = dbGet key t.db := by
  unfold Trust.put
  repeat' split
  all_goals simp_all [dbGet_dbPut_other]

theorem Trust.Add_other_keys (lib : Ext B M) (t : Trust B) (id : Option Identity)
    (p : PublicIdentity) (state : Int) (freeToUse : Option (List (String × String)))
    (overwrite : Bool) (now : Time) (key : PubKey) (hne : key ≠ p.Key) :
    dbGet key (Trust.Add lib t id (some p) state freeToUse overwrite now).1.db
      = dbGet key t.db := by
  unfold Trust.Add
  simp only
  split
  · split
    · rfl
    · exact Trust.put_other_keys lib t id
        { PublicIdentity := some p, Inserted := now, LastUpdate := 0, State := state,
          FreeToUse := freeToUse } p key rfl hne
  · exact Trust.put_other_keys lib t id
      { PublicIdentity := some p, Inserted := now, LastUpdate := 0, State := state,
        FreeToUse := freeToUse } p key rfl hne

theorem Session.DefaultSession_ok_pid (lib : Ext B M)
    (newId : Option Identity × Option String) (s s1 : Session B)
    (pid : Option PublicIdentity)
    (h : Session.DefaultSession lib newId s pid = (s1, .ok ())) :
    s1.pid = pid := by
  unfold Session.DefaultSession at h
  simp only at h
  rcases hs : Session.SessionPhase lib newId s with ⟨s0, r0⟩
  rw [hs] at h
  cases r0 with
  | ok u =>
    simp only at h
    rcases hi : Session.IdentityPhase lib s0 pid with ⟨s2, r2⟩
    have heff := Session.IdentityPhase_effect lib s0 pid
    rw [hi] at h heff
    cases r2 with
    | ok u2 =>
      simp only [Prod.mk.injEq] at h
      rcases heff with h1 | h1
      · rw [← h.1]
        exact h1.2.2.2
      · exact absurd rfl h1.1
    | err e =>
      simp only at h
      split at h <;> simp at h
    | panic => simp at h
  | err e =>
    simp only at h
    split at h <;> simp at h
  | panic => simp at h

theorem Core.serverConfirm_core (lib : Ext B M) (core : Core B) (s : Session B)
    (confirmation : Confirmation) :
    (Core.serverConfirm lib core s confirmation).1 = core :=
  (Core.serverConfirm_conn lib core s confirmation).2

theorem Core.renderTrust_trust (lib : Ext B M) (core : Core B) :
    (Core.renderTrust lib core).1.trust = core.trust := by
  unfold Core.renderTrust Core.sendUi
  split <;> rfl

/-- The handshake of `ServerCallback` reads and writes the trust store only
under the key of the node's own public identity: the value stored under any
other key, the one of the peer included, is after the handshake what it was
before. -/
theorem Core.serverHandshake_other_keys (lib : Ext B M) (now : Time)
    (newId : Option Identity × Option String) (core : Core B) (s : Session B)
    (id : Identity) (key : PubKey)
    (hid : core.identity = some id) (hne : key ≠ id.PublicIdentity.Key) :
    dbGet key (Core.serverHandshake lib now newId core s).1.trust.db
      = dbGet key core.trust.db := by
  unfold Core.serverHandshake
  simp only [hid]
  rcases hd : Session.DefaultSession lib newId s (some id.PublicIdentity) with ⟨s1, r1⟩
  cases r1 with
  | err e => rfl
  | panic => rfl
  | ok u =>
    have hpid := Session.DefaultSession_ok_pid lib newId s s1 _ hd
    simp only [hpid]
    cases Trust.Get lib core.trust (some id) (some id.PublicIdentity) with
    | panic => rfl
    | ok tr =>
      simp only
      split
      · rfl
      · rw [Core.serverConfirm_core]
    | err e =>
      simp only
      have hadd := Trust.Add_other_keys lib core.trust (some id) id.PublicIdentity StateQueued
        none false now key hne
      rcases ha : Trust.Add lib core.trust (some id) (some id.PublicIdentity) StateQueued none
        false now with ⟨t1, r2⟩
      rw [ha] at hadd
      simp only at hadd
      cases r2 with
      | err e2 => exact hadd
      | panic => exact hadd
      | ok u2 =>
        simp only
        have hr := Core.renderTrust_trust lib
          ({ core with identity := some id, trust := t1 } : Core B)
        rcases hrt : Core.renderTrust lib
          ({ core with identity := some id, trust := t1 } : Core B) with ⟨c1, x1⟩
        rw [hrt] at hr
        simp only at hr
        cases x1 with
        | returned =>
          simp only
          rw [Core.serverConfirm_core, hr]
          exact hadd
        | panicked =>
          simp only
          rw [hr]
          exact hadd
        | blocked =>
          simp only
          rw [hr]
          exact hadd

/-- The cancel path of `handleIncoming`: for a reply whose state is neither
Allowed nor Denied the waiter under the fingerprint of the reply's identity is
deleted and nothing else changes: no connection is closed, nothing is sent to
the UI, the trust store is not written. -/
theorem Core.handleIncoming_cancel (lib : Ext B M) (now : Time) (core : Core B)
    (pid : PublicIdentity) (state : Int) (hfree : core.mtxVerifyWaiter = false)
    (h1 : state ≠ StateAllowed) (h2 : state ≠ StateDenied) :
    Core.handleIncoming lib now core (.uiConfirmPublicIdentityReply (some pid) state)
      = ({ core with verifyWaiters := mapDelete (lib.fingerprint pid) core.verifyWaiters },
          .returned) := by
  unfold Core.handleIncoming Core.removeVerifyWaiter Core._removeVerifyWaiter
  simp [h1, h2, hfree]

/-- The client side of `ConfirmationPhase` looks only at the `Error` field of
the confirmation it receives: with an empty error it succeeds and advances,
whatever the `State` field says. -/
theorem Session.ConfirmationPhase_client_ignores_state (lib : Ext B M)
    (s s1 s2 : Session B) (c : Option Confirmation) (conf : Confirmation)
    (hphase : s.phase = phaseIdentity) (hclient : s.server = false)
    (hsend : Session.confirmationPhaseSend lib s c = (s1, .ok ()))
    (hrecv : Session.confirmationPhaseRecv lib s1 = (s2, .ok ()))
    (hconf : s2.confirmation = some conf) (herr : conf.Error = "") :
    Session.ConfirmationPhase lib s c = ({ s2 with phase := phaseConfirmation }, c, .ok ()) := by
  unfold Session.ConfirmationPhase
  simp [hphase, hclient, hsend, hrecv, hconf, herr]

/-- C16 at the failing input: Alice dials `bob@localhost`, the unknown peer
Bob answers with that address, and `verifyHost` parks after asking the UI about
Alice's own identity. The UI answers Allowed with the identity it was asked
about. The trust store afterwards holds Alice's own record as Allowed and no
record for Bob; the waiter is found and run, `finishVerify` compares the dialled
address with Alice's own address, closes the connection and reports the
mismatch; the continuation that sends the file is not called and the session
stays in the Identity phase. The waiter is removed. -/
theorem Core.handleIncoming_allowed_reply_local_identity :
    (clientAfterDefault bob bobSid serverConfirmation).peer = some bob.PublicIdentity ∧
    bob.PublicIdentity.Address = "bob@localhost" ∧
    aliceParked.events = [.toUi (.confirmPublicIdentity (some alice.PublicIdentity))] ∧
    aliceParked.verifyWaiters
      = [(symLib.fingerprint alice.PublicIdentity,
          .finishVerify "bob@localhost" 0 (.handleSendFile 0 noteForBob))] ∧
    Trust.Get symLib
        (Core.handleIncoming symLib 5 aliceParked
          (.uiConfirmPublicIdentityReply (some alice.PublicIdentity) StateAllowed)).1.trust
        (some alice) (some bob.PublicIdentity)
      = .err "leveldb: not found" ∧
    Trust.Get symLib
        (Core.handleIncoming symLib 5 aliceParked
          (.uiConfirmPublicIdentityReply (some alice.PublicIdentity) StateAllowed)).1.trust
        (some alice) (some alice.PublicIdentity)
      = .ok { PublicIdentity := some alice.PublicIdentity, Inserted := 5, LastUpdate := 0,
              State := StateAllowed, FreeToUse := none } ∧
    (Core.handleIncoming symLib 5 aliceParked
        (.uiConfirmPublicIdentityReply (some alice.PublicIdentity) StateAllowed)).1.events
      = [.toUi (.confirmPublicIdentity (some alice.PublicIdentity)),
         .toUi (.renderTrust
          [{ PublicIdentity := some alice.PublicIdentity, Inserted := 5, LastUpdate := 0,
             State := StateAllowed, FreeToUse := none }]),
         .invoked (.finishVerify "bob@localhost" 0 (.handleSendFile 0 noteForBob)),
         .toUi (.popup "Public Identity Verification Failed"
          "Address does not match public identity\n\nContacted bob@localhost and reply came from alice@localhost")] ∧
    (Core.handleIncoming symLib 5 aliceParked
        (.uiConfirmPublicIdentityReply (some alice.PublicIdentity) StateAllowed)).1.clients.map
        (fun s => (s.phase, s.conn.map (fun c => c.closed))) = [(phaseIdentity, some true)] ∧
    (Core.handleIncoming symLib 5 aliceParked
        (.uiConfirmPublicIdentityReply (some alice.PublicIdentity) StateAllowed)).1.verifyWaiters
      = [] := by
  decide

/-! ## The store key -/

theorem dbGet_error_of_absent (key : PubKey) (db : Db B)
    (h : key ∉ db.map Prod.fst) : dbGet key db = .error "leveldb: not found" := by
  induction db with
  | nil => rfl
  | cons head rest ih =>
    obtain ⟨k, v⟩ := head
    simp only [List.map_cons, List.mem_cons, not_or] at h
    unfold dbGet
    rw [if_neg (fun hk => h.1 hk.symm)]
    exact ih h.2

theorem dbGet_ok_mem (key : PubKey) (value : B) (db : Db B)
    (h : dbGet key db = .ok value) : (key, value) ∈ db := by
  induction db with
  | nil => simp [dbGet] at h
  | cons head rest ih =>
    obtain ⟨k, v⟩ := head
    unfold dbGet at h
    by_cases hk : k = key
    · rw [if_pos hk] at h
      simp only [Lib.ok.injEq] at h
      simp [hk, h]
    · rw [if_neg hk] at h
      exact List.mem_cons_of_mem _ (ih h)

theorem keyLt_irrefl (a : PubKey) : keyLt a a = false := by
  induction a with
  | nil => rfl
  | cons x xs ih => simp [keyLt, ih]

theorem keyLt_trans (a b c : PubKey) (h1 : keyLt a b = true) (h2 : keyLt b c = true) :
    keyLt a c = true := by
  induction a generalizing b c with
  | nil =>
    cases b with
    | nil => simp [keyLt] at h1
    | cons y ys =>
      cases c with
      | nil => simp [keyLt] at h2
      | cons z zs => rfl
  | cons x xs ih =>
    cases b with
    | nil => simp [keyLt] at h1
    | cons y ys =>
      cases c with
      | nil => simp [keyLt] at h2
      | cons z zs =>
        simp only [keyLt, Bool.or_eq_true, decide_eq_true_eq, Bool.and_eq_true, beq_iff_eq] at h1 h2 ⊢
        rcases h1 with h1 | ⟨h1, h1r⟩
        · rcases h2 with h2 | ⟨h2, -⟩
          · exact Or.inl (lt_trans h1 h2)
          · exact Or.inl (h2 ▸ h1)
        · rcases h2 with h2 | ⟨h2, h2r⟩
          · exact Or.inl (h1 ▸ h2)
          · exact Or.inr ⟨h1.trans h2, ih ys zs h1r h2r⟩

theorem keyLt_total (a b : PubKey) (hne : a ≠ b) (h : keyLt a b = false) : keyLt b a = true := by
  induction a generalizing b with
  | nil =>
    cases b with
    | nil => exact absurd rfl hne
    | cons y ys => simp [keyLt] at h
  | cons x xs ih =>
    cases b with
    | nil => rfl
    | cons y ys =>
      simp only [keyLt, Bool.or_eq_false_iff, decide_eq_false_iff_not, not_lt,
        Bool.and_eq_false_iff, beq_eq_false_iff_ne, ne_eq] at h
      simp only [keyLt, Bool.or_eq_true, decide_eq_true_eq, Bool.and_eq_true, beq_iff_eq]
      rcases h with ⟨hle, hx | hr⟩
      · exact Or.inl (lt_of_le_of_ne hle (fun e => hx e.symm))
      · by_cases hxy : x = y
        · subst hxy
          refine Or.inr ⟨rfl, ih ys ?_ hr⟩
          intro e
          exact hne (by rw [e])
        · exact Or.inl (lt_of_le_of_ne hle (fun e => hxy e.symm))

theorem mem_dbPut (key : PubKey) (value : B) (db : Db B) (e : PubKey × B)
    (h : e ∈ dbPut key value db) : e = (key, value) ∨ e ∈ db := by
  induction db with
  | nil =>
    simp only [dbPut, List.mem_singleton] at h
    exact Or.inl h
  | cons head rest ih =>
    obtain ⟨k, v⟩ := head
    unfold dbPut at h
    by_cases h1 : k = key
    · rw [if_pos h1] at h
      rcases List.mem_cons.mp h with h | h
      · exact Or.inl h
      · exact Or.inr (List.mem_cons_of_mem _ h)
    · rw [if_neg h1] at h
      by_cases h2 : keyLt key k = true
      · rw [if_pos h2] at h
        rcases List.mem_cons.mp h with h | h
        · exact Or.inl h
        · exact Or.inr h
      · rw [if_neg h2] at h
        rcases List.mem_cons.mp h with h | h
        · exact Or.inr (h ▸ List.mem_cons_self _ _)
        · rcases ih h with h | h
          · exact Or.inl h
          · exact Or.inr (List.mem_cons_of_mem _ h)

theorem mem_dbPut_self (key : PubKey) (value : B) (db : Db B) :
    (key, value) ∈ dbPut key value db := by
  induction db with
  | nil => simp [dbPut]
  | cons head rest ih =>
    obtain ⟨k, v⟩ := head
    unfold dbPut
    by_cases h1 : k = key
    · simp [h1]
    · by_cases h2 : keyLt key k = true
      · simp [h1, h2]
      · simp [h1, h2, ih]

theorem dbPut_ordered (key : PubKey) (value : B) (db : Db B) (h : db.ordered) :
    (dbPut key value db).ordered := by
  unfold Db.ordered at h ⊢
  induction db with
  | nil => simp [dbPut]
  | cons head rest ih =>
    obtain ⟨k, v⟩ := head
    rw [List.pairwise_cons] at h
    unfold dbPut
    by_cases h1 : k = key
    · rw [if_pos h1]
      subst h1
      exact List.pairwise_cons.mpr h
    · rw [if_neg h1]
      by_cases h2 : keyLt key k = true
      · rw [if_pos h2]
        refine List.pairwise_cons.mpr ⟨?_, List.pairwise_cons.mpr h⟩
        intro e he
        rcases List.mem_cons.mp he with he | he
        · rw [he]
          exact h2
        · exact keyLt_trans _ _ _ h2 (h.1 e he)
      · rw [if_neg h2]
        refine List.pairwise_cons.mpr ⟨?_, ih h.2⟩
        intro e he
        rcases mem_dbPut key value rest e he with he | he
        · rw [he]
          exact keyLt_total key k (fun x => h1 x.symm) (by simpa using h2)
        · exact h.1 e he

theorem Db.ordered_keys_nodup (db : Db B) (h : db.ordered) : (db.map Prod.fst).Nodup := by
  unfold Db.ordered at h
  induction db with
  | nil => simp
  | cons head rest ih =>
    rw [List.pairwise_cons] at h
    simp only [List.map_cons, List.nodup_cons, List.mem_map, not_exists, not_and]
    refine ⟨?_, ih h.2⟩
    intro e he heq
    have := h.1 e he
    rw [heq, keyLt_irrefl] at this
    exact Bool.false_ne_true this

/-- With the library calls of `put` succeeding on the record, `put` succeeds
on every store and stores the envelope under the record's public key. -/
theorem Trust.put_succeeds (lib : Ext B M) (t : Trust B) (id : Identity) (tr : TrustRecord)
    (p : PublicIdentity) (payload dbPayload : B) (msg : M)
    (hp : tr.PublicIdentity = some p)
    (hmarshal : lib.marshalTrustRecord tr = .ok payload)
    (hencrypt : lib.encrypt id id.PublicIdentity.Key payload = .ok msg)
    (henvelope : lib.messageMarshal msg = .ok dbPayload) :
    Trust.put lib t (some id) tr = ({ t with db := dbPut p.Key dbPayload t.db }, .ok ()) := by
  unfold Trust.put
  simp [hp, hmarshal, hencrypt, henvelope]

/-- What a successful `put` leaves in the store: the key of the record is
present, the keys stay ascending, and no key occurs twice. -/
theorem Trust.put_one_entry (lib : Ext B M) (t t1 : Trust B) (id : Option Identity)
    (tr : TrustRecord) (p : PublicIdentity) (hp : tr.PublicIdentity = some p)
    (hord : t.db.ordered) (h : Trust.put lib t id tr = (t1, .ok ())) :
    (∃ v, t1.get p.Key = .ok v) ∧ t1.db.ordered ∧ (t1.db.map Prod.fst).Nodup := by
  obtain ⟨idv, q, payload, msg, dbPayload, -, hq, -, -, -, ht1⟩ := Trust.put_ok lib t t1 id tr h
  rw [hp] at hq
  simp only [Option.some.injEq] at hq
  subst hq
  subst ht1
  have hord1 : (dbPut p.Key dbPayload t.db).ordered := dbPut_ordered _ _ _ hord
  exact ⟨⟨dbPayload, dbGet_dbPut_self _ _ _⟩, hord1, Db.ordered_keys_nodup _ hord1⟩

/-! ## `Update` overwrites -/

/-- C22: `Trust.Update` refreshes `last_update` and overwrites unconditionally.
When the library calls of `put` succeed on the refreshed record (marshal,
encrypt to self, marshal the envelope) and decoding inverts them, then for
every store, with or without a record under that key, `Update` succeeds, a
`Get` of the record's public key afterwards returns the given record with
`last_update` set to the clock reading and every other field as given, and the
value stored under every other key is unchanged. -/
theorem Trust.Update_overwrites (lib : Ext B M) (t : Trust B) (id : Identity)
    (tr : TrustRecord) (p : PublicIdentity) (now : Time) (payload dbPayload : B) (msg : M)
    (hp : tr.PublicIdentity = some p)
    (hmarshal : lib.marshalTrustRecord { tr with LastUpdate := now } = .ok payload)
    (hencrypt : lib.encrypt id id.PublicIdentity.Key payload = .ok msg)
    (henvelope : lib.messageMarshal msg = .ok dbPayload)
    (hjson : ∀ r b, lib.marshalTrustRecord r = .ok b → lib.unmarshalTrustRecord b = .ok r)
    (hmsg : ∀ m b, lib.messageMarshal m = .ok b → lib.unmarshalMessage b = .ok m)
    (hcrypt : ∀ b m, lib.encrypt id id.PublicIdentity.Key b = .ok m →
      lib.decrypt id id.PublicIdentity.Key m = .ok b) :
    (Trust.Update lib t (some id) tr now).2 = .ok () ∧
    Trust.Get lib (Trust.Update lib t (some id) tr now).1 (some id) (some p)
      = .ok { PublicIdentity := some p, Inserted := tr.Inserted, LastUpdate := now,
              State := tr.State, FreeToUse := tr.FreeToUse } ∧
    ∀ other, other ≠ p.Key →
      (Trust.Update lib t (some id) tr now).1.get other = t.get other := by
  have hput := Trust.put_succeeds lib t id { tr with LastUpdate := now } p payload dbPayload msg
    hp hmarshal hencrypt henvelope
  unfold Trust.Update
  rw [hput]
  refine ⟨rfl, ?_, ?_⟩
  · unfold Trust.Get Trust.get Trust.decrypt
    simp [dbGet_dbPut_self, hmsg _ _ henvelope, hcrypt _ _ hencrypt, hjson _ _ hmarshal, hp]
  · intro other hne
    exact dbGet_dbPut_other _ _ _ _ hne

/-- Witness of C22: Alice holds Bob as Allowed and updates his record to
Denied at clock reading 9. -/
theorem Trust.Update_overwrites_witness :
    (Trust.Update symLib aliceTrustsBob (some alice)
        { PublicIdentity := some bob.PublicIdentity, Inserted := 3, LastUpdate := 0,
          State := StateDenied, FreeToUse := none } 9).2 = .ok () ∧
    Trust.Get symLib
        (Trust.Update symLib aliceTrustsBob (some alice)
          { PublicIdentity := some bob.PublicIdentity, Inserted := 3, LastUpdate := 0,
            State := StateDenied, FreeToUse := none } 9).1 (some alice) (some bob.PublicIdentity)
      = .ok { PublicIdentity := some bob.PublicIdentity, Inserted := 3, LastUpdate := 9,
              State := StateDenied, FreeToUse := none } ∧
    ∀ other, other ≠ bob.PublicIdentity.Key →
      (Trust.Update symLib aliceTrustsBob (some alice)
          { PublicIdentity := some bob.PublicIdentity, Inserted := 3, LastUpdate := 0,
            State := StateDenied, FreeToUse := none } 9).1.get other
        = aliceTrustsBob.get other :=
  Trust.Update_overwrites symLib aliceTrustsBob alice
    { PublicIdentity := some bob.PublicIdentity, Inserted := 3, LastUpdate := 0,
      State := StateDenied, FreeToUse := none } bob.PublicIdentity 9 _ _ _
    rfl rfl rfl rfl symLib_trustRecord_inverts symLib_message_inverts (symLib_self_decrypt alice)

/-! ## No check of the state on load -/

/-- C23 as the claim states it fails: Alice's store holds Bob with state 7,
none of Invalid, Queued, Denied and Allowed; `Trust.Get` and `Trust.GetAll`
return the record, state 7 included, and no error. -/
theorem Trust.Get_returns_unknown_state :
    (7 : Int) ≠ StateInvalid ∧ (7 : Int) ≠ StateQueued ∧ (7 : Int) ≠ StateDenied ∧
    (7 : Int) ≠ StateAllowed ∧
    Trust.Get symLib aliceHoldsOddState (some alice) (some bob.PublicIdentity)
      = .ok { PublicIdentity := some bob.PublicIdentity, Inserted := 3, LastUpdate := 0,
              State := 7, FreeToUse := none } ∧
    Trust.GetAll symLib aliceHoldsOddState (some alice)
      = .ok [{ PublicIdentity := some bob.PublicIdentity, Inserted := 3, LastUpdate := 0,
               State := 7, FreeToUse := none }] := by
  decide

/-- The loop of `GetAll` on a store whose values all decrypt: it returns the
accumulator followed by records among which is the record of every value. -/
theorem Trust.GetAll.loop_ok (lib : Ext B M) (id : Option Identity) (db : Db B)
    (acc : List TrustRecord)
    (h : ∀ e ∈ db, ∃ r, Trust.decrypt lib id e.2 = .ok r) :
    ∃ rs, Trust.GetAll.loop lib id db acc = .ok (acc ++ rs) ∧
      ∀ e ∈ db, ∀ r, Trust.decrypt lib id e.2 = .ok r → r ∈ rs := by
  induction db generalizing acc with
  | nil => exact ⟨[], by simp [Trust.GetAll.loop], by simp⟩
  | cons head rest ih =>
    obtain ⟨k, v⟩ := head
    obtain ⟨r0, hr0⟩ := h (k, v) (List.mem_cons_self _ _)
    obtain ⟨rs, hrs, hmem⟩ := ih (acc ++ [r0]) (fun e he => h e (List.mem_cons_of_mem _ he))
    refine ⟨r0 :: rs, ?_, ?_⟩
    · unfold Trust.GetAll.loop
      simp only at hr0
      rw [hr0]
      simp only
      rw [hrs]
      simp
    · intro e he r hr
      rcases List.mem_cons.mp he with he | he
      · subst he
        simp only at hr0
        rw [hr0] at hr
        simp only [Res.ok.injEq] at hr
        simp [hr]
      · exact List.mem_cons_of_mem _ (hmem e he r hr)

/-- C23, amended: the state of a stored record is not checked on load. For
every value stored under the peer's key that the library decodes to a record
(envelope, decryption, JSON), whatever integer the state of that record is,
`Trust.Get` returns the record unchanged, and `Trust.GetAll`, when every stored
value decrypts, succeeds and returns it among its records. -/
theorem Trust.load_keeps_any_state (lib : Ext B M) (t : Trust B) (id : Identity)
    (p : PublicIdentity) (dbPayload ct : B) (msg : M) (tr : TrustRecord)
    (hstored : t.get p.Key = .ok dbPayload)
    (henvelope : lib.unmarshalMessage dbPayload = .ok msg)
    (hdecrypt : lib.decrypt id id.PublicIdentity.Key msg = .ok ct)
    (hjson : lib.unmarshalTrustRecord ct = .ok tr)
    (hrest : ∀ e ∈ t.db, ∃ r, Trust.decrypt lib (some id) e.2 = .ok r) :
    Trust.Get lib t (some id) (some p) = .ok tr ∧
    ∃ records, Trust.GetAll lib t (some id) = .ok records ∧ tr ∈ records := by
  have hdec : Trust.decrypt lib (some id) dbPayload = .ok tr := by
    unfold Trust.decrypt
    simp [henvelope, hdecrypt, hjson]
  refine ⟨?_, ?_⟩
  · unfold Trust.Get
    simp only [hstored]
    exact hdec
  · obtain ⟨rs, hrs, hmem⟩ := Trust.GetAll.loop_ok lib (some id) t.db [] hrest
    refine ⟨rs, ?_, hmem (p.Key, dbPayload) (dbGet_ok_mem _ _ _ hstored) tr hdec⟩
    unfold Trust.GetAll
    simpa using hrs

/-- Witness of C23: the store that holds Bob with state 7. -/
theorem Trust.load_keeps_any_state_witness :
    Trust.Get symLib aliceHoldsOddState (some alice) (some bob.PublicIdentity)
      = .ok { PublicIdentity := some bob.PublicIdentity, Inserted := 3, LastUpdate := 0,
              State := 7, FreeToUse := none } ∧
    ∃ records, Trust.GetAll symLib aliceHoldsOddState (some alice) = .ok records ∧
      { PublicIdentity := some bob.PublicIdentity, Inserted := 3, LastUpdate := 0,
        State := 7, FreeToUse := none } ∈ records :=
  Trust.load_keeps_any_state symLib aliceHoldsOddState alice bob.PublicIdentity _ _ _ _
    rfl rfl rfl rfl (by
      intro e he
      have h1 : e = ([2, 2], .msg ⟨[1, 1], [1, 1],
          .trust ⟨some bob.PublicIdentity, 3, 0, 7, none⟩⟩) := by
        simpa [aliceHoldsOddState, Trust.Add, Trust.put, symLib, dbGet, dbPut, bob, alice]
          using he
      subst h1
      exact ⟨_, rfl⟩)

/-! ## One record per public key -/

/-- C24: `Trust.Get` is keyed by the peer's public-key bytes, the key `Add`
and `Update` write under. On a store whose keys are ascending (the empty store
is, and `put` keeps it so): when no entry has the peer's key, `Get` returns an
error and no record; `Get` of any identity with the same key bytes gives the
same result; a successful `Add` or `Update` for the peer leaves an entry under
the peer's key, changes the value under no other key, and leaves the keys
ascending, so that no key has two entries. -/
theorem Trust.Get_keyed_by_public_key (lib : Ext B M) (t : Trust B)
    (id : Option Identity) (peer : PublicIdentity) (hord : t.db.ordered) :
    (peer.Key ∉ t.db.map Prod.fst → ∃ e, Trust.Get lib t id (some peer) = .err e) ∧
    (∀ q : PublicIdentity, q.Key = peer.Key →
      Trust.Get lib t id (some q) = Trust.Get lib t id (some peer)) ∧
    (∀ t1 state freeToUse overwrite now,
      Trust.Add lib t id (some peer) state freeToUse overwrite now = (t1, .ok ()) →
        (∃ v, t1.get peer.Key = .ok v) ∧
        (∀ other, other ≠ peer.Key → t1.get other = t.get other) ∧
        t1.db.ordered ∧ (t1.db.map Prod.fst).Nodup) ∧
    (∀ t1 tr now, tr.PublicIdentity = some peer →
      Trust.Update lib t id tr now = (t1, .ok ()) →
        (∃ v, t1.get peer.Key = .ok v) ∧
        (∀ other, other ≠ peer.Key → t1.get other = t.get other) ∧
        t1.db.ordered ∧ (t1.db.map Prod.fst).Nodup) := by
  refine ⟨?_, ?_, ?_, ?_⟩
  · intro habsent
    refine ⟨"leveldb: not found", ?_⟩
    unfold Trust.Get Trust.get
    simp [dbGet_error_of_absent _ _ habsent]
  · intro q hq
    unfold Trust.Get
    simp [hq]
  · intro t1 state freeToUse overwrite now hadd
    have hput := Trust.Add_ok lib t t1 id _ state freeToUse overwrite now hadd
    obtain ⟨hv, ho, hn⟩ := Trust.put_one_entry lib t t1 id _ peer rfl hord hput
    refine ⟨hv, ?_, ho, hn⟩
    intro other hne
    have := Trust.put_other_keys lib t id
      { PublicIdentity := some peer, Inserted := now, LastUpdate := 0, State := state,
        FreeToUse := freeToUse } peer other rfl hne
    rw [hput] at this
    exact this
  · intro t1 tr now hp hupd
    unfold Trust.Update at hupd
    obtain ⟨hv, ho, hn⟩ :=
      Trust.put_one_entry lib t t1 id { tr with LastUpdate := now } peer hp hord hupd
    refine ⟨hv, ?_, ho, hn⟩
    intro other hne
    have := Trust.put_other_keys lib t id { tr with LastUpdate := now } peer other hp hne
    rw [hupd] at this
    exact this

/-- Witness of C24: Alice's store holds Bob only, and the peer is Eve. -/
theorem Trust.Get_keyed_by_public_key_witness :
    aliceTrustsBob.db.ordered ∧
    (eve.PublicIdentity.Key ∉ aliceTrustsBob.db.map Prod.fst →
      ∃ e, Trust.Get symLib aliceTrustsBob (some alice) (some eve.PublicIdentity) = .err e) ∧
    (∀ q : PublicIdentity, q.Key = eve.PublicIdentity.Key →
      Trust.Get symLib aliceTrustsBob (some alice) (some q)
        = Trust.Get symLib aliceTrustsBob (some alice) (some eve.PublicIdentity)) ∧
    (∀ t1 state freeToUse overwrite now,
      Trust.Add symLib aliceTrustsBob (some alice) (some eve.PublicIdentity) state freeToUse
          overwrite now = (t1, .ok ()) →
        (∃ v, t1.get eve.PublicIdentity.Key = .ok v) ∧
        (∀ other, other ≠ eve.PublicIdentity.Key → t1.get other = aliceTrustsBob.get other) ∧
        t1.db.ordered ∧ (t1.db.map Prod.fst).Nodup) ∧
    (∀ t1 tr now, tr.PublicIdentity = some eve.PublicIdentity →
      Trust.Update symLib aliceTrustsBob (some alice) tr now = (t1, .ok ()) →
        (∃ v, t1.get eve.PublicIdentity.Key = .ok v) ∧
        (∀ other, other ≠ eve.PublicIdentity.Key → t1.get other = aliceTrustsBob.get other) ∧
        t1.db.ordered ∧ (t1.db.map Prod.fst).Nodup) :=
  have hord : aliceTrustsBob.db.ordered := by
    unfold Db.ordered
    decide
  ⟨hord, Trust.Get_keyed_by_public_key symLib aliceTrustsBob (some alice) eve.PublicIdentity hord⟩

/-! ## A rejected duplicate insert changes nothing -/

/-- An `Add` without overwrite for a key that is stored returns the duplicate
error and the store it was given. -/
theorem Trust.Add_present (lib : Ext B M) (t : Trust B) (id : Option Identity)
    (peer : PublicIdentity) (state : Int) (freeToUse : Option (List (String × String)))
    (now : Time) (value : B) (h : dbGet peer.Key t.db = .ok value) :
    Trust.Add lib t id (some peer) state freeToUse false now
      = (t, .err "public key already exists") := by
  unfold Trust.Add
  simp [h]

/-- C29: a rejected duplicate insert is atomic. After a successful `Trust.Add`
of a peer, a second `Trust.Add` without overwrite for that peer, with any state
`s2` and map `f2`, returns the duplicate error and the store unchanged, and
(decoding being the inverse of encoding in the library) a `Trust.Get` of the
peer on the store it returns still gives the record of the first insert: its
state, its `free_to_use` and its insertion time. -/
theorem Trust.Add_duplicate_keeps_first (lib : Ext B M) (t t1 : Trust B) (id : Identity)
    (peer : PublicIdentity) (s1 s2 : Int) (f1 f2 : Option (List (String × String)))
    (now1 now2 : Time)
    (hjson : ∀ tr b, lib.marshalTrustRecord tr = .ok b → lib.unmarshalTrustRecord b = .ok tr)
    (hmsg : ∀ m b, lib.messageMarshal m = .ok b → lib.unmarshalMessage b = .ok m)
    (hcrypt : ∀ b m, lib.encrypt id id.PublicIdentity.Key b = .ok m →
      lib.decrypt id id.PublicIdentity.Key m = .ok b)
    (hadd : Trust.Add lib t (some id) (some peer) s1 f1 false now1 = (t1, .ok ())) :
    Trust.Add lib t1 (some id) (some peer) s2 f2 false now2
      = (t1, .err "public key already exists") ∧
    Trust.Get lib (Trust.Add lib t1 (some id) (some peer) s2 f2 false now2).1
        (some id) (some peer)
      = .ok { PublicIdentity := some peer, Inserted := now1, LastUpdate := 0,
              State := s1, FreeToUse := f1 } := by
  obtain ⟨idv, p, payload, msg, dbPayload, hid, hp, hpayload, hmsg1, hdb, ht1⟩ :=
    Trust.put_ok lib t t1 (some id) _ (Trust.Add_ok lib t t1 (some id) _ s1 f1 false now1 hadd)
  simp only [Option.some.injEq] at hid hp
  subst hid
  subst hp
  subst ht1
  have hdup := Trust.Add_present lib { t with db := dbPut peer.Key dbPayload t.db } (some id)
    peer s2 f2 now2 dbPayload (dbGet_dbPut_self _ _ _)
  refine ⟨hdup, ?_⟩
  rw [hdup]
  unfold Trust.Get Trust.get Trust.decrypt
  simp [dbGet_dbPut_self, hmsg _ _ hdb, hcrypt _ _ hmsg1, hjson _ _ hpayload]

/-- Witness of C29: Bob is added as Allowed with a note, as in `TestTrustAdd`,
then once more as Queued without a note. -/
theorem Trust.Add_duplicate_keeps_first_witness :
    Trust.Add symLib
        (Trust.Add symLib (⟨[]⟩ : Trust SymBytes) (some alice) (some bob.PublicIdentity)
          StateAllowed (some [("moo", "meh")]) false 5).1
        (some alice) (some bob.PublicIdentity) StateQueued none false 9
      = ((Trust.Add symLib (⟨[]⟩ : Trust SymBytes) (some alice) (some bob.PublicIdentity)
          StateAllowed (some [("moo", "meh")]) false 5).1, .err "public key already exists") ∧
    Trust.Get symLib
        (Trust.Add symLib
          (Trust.Add symLib (⟨[]⟩ : Trust SymBytes) (some alice) (some bob.PublicIdentity)
            StateAllowed (some [("moo", "meh")]) false 5).1
          (some alice) (some bob.PublicIdentity) StateQueued none false 9).1
        (some alice) (some bob.PublicIdentity)
      = .ok { PublicIdentity := some bob.PublicIdentity, Inserted := 5, LastUpdate := 0,
              State := StateAllowed, FreeToUse := some [("moo", "meh")] } :=
  Trust.Add_duplicate_keeps_first symLib ⟨[]⟩ _ alice bob.PublicIdentity StateAllowed
    StateQueued (some [("moo", "meh")]) none 5 9
    symLib_trustRecord_inverts symLib_message_inverts (symLib_self_decrypt alice) rfl

/-! ## A refused confirmation never leads to the Message phase -/

/-- C30: a server session in the Identity phase that receives a confirmation
whose `looking_for` differs from the address of the local identity stays in
the Identity phase through `ConfirmationPhase`, whatever the confirmation
passed in and whatever the outcome of sending the error reply; `BecomeReady`
called afterwards returns `invalid phase` and changes nothing, and the end of
the handshake of `ServerCallback` on that session does not succeed and leaves
the session in the Identity phase. -/
theorem Session.ConfirmationPhase_mismatch_stays_identity (lib : Ext B M) (s s1 : Session B)
    (c : Option Confirmation) (pid : PublicIdentity) (conf : Confirmation)
    (hp : s.phase = phaseIdentity) (hs : s.server = true) (hpid : s.pid = some pid)
    (hrecv : Session.confirmationPhaseRecv lib s = (s1, .ok ()))
    (hconf : s1.confirmation = some conf)
    (hne : pid.Address ≠ conf.LookingFor) :
    (Session.ConfirmationPhase lib s c).1.phase = phaseIdentity ∧
    (Session.ConfirmationPhase lib s c).1.BecomeReady
      = ((Session.ConfirmationPhase lib s c).1, .err "invalid phase") ∧
    ∀ (core : Core B) (cv : Confirmation),
      (Core.serverConfirm lib core s cv).2.2 ≠ .ok () ∧
      (Core.serverConfirm lib core s cv).2.1.phase = phaseIdentity := by
  have hk := Session.confirmationPhaseRecv_keeps lib s
  rw [hrecv] at hk
  have hpid1 : s1.pid = some pid := by rw [hk.1, hpid]
  have hphase1 : s1.phase = phaseIdentity := by rw [hk.2.2, hp]
  have hphase : ∀ c0, (Session.ConfirmationPhase lib s c0).1.phase = phaseIdentity := by
    intro c0
    unfold Session.ConfirmationPhase
    simp only [hp, hs, hrecv, hpid1, hconf, hne, ne_eq, not_true_eq_false, not_false_eq_true,
      if_false, if_true]
    cases c0 with
    | none => exact hphase1
    | some cv =>
      have h2 := Session.RpcSend_sameSlots lib s1
        (.confirmation (some { cv with Error := "unknown user " ++ conf.LookingFor }))
      unfold Session.sameSlots at h2
      unfold Session.confirmationPhaseSend
      simp only
      rw [h2.2.2.2.2.2.2, hphase1]
  have hne2 : phaseIdentity ≠ phaseConfirmation := by decide
  refine ⟨hphase c, ?_, ?_⟩
  · apply Session.BecomeReady_out_of_phase
    rw [hphase c]
    exact hne2
  · intro core cv
    have h3 := hphase (some cv)
    have h4 := Session.BecomeReady_out_of_phase (Session.ConfirmationPhase lib s (some cv)).1
      (by rw [h3]; exact hne2)
    unfold Core.serverConfirm
    rcases hcp : Session.ConfirmationPhase lib s (some cv) with ⟨s2, c2, r2⟩
    rw [hcp] at h3 h4
    simp only at h3 h4
    cases r2 with
    | err e =>
      simp only
      exact ⟨by simp, h3⟩
    | panic =>
      simp only
      exact ⟨by simp, h3⟩
    | ok u =>
      cases c2 with
      | none =>
        simp only
        exact ⟨by simp, h3⟩
      | some c1 =>
        simp only
        split
        · exact ⟨by simp, h3⟩
        · rw [h4]
          simp only
          exact ⟨by simp, h3⟩

/-- Witness of C30: Bob's server session receives a confirmation that looks
for `eve@localhost`. -/
theorem Session.ConfirmationPhase_mismatch_stays_identity_witness :
    (Session.ConfirmationPhase symLib serverAtIdentity (some serverReply)).1.phase
      = phaseIdentity ∧
    (Session.ConfirmationPhase symLib serverAtIdentity (some serverReply)).1.BecomeReady
      = ((Session.ConfirmationPhase symLib serverAtIdentity (some serverReply)).1,
          .err "invalid phase") ∧
    ∀ (core : Core SymBytes) (cv : Confirmation),
      (Core.serverConfirm symLib core serverAtIdentity cv).2.2 ≠ .ok () ∧
      (Core.serverConfirm symLib core serverAtIdentity cv).2.1.phase = phaseIdentity :=
  Session.ConfirmationPhase_mismatch_stays_identity symLib serverAtIdentity
    (Session.confirmationPhaseRecv symLib serverAtIdentity).1 (some serverReply)
    bob.PublicIdentity aliceLooksForEve (by decide) (by decide) (by decide) (by decide)
    (by decide) (by decide)

/-! ## The listen addresses -/

/-- C27 as the claim states it fails: off plan9 the address `*:12345` is in
neither slice, `parseListeners` fails on it; an address after which another
one fails is in no slice either; and the IPv6 text `::ffff:a00:1` of an
IPv4-mapped address is put in the IPv4 slice only. -/
theorem parseListeners_star_rejected :
    parseListeners (refNet "linux" []) ["*:12345"]
      = ([], [], some "'*' is not a valid IP address") ∧
    parseListeners (refNet "linux" []) [":12345", "*:12345"]
      = ([], [], some "'*' is not a valid IP address") ∧
    parseListeners (refNet "linux" []) ["[::ffff:a00:1]:12345"]
      = (["[::ffff:a00:1]:12345"], [], none) := by
  decide

/-- How the three tests read an address whose host is empty or `*` on
plan9. -/
theorem Net.reads_both (net : Net) (addr host port : String)
    (hsplit : net.splitHostPort addr = .ok (host, port))
    (hboth : host = "" ∨ (host = "*" ∧ net.goos = "plan9")) :
    net.accepts addr = true ∧ net.listedIPv4 addr = true ∧ net.listedIPv6 addr = true := by
  unfold Net.accepts Net.listedIPv4 Net.listedIPv6
  rcases hboth with hb | hb <;> simp [hsplit, hb]

/-- How the three tests read an address with another host. -/
theorem Net.reads_other (net : Net) (addr host port : String)
    (hsplit : net.splitHostPort addr = .ok (host, port))
    (hboth : ¬ (host = "" ∨ (host = "*" ∧ net.goos = "plan9"))) :
    net.accepts addr = (net.parseIP host).isSome ∧
    net.listedIPv4 addr
      = (match net.parseIP host with
          | none => false
          | some ip => (net.to4 ip).isSome) ∧
    net.listedIPv6 addr
      = (match net.parseIP host with
          | none => false
          | some ip => (net.to4 ip).isNone) := by
  have hd : (decide (host = "") || decide (host = "*") && decide (net.goos = "plan9"))
      = false := by
    simp only [Bool.or_eq_false_iff, decide_eq_false_iff_not, Bool.and_eq_false_iff]
    refine ⟨fun x => hboth (Or.inl x), ?_⟩
    by_cases hs : host = "*"
    · exact Or.inr (fun y => hboth (Or.inr ⟨hs, y⟩))
    · exact Or.inl hs
  unfold Net.accepts Net.listedIPv4 Net.listedIPv6
  simp only [hsplit, hd, Bool.false_or]
  exact ⟨trivial, trivial, trivial⟩

/-- The loop of `parseListeners` on addresses it takes: each slice grows by
the addresses listed for it, in order. -/
theorem parseListeners.loop_accepts (net : Net) (addrs v4 v6 : List String)
    (h : ∀ addr ∈ addrs, net.accepts addr = true) :
    parseListeners.loop net addrs v4 v6
      = (v4 ++ addrs.filter net.listedIPv4, v6 ++ addrs.filter net.listedIPv6, none) := by
  induction addrs generalizing v4 v6 with
  | nil => simp [parseListeners.loop]
  | cons addr rest ih =>
    have hrest : ∀ a ∈ rest, net.accepts a = true := fun a ha => h a (List.mem_cons_of_mem _ ha)
    have hacc := h addr (List.mem_cons_self _ _)
    unfold parseListeners.loop
    cases hsplit : net.splitHostPort addr with
    | error e => simp [Net.accepts, hsplit] at hacc
    | ok hp =>
      obtain ⟨host, port⟩ := hp
      simp only
      by_cases hboth : host = "" ∨ (host = "*" ∧ net.goos = "plan9")
      · rw [if_pos hboth, ih _ _ hrest]
        obtain ⟨-, h4, h6⟩ := Net.reads_both net addr host port hsplit hboth
        simp [List.filter_cons, h4, h6]
      · rw [if_neg hboth]
        obtain ⟨ha, h4, h6⟩ := Net.reads_other net addr host port hsplit hboth
        cases hip : net.parseIP host with
        | none =>
          rw [ha, hip] at hacc
          simp at hacc
        | some ip =>
          rw [hip] at h4 h6
          simp only at h4 h6 ⊢
          cases h4ip : net.to4 ip with
          | none =>
            rw [h4ip] at h4 h6
            simp only [Option.isSome_none, Option.isNone_none] at h4 h6
            simp [ih _ _ hrest, List.filter_cons, h4, h6]
          | some four =>
            rw [h4ip] at h4 h6
            simp only [Option.isSome_some, Option.isNone_some] at h4 h6
            simp [ih _ _ hrest, List.filter_cons, h4, h6]

/-- The loop of `parseListeners` when it does not take one of the addresses:
it returns an error and nil slices. -/
theorem parseListeners.loop_rejects (net : Net) (addrs v4 v6 : List String)
    (h : ∃ addr ∈ addrs, net.accepts addr = false) :
    ∃ e, parseListeners.loop net addrs v4 v6 = ([], [], some e) := by
  induction addrs generalizing v4 v6 with
  | nil =>
    obtain ⟨addr, hmem, -⟩ := h
    simp at hmem
  | cons addr rest ih =>
    unfold parseListeners.loop
    cases hsplit : net.splitHostPort addr with
    | error e => exact ⟨e, rfl⟩
    | ok hp =>
      obtain ⟨host, port⟩ := hp
      simp only
      have hrest : net.accepts addr = true → ∃ a ∈ rest, net.accepts a = false := by
        intro hacc
        obtain ⟨a, hmem, ha⟩ := h
        rcases List.mem_cons.mp hmem with hm | hm
        · rw [hm, hacc] at ha
          exact absurd ha (by simp)
        · exact ⟨a, hm, ha⟩
      by_cases hboth : host = "" ∨ (host = "*" ∧ net.goos = "plan9")
      · rw [if_pos hboth]
        exact ih _ _ (hrest (Net.reads_both net addr host port hsplit hboth).1)
      · rw [if_neg hboth]
        cases hip : net.parseIP host with
        | none => exact ⟨_, rfl⟩
        | some ip =>
          have hacc : net.accepts addr = true := by
            rw [(Net.reads_other net addr host port hsplit hboth).1, hip]
            rfl
          simp only
          split
          · exact ih _ _ (hrest hacc)
          · exact ih _ _ (hrest hacc)

/-- C27, amended: `parseListeners` splits the listen addresses by family.
When every address of the list splits into host and port with a host that is
empty, or `*` on plan9, or the text of an IP address, the IPv4 slice is the
addresses whose host is empty, `*` on plan9, or an IP address for which `To4`
is not nil, the IPv6 slice is the addresses whose host is empty, `*` on
plan9, or an IP address for which `To4` is nil, each in input order and with
nothing else. When one address of the list is not of that kind (a host `*` off
plan9 that is not an IP address, a host name, no port), the call returns an
error and both slices nil. An address with an empty host, or `*` on plan9, is
listed for both families; with another host it is listed for IPv4 only or for
IPv6 only as `To4` decides. -/
theorem parseListeners_splits (net : Net) (addrs : List String) :
    ((∀ addr ∈ addrs, net.accepts addr = true) →
      parseListeners net addrs
        = (addrs.filter net.listedIPv4, addrs.filter net.listedIPv6, none)) ∧
    ((∃ addr ∈ addrs, net.accepts addr = false) →
      ∃ e, parseListeners net addrs = ([], [], some e)) ∧
    (∀ addr host port, net.splitHostPort addr = .ok (host, port) →
      (host = "" ∨ (host = "*" ∧ net.goos = "plan9") →
        net.accepts addr = true ∧ net.listedIPv4 addr = true ∧ net.listedIPv6 addr = true) ∧
      (¬ (host = "" ∨ (host = "*" ∧ net.goos = "plan9")) →
        (net.parseIP host = none → net.accepts addr = false) ∧
        (∀ ip, net.parseIP host = some ip →
          net.accepts addr = true ∧
          net.listedIPv4 addr = (net.to4 ip).isSome ∧
          net.listedIPv6 addr = (net.to4 ip).isNone))) := by
  refine ⟨?_, ?_, ?_⟩
  · intro h
    have := parseListeners.loop_accepts net addrs [] [] h
    simpa [parseListeners] using this
  · intro h
    exact parseListeners.loop_rejects net addrs [] [] h
  · intro addr host port hsplit
    refine ⟨Net.reads_both net addr host port hsplit, ?_⟩
    intro hboth
    obtain ⟨ha, h4, h6⟩ := Net.reads_other net addr host port hsplit hboth
    refine ⟨?_, ?_⟩
    · intro hip
      rw [ha, hip]
      rfl
    · intro ip hip
      rw [hip] at ha h4 h6
      exact ⟨ha, h4, h6⟩

/-- Witness of C27: five addresses on Linux. -/
theorem parseListeners_splits_witness :
    parseListeners (refNet "linux" [])
        [":12345", "0.0.0.0:1", "[::1]:2", "[::ffff:a00:1]:3", "10.0.0.1:4"]
      = ([":12345", "0.0.0.0:1", "[::ffff:a00:1]:3", "10.0.0.1:4"], [":12345", "[::1]:2"],
          none) :=
  (parseListeners_splits (refNet "linux" [])
    [":12345", "0.0.0.0:1", "[::1]:2", "[::ffff:a00:1]:3", "10.0.0.1:4"]).1 (by decide)

/-! ## Construction of the server -/

/-- C28 as the claim states it fails: on its own the address `0.0.0.0:12345`
is bound and `NewServer` succeeds; with the address `::1:bogus` after it in
the list, `parseListeners` fails on the second address, no listen is
attempted, and `NewServer` fails. -/
theorem NewServer_fails_on_malformed_address :
    NewServer (refNet "linux" []) ["0.0.0.0:12345"] "scomms.cert" "scomms.key"
      = .ok { listeners := [{ Network := "tcp4", Addr := "0.0.0.0:12345" }] } ∧
    parseListeners (refNet "linux" []) ["0.0.0.0:12345", "::1:bogus"]
      = ([], [], some "address ::1:bogus: too many colons in address") ∧
    NewServer (refNet "linux" []) ["0.0.0.0:12345", "::1:bogus"] "scomms.cert" "scomms.key"
      = .error "no valid listen address" := by
  decide

/-- A loop of `NewServer` keeps the listeners it starts from. -/
theorem NewServer.bind_keeps (net : Net) (network : String) (addrs : List String)
    (listeners : List Listener) (l : Listener) (h : l ∈ listeners) :
    l ∈ NewServer.bind net network addrs listeners := by
  induction addrs generalizing listeners with
  | nil => exact h
  | cons addr rest ih =>
    unfold NewServer.bind
    split
    · exact ih _ h
    · exact ih _ (List.mem_append_left _ h)

/-- A loop of `NewServer` binds every address of its slice on which listen
succeeds whenever that listener is not bound yet. -/
theorem NewServer.bind_binds (net : Net) (network : String) (addrs : List String)
    (listeners : List Listener) (addr : String) (hmem : addr ∈ addrs)
    (hfree : ∀ bound, { Network := network, Addr := addr } ∉ bound →
      net.listen bound network addr = none) :
    { Network := network, Addr := addr } ∈ NewServer.bind net network addrs listeners := by
  induction addrs generalizing listeners with
  | nil => simp at hmem
  | cons head rest ih =>
    unfold NewServer.bind
    rcases List.mem_cons.mp hmem with hm | hm
    · subst hm
      by_cases hin : { Network := network, Addr := addr } ∈ listeners
      · split
        · exact NewServer.bind_keeps net network rest _ _ hin
        · exact NewServer.bind_keeps net network rest _ _ (List.mem_append_left _ hin)
      · rw [hfree listeners hin]
        exact NewServer.bind_keeps net network rest _ _ (by simp)
    · split
      · exact ih _ hm
      · exact ih _ hm

/-- C28, amended: `NewServer` tolerates bind failures among addresses that
parse. With a key pair that loads: when every address of the list is one
`parseListeners` takes, `NewServer` succeeds with a non-empty listener set
whenever one address of the list can be bound on a network it is listed for
(listen succeeds on it unless that listener is bound already), whatever listen
does on the other addresses; `NewServer` fails only when no listener was
bound; and when one address of the list is not one `parseListeners` takes,
`NewServer` fails whatever the other addresses are. -/
theorem NewServer_tolerates_bind_failures (net : Net) (listenAddrs : List String)
    (cert key : String) (hkey : net.loadX509KeyPair cert key = none) :
    ((∀ addr ∈ listenAddrs, net.accepts addr = true) →
      ∀ addr ∈ listenAddrs,
        (net.listedIPv4 addr = true ∧
          ∀ bound, { Network := "tcp4", Addr := addr } ∉ bound →
            net.listen bound "tcp4" addr = none) ∨
        (net.listedIPv6 addr = true ∧
          ∀ bound, { Network := "tcp6", Addr := addr } ∉ bound →
            net.listen bound "tcp6" addr = none) →
        ∃ server, NewServer net listenAddrs cert key = .ok server ∧ server.listeners ≠ [] ∧
          ({ Network := "tcp4", Addr := addr } ∈ server.listeners ∨
            { Network := "tcp6", Addr := addr } ∈ server.listeners)) ∧
    (∀ e, NewServer net listenAddrs cert key = .error e →
      NewServer.bind net "tcp6" (parseListeners net listenAddrs).2.1
        (NewServer.bind net "tcp4" (parseListeners net listenAddrs).1 []) = []) ∧
    ((∃ addr ∈ listenAddrs, net.accepts addr = false) →
      ∃ e, NewServer net listenAddrs cert key = .error e) := by
  refine ⟨?_, ?_, ?_⟩
  · intro hall addr hmem hbind
    have hparse := (parseListeners.loop_accepts net listenAddrs [] [] hall)
    have hmemb : { Network := "tcp4", Addr := addr } ∈
          NewServer.bind net "tcp6" (parseListeners net listenAddrs).2.1
            (NewServer.bind net "tcp4" (parseListeners net listenAddrs).1 []) ∨
        { Network := "tcp6", Addr := addr } ∈
          NewServer.bind net "tcp6" (parseListeners net listenAddrs).2.1
            (NewServer.bind net "tcp4" (parseListeners net listenAddrs).1 []) := by
      unfold parseListeners
      rw [hparse]
      simp only [List.nil_append]
      rcases hbind with ⟨h4, hfree⟩ | ⟨h6, hfree⟩
      · left
        apply NewServer.bind_keeps
        exact NewServer.bind_binds net "tcp4" _ [] addr
          (List.mem_filter.mpr ⟨hmem, h4⟩) hfree
      · right
        exact NewServer.bind_binds net "tcp6" _ _ addr
          (List.mem_filter.mpr ⟨hmem, h6⟩) hfree
    have hne : NewServer.bind net "tcp6" (parseListeners net listenAddrs).2.1
          (NewServer.bind net "tcp4" (parseListeners net listenAddrs).1 []) ≠ [] := by
      intro hnil
      rw [hnil] at hmemb
      simp at hmemb
    refine ⟨Server.mk (NewServer.bind net "tcp6" (parseListeners net listenAddrs).2.1
          (NewServer.bind net "tcp4" (parseListeners net listenAddrs).1 [])), ?_, hne, hmemb⟩
    unfold NewServer
    simp [hkey, hne]
  · intro e he
    unfold NewServer at he
    simp only [hkey] at he
    by_contra hne
    simp [hne] at he
  · intro hbad
    obtain ⟨e, he⟩ := parseListeners.loop_rejects net listenAddrs [] [] hbad
    refine ⟨"no valid listen address", ?_⟩
    unfold NewServer parseListeners
    simp [hkey, he, NewServer.bind]

/-- Witness of C28: three addresses on Linux, the second of which is
in use; the listeners of the first and of the third are bound. -/
theorem NewServer_tolerates_bind_failures_witness :
    (refNet "linux" [{ Network := "tcp4", Addr := "0.0.0.0:80" }]).loadX509KeyPair
        "scomms.cert" "scomms.key" = none ∧
    NewServer (refNet "linux" [{ Network := "tcp4", Addr := "0.0.0.0:80" }])
        ["0.0.0.0:12345", "0.0.0.0:80", "[::1]:12345"] "scomms.cert" "scomms.key"
      = .ok { listeners := [{ Network := "tcp4", Addr := "0.0.0.0:12345" },
                            { Network := "tcp6", Addr := "[::1]:12345" }] } ∧
    ∃ server,
      NewServer (refNet "linux" [{ Network := "tcp4", Addr := "0.0.0.0:80" }])
          ["0.0.0.0:12345", "0.0.0.0:80", "[::1]:12345"] "scomms.cert" "scomms.key"
        = .ok server ∧ server.listeners ≠ [] ∧
      ({ Network := "tcp4", Addr := "0.0.0.0:12345" } ∈ server.listeners ∨
        { Network := "tcp6", Addr := "0.0.0.0:12345" } ∈ server.listeners) :=
  ⟨rfl, by decide,
    (NewServer_tolerates_bind_failures (refNet "linux" [{ Network := "tcp4", Addr := "0.0.0.0:80" }])
      ["0.0.0.0:12345", "0.0.0.0:80", "[::1]:12345"] "scomms.cert" "scomms.key" rfl).1
      (by decide) "0.0.0.0:12345" (by decide)
      (Or.inl ⟨by decide, fun bound hfree => by
        simp [refNet, hfree]⟩)⟩

/-! ## The spool: no limit on the size of a file -/

theorem Disk.writeFile_ok (disk d1 : Disk) (name : String) (data : List Nat)
    (h : disk.writeFile name data = (d1, none)) :
    ∃ elems, disk.resolve name = some elems ∧
      d1 = { disk with files := mapSet (absPath elems) data disk.files } := by
  unfold Disk.writeFile at h
  split at h
  · simp at h
  · rename_i elems hres
    split at h
    · simp at h
    · split at h
      · simp at h
      · simp only [Prod.mk.injEq, and_true] at h
        exact ⟨elems, hres, h.symm⟩

/-- A successful `serverSendFile` ends with the write of the content to the
target directory of the peer followed by a name (the one sent or a generated
one): the file that path resolves to holds the content in full, and that path
is the one reported to the UI. -/
theorem Core.serverSendFile_ok_stored (marshalMeta : MetaRecord → Lib (List Nat)) (now : Time)
    (core c1 : Core B) (disk d1 : Disk) (f : RpcSendFile) (peer : Option PublicIdentity)
    (h : Core.serverSendFile marshalMeta now core disk (some f) peer = (c1, d1, .ok ())) :
    ∃ (p : PublicIdentity) (name : String) (d4 : Disk) (elems : List String),
      peer = some p ∧
      d4.resolve (core.scommsDir ++ "/spool/" ++ p.Address ++ "/" ++ name) = some elems ∧
      d1 = { d4 with files := mapSet (absPath elems) f.Content d4.files } ∧
      mapGet (absPath elems) d1.files = some f.Content ∧
      c1 = core.popup "New message"
        ("You have received a message and it was saved in: " ++
          core.scommsDir ++ "/spool/" ++ p.Address ++ "/" ++ name ++ "\n") := by
  unfold Core.serverSendFile at h
  split at h
  · simp at h
  · rename_i p
    simp only at h
    split at h
    · simp at h
    · rename_i dm hmk
      split at h
      · simp at h
      · rename_i d2 filename hhint
        split at h
        · simp at h
        · rename_i d3 name huniq
          split at h
          · simp at h
          · rename_i metaJson hmeta
            split at h
            · simp at h
            · rename_i d4 hw1
              split at h
              · simp at h
              · rename_i d5 hw2
                simp only [Prod.mk.injEq, and_true] at h
                obtain ⟨elems, hres, hd5⟩ := Disk.writeFile_ok _ _ _ _ hw2
                refine ⟨p, name, d4, elems, rfl, hres, ?_, ?_, ?_⟩
                · rw [← h.2, hd5]
                · rw [← h.2, hd5]
                  exact mapGet_mapSet_self _ _ _
                · rw [← h.1]
                  simp [String.append_assoc]

/-- What `RpcReceive` does is the same whatever confirmation the session
holds. -/
theorem Session.RpcReceive_confirmation (lib : Ext B M) (s : Session B)
    (conf : Option Confirmation) :
    Session.RpcReceive lib { s with confirmation := conf }
      = ({ (Session.RpcReceive lib s).1 with confirmation := conf },
          (Session.RpcReceive lib s).2) := by
  obtain ⟨pid, peer, sid, speer, conn, confirmation, server, phase⟩ := s
  unfold Session.RpcReceive
  cases conn with
  | none => rfl
  | some c =>
    simp only
    repeat' split
    all_goals simp_all

/-- A successful `RpcReceive` has taken one frame off the connection. -/
theorem Session.RpcReceive_pending (lib : Ext B M) (s : Session B) (v : Payload)
    (h : (Session.RpcReceive lib s).2 = .ok v) :
    (Session.RpcReceive lib s).1.pending < s.pending := by
  unfold Session.RpcReceive at h ⊢
  cases hconn : s.conn with
  | none => simp [hconn] at h
  | some c =>
    simp only [hconn] at h ⊢
    have hlen : c.read.2 ≠ .error "use of closed network connection" →
        c.read.1.incoming.length < c.incoming.length := by
      unfold Conn.read
      cases hin : c.incoming with
      | nil => simp
      | cons r rest => simp
    have hread : ∀ frame, c.read.2 = .ok frame →
        c.read.1.incoming.length < c.incoming.length := by
      intro frame hf
      apply hlen
      rw [hf]
      simp
    cases hr : c.read.2 with
    | error e => simp [hr] at h
    | ok frame =>
      have := hread frame hr
      simp only [hr] at h ⊢
      repeat' split
      all_goals simp_all [Session.pending]

/-- The receive loop returns when it has one round more than there are frames
to deliver. -/
theorem Core.serverLoop_returns (lib : Ext B M) (marshalMeta : MetaRecord → Lib (List Nat))
    (now : Time) (fuel : Nat) (core : Core B) (disk : Disk) (s : Session B)
    (h : s.pending < fuel) :
    ∃ r, Core.serverLoop lib marshalMeta now fuel core disk s = some r := by
  induction fuel generalizing core disk s with
  | zero => omega
  | succ n ih =>
    unfold Core.serverLoop
    have hp := Session.RpcReceive_pending lib s
    rcases hrecv : Session.RpcReceive lib s with ⟨s1, r1⟩
    rw [hrecv] at hp
    cases r1 with
    | err e => exact ⟨_, rfl⟩
    | panic => exact ⟨_, rfl⟩
    | ok v =>
      have hlt : s1.pending < n := by
        have := hp v rfl
        simp only at this
        omega
      cases v with
      | sendFile command =>
        simp only
        split
        · exact ⟨_, rfl⟩
        · exact ih _ _ _ hlt
      | publicIdentity p => exact ih _ _ _ hlt
      | confirmation c => exact ih _ _ _ hlt
      | other t => exact ih _ _ _ hlt

/-- The receive loop does the same whatever confirmation the session holds:
only the confirmation of the session it returns differs. -/
theorem Core.serverLoop_confirmation (lib : Ext B M)
    (marshalMeta : MetaRecord → Lib (List Nat)) (now : Time) (fuel : Nat) (core : Core B)
    (disk : Disk) (s : Session B) (conf : Option Confirmation) :
    Core.serverLoop lib marshalMeta now fuel core disk { s with confirmation := conf }
      = (Core.serverLoop lib marshalMeta now fuel core disk s).map
          (fun r => (r.1, r.2.1, { r.2.2.1 with confirmation := conf }, r.2.2.2)) := by
  induction fuel generalizing core disk s with
  | zero => rfl
  | succ n ih =>
    unfold Core.serverLoop
    rw [Session.RpcReceive_confirmation]
    rcases hrecv : Session.RpcReceive lib s with ⟨s1, r1⟩
    cases r1 with
    | err e => rfl
    | panic => rfl
    | ok v =>
      cases v with
      | sendFile command =>
        simp only
        split
        · rfl
        · exact ih _ _ _
      | publicIdentity p => exact ih _ _ _
      | confirmation c => exact ih _ _ _
      | other t => exact ih _ _ _

/-- Bob's server run on an inbound session in which Alice asks for frames of 4
bytes and then sends `note.txt` with any content: the session is in the Message
phase with her confirmation, the content is in the spool, the UI is told, and
the loop ends when the connection has nothing left. -/
theorem Core.ServerCallback_stores_any_content (content : List Nat) :
    (Core.ServerCallback symLib refMarshalMeta 9 (some bobSid, none) bobNode bobDisk
        (Session.fresh true (serverConnWithFiles aliceAsksTinyFrames
          [{ helloNote with Content := content }]))).map
        (fun r => (r.2.1.files, r.2.2.1.phase, r.2.2.1.confirmation, r.1.events, r.2.2.2))
      = some
          ([("/home/bob/scomms/scomms.id", [1, 2, 3]),
            ("/home/bob/scomms/spool/alice@localhost/note.txt.meta", plainMeta),
            ("/home/bob/scomms/spool/alice@localhost/note.txt", content)],
          phaseMessage, some aliceAsksTinyFrames,
          [.toUi (.popup "New message"
            ("You have received a message and it was saved in: " ++
              "/home/bob/scomms/spool/alice@localhost/note.txt\n"))],
          .err "ServerCallback RpcReceive use of closed network connection") := by
  rfl

/-- C21 as the claim states it fails: Alice's confirmation asks for frames of
4 bytes and the confirmation Bob's server sends has 10485760; the session
reaches the Message phase, a `sendfile` with 10485761 bytes of content is
received, and `ServerCallback` writes all of them to the spool and reports the
file; so it does with the five bytes of `hello`. -/
theorem Core.ServerCallback_writes_oversized_file :
    aliceAsksTinyFrames.MaxFrameSize = 4 ∧ serverConfirmation.MaxFrameSize = 10485760 ∧
    (List.replicate 10485761 0).length = 10485761 ∧
    (Core.ServerCallback symLib refMarshalMeta 9 (some bobSid, none) bobNode bobDisk
        (Session.fresh true (serverConnWithFiles aliceAsksTinyFrames
          [{ helloNote with Content := List.replicate 10485761 0 }]))).map
        (fun r => (r.2.1.files, r.2.2.1.phase, r.2.2.1.confirmation, r.1.events, r.2.2.2))
      = some
          ([("/home/bob/scomms/scomms.id", [1, 2, 3]),
            ("/home/bob/scomms/spool/alice@localhost/note.txt.meta", plainMeta),
            ("/home/bob/scomms/spool/alice@localhost/note.txt", List.replicate 10485761 0)],
          phaseMessage, some aliceAsksTinyFrames,
          [.toUi (.popup "New message"
            ("You have received a message and it was saved in: " ++
              "/home/bob/scomms/spool/alice@localhost/note.txt\n"))],
          .err "ServerCallback RpcReceive use of closed network connection") ∧
    (Core.ServerCallback symLib refMarshalMeta 9 (some bobSid, none) bobNode bobDisk
        (Session.fresh true (serverConnWithFiles aliceAsksTinyFrames
          [{ helloNote with Content := [104, 101, 108, 108, 111] }]))).map
        (fun r => (r.2.1.files, r.2.2.1.phase, r.2.2.1.confirmation, r.1.events, r.2.2.2))
      = some
          ([("/home/bob/scomms/scomms.id", [1, 2, 3]),
            ("/home/bob/scomms/spool/alice@localhost/note.txt.meta", plainMeta),
            ("/home/bob/scomms/spool/alice@localhost/note.txt", [104, 101, 108, 108, 111])],
          phaseMessage, some aliceAsksTinyFrames,
          [.toUi (.popup "New message"
            ("You have received a message and it was saved in: " ++
              "/home/bob/scomms/spool/alice@localhost/note.txt\n"))],
          .err "ServerCallback RpcReceive use of closed network connection") :=
  ⟨rfl, rfl, List.length_replicate _ _,
    Core.ServerCallback_stores_any_content (List.replicate 10485761 0),
    Core.ServerCallback_stores_any_content [104, 101, 108, 108, 111]⟩

/-- C21, amended: `max_frame_size` is not enforced on receive. The receive
loop of `ServerCallback` hands every `sendfile` it receives to
`serverSendFile`, whatever the length of the content; what the loop writes,
reports and returns is the same whatever confirmation the session holds (only
the confirmation of the session returned differs); the loop returns when it has
one round more than there are frames to deliver; and a `serverSendFile` that
succeeds has written the content in full, whatever its length, to the file
named by the target directory of the peer followed by the name sent or
generated, the path it reports to the UI. -/
theorem Core.serverLoop_no_frame_limit (lib : Ext B M)
    (marshalMeta : MetaRecord → Lib (List Nat)) (now : Time) :
    (∀ fuel core disk (s s1 : Session B) f,
      Session.RpcReceive lib s = (s1, .ok (.sendFile f)) →
      Core.serverLoop lib marshalMeta now (fuel + 1) core disk s
        = match Core.serverSendFile marshalMeta now core disk f s1.peer with
          | (c1, d1, .panic) => some (c1, d1, s1, .panic)
          | (c1, d1, _) => Core.serverLoop lib marshalMeta now fuel c1 d1 s1) ∧
    (∀ fuel core disk (s : Session B) conf,
      Core.serverLoop lib marshalMeta now fuel core disk { s with confirmation := conf }
        = (Core.serverLoop lib marshalMeta now fuel core disk s).map
            (fun r => (r.1, r.2.1, { r.2.2.1 with confirmation := conf }, r.2.2.2))) ∧
    (∀ fuel core disk (s : Session B), s.pending < fuel →
      ∃ r, Core.serverLoop lib marshalMeta now fuel core disk s = some r) ∧
    (∀ (core c1 : Core B) disk d1 f peer,
      Core.serverSendFile marshalMeta now core disk (some f) peer = (c1, d1, .ok ()) →
      ∃ (p : PublicIdentity) (name : String) (d4 : Disk) (elems : List String),
        peer = some p ∧
        d4.resolve (core.scommsDir ++ "/spool/" ++ p.Address ++ "/" ++ name) = some elems ∧
        d1 = { d4 with files := mapSet (absPath elems) f.Content d4.files } ∧
        mapGet (absPath elems) d1.files = some f.Content ∧
        c1 = core.popup "New message"
          ("You have received a message and it was saved in: " ++
            core.scommsDir ++ "/spool/" ++ p.Address ++ "/" ++ name ++ "\n")) := by
  refine ⟨?_, ?_, ?_, ?_⟩
  · intro fuel core disk s s1 f hrecv
    rw [Core.serverLoop, hrecv]
  · intro fuel core disk s conf
    exact Core.serverLoop_confirmation lib marshalMeta now fuel core disk s conf
  · intro fuel core disk s h
    exact Core.serverLoop_returns lib marshalMeta now fuel core disk s h
  · intro core c1 disk d1 f peer h
    exact Core.serverSendFile_ok_stored marshalMeta now core c1 disk d1 f peer h

/-- Witness of C21: the five bytes of `hello` from Alice on Bob's file
system are in the file `note.txt` of her spool directory. -/
theorem Core.serverLoop_no_frame_limit_witness :
    mapGet "/home/bob/scomms/spool/alice@localhost/note.txt"
        (Core.serverSendFile refMarshalMeta 9 bobNode bobDisk (some helloNote)
          (some alice.PublicIdentity)).2.1.files
      = some helloNote.Content ∧
    ∃ (p : PublicIdentity) (name : String) (d4 : Disk) (elems : List String),
      some alice.PublicIdentity = some p ∧
      d4.resolve (bobNode.scommsDir ++ "/spool/" ++ p.Address ++ "/" ++ name) = some elems ∧
      (Core.serverSendFile refMarshalMeta 9 bobNode bobDisk (some helloNote)
          (some alice.PublicIdentity)).2.1
        = { d4 with files := mapSet (absPath elems) helloNote.Content d4.files } ∧
      mapGet (absPath elems)
          (Core.serverSendFile refMarshalMeta 9 bobNode bobDisk (some helloNote)
            (some alice.PublicIdentity)).2.1.files
        = some helloNote.Content ∧
      (Core.serverSendFile refMarshalMeta 9 bobNode bobDisk (some helloNote)
          (some alice.PublicIdentity)).1
        = bobNode.popup "New message"
          ("You have received a message and it was saved in: " ++
            bobNode.scommsDir ++ "/spool/" ++ p.Address ++ "/" ++ name ++ "\n") :=
  ⟨by decide,
    (Core.serverLoop_no_frame_limit symLib refMarshalMeta 9).2.2.2 bobNode _ bobDisk _ helloNote
      (some alice.PublicIdentity) rfl⟩

/-! ## The spool: the name of the file -/

/-- C25 at the failing input: Alice sends a file named `../../scomms.id`. The name is
used as it is: `serverSendFile` writes the content over Bob's identity file
`/home/bob/scomms/scomms.id` and the sidecar next to it, two directories above
Alice's spool directory, and nothing into the spool. -/
theorem Core.serverSendFile_writes_outside_spool :
    climbingNote.Filename = "../../scomms.id" ∧
    mapGet "/home/bob/scomms/scomms.id" bobDisk.files = some [1, 2, 3] ∧
    (Core.serverSendFile refMarshalMeta 9 bobNode bobDisk (some climbingNote)
        (some alice.PublicIdentity)).2
      = ({ cwd := ["home", "bob"],
           dirs := ["/home", "/home/bob", "/home/bob/scomms", "/home/bob/scomms/spool",
                    "/home/bob/scomms/spool/alice@localhost"],
           files := [("/home/bob/scomms/scomms.id", [104, 101, 108, 108, 111]),
                     ("/home/bob/scomms/scomms.id.meta", plainMeta)],
           random := ["123456", "654321"] }, .ok ()) ∧
    (Core.serverSendFile refMarshalMeta 9 bobNode bobDisk (some climbingNote)
        (some alice.PublicIdentity)).1.events
      = [.toUi (.popup "New message"
          ("You have received a message and it was saved in: " ++
            "/home/bob/scomms/spool/alice@localhost/../../scomms.id\n"))] ∧
    (Core.ServerCallback symLib refMarshalMeta 9 (some bobSid, none) bobNode bobDisk
        (Session.fresh true (serverConnWithFiles aliceLooksForBob [climbingNote]))).map
        (fun r => r.2.1.files)
      = some [("/home/bob/scomms/scomms.id", [104, 101, 108, 108, 111]),
              ("/home/bob/scomms/scomms.id.meta", plainMeta)] := by
  decide

/-- C26 at the failing input: Bob's spool holds `note.txt` from Alice with the
content `old`, and she sends `note.txt` again. The duplicate is looked for
with `os.Stat("note.txt")`, in the working directory of the process, where
there is no such file: no name is generated and the content of the file in the
spool is replaced. A file `note.txt` in the working directory does start the
rename, and then the file in the spool is left alone. -/
theorem Core.serverSendFile_overwrites_existing_file :
    mapGet "/home/bob/scomms/spool/alice@localhost/note.txt" bobDiskWithNote.files
      = some [111, 108, 100] ∧
    bobDiskWithNote.stat "/home/bob/scomms/spool/alice@localhost/note.txt" = none ∧
    bobDiskWithNote.stat "note.txt" = some "stat note.txt: no such file or directory" ∧
    (Core.serverSendFile refMarshalMeta 9 bobNode bobDiskWithNote (some helloNote)
        (some alice.PublicIdentity)).2
      = ({ bobDiskWithNote with
           files := [("/home/bob/scomms/scomms.id", [1, 2, 3]),
                     ("/home/bob/scomms/spool/alice@localhost/note.txt",
                       [104, 101, 108, 108, 111]),
                     ("/home/bob/scomms/spool/alice@localhost/note.txt.meta", plainMeta)] },
          .ok ()) ∧
    (Core.serverSendFile refMarshalMeta 9 bobNode bobDiskNoteInCwd (some helloNote)
        (some alice.PublicIdentity)).2
      = ({ bobDiskNoteInCwd with
           files := [("/home/bob/scomms/scomms.id", [1, 2, 3]),
                     ("/home/bob/scomms/spool/alice@localhost/note.txt", [111, 108, 100]),
                     ("/home/bob/note.txt", [7]),
                     ("/home/bob/scomms/spool/alice@localhost/note.txt123456",
                       [104, 101, 108, 108, 111]),
                     ("/home/bob/scomms/spool/alice@localhost/note.txt123456.meta", plainMeta)],
           random := ["654321"] }, .ok ()) := by
  decide

/-- Whatever the name a peer sends, when it is not empty and `os.Stat` does
not find it from the working directory, `serverSendFile` writes the sidecar and
the content to the target directory followed by the name as it was sent. -/
theorem Core.serverSendFile_name_as_sent (marshalMeta : MetaRecord → Lib (List Nat))
    (now : Time) (core : Core B) (disk d1 : Disk) (f : RpcSendFile) (p : PublicIdentity)
    (metaJson : List Nat) (e : String)
    (hname : f.Filename ≠ "")
    (hmkdir : disk.mkdirAll (core.scommsDir ++ "/spool/" ++ p.Address ++ "/") = (d1, none))
    (hstat : d1.stat f.Filename = some e)
    (hmeta : marshalMeta { Version := 1, Mime := f.Mime, Created := now } = .ok metaJson)
    (hsidecar : (d1.writeFile
      (core.scommsDir ++ "/spool/" ++ p.Address ++ "/" ++ f.Filename ++ ".meta") metaJson).2
        = none)
    (hcontent : ((d1.writeFile
      (core.scommsDir ++ "/spool/" ++ p.Address ++ "/" ++ f.Filename ++ ".meta") metaJson).1.writeFile
        (core.scommsDir ++ "/spool/" ++ p.Address ++ "/" ++ f.Filename) f.Content).2 = none) :
    (Core.serverSendFile marshalMeta now core disk (some f) (some p)).2
      = (((d1.writeFile
            (core.scommsDir ++ "/spool/" ++ p.Address ++ "/" ++ f.Filename ++ ".meta")
            metaJson).1.writeFile
          (core.scommsDir ++ "/spool/" ++ p.Address ++ "/" ++ f.Filename) f.Content).1,
        .ok ()) := by
  unfold Core.serverSendFile
  simp only [hmkdir, hname, if_false, hstat, hmeta]
  rcases hw1 : d1.writeFile
    (core.scommsDir ++ "/spool/" ++ p.Address ++ "/" ++ f.Filename ++ ".meta") metaJson
    with ⟨d4, r4⟩
  rw [hw1] at hsidecar hcontent
  simp only at hsidecar hcontent
  subst hsidecar
  simp only
  rcases hw2 : d4.writeFile (core.scommsDir ++ "/spool/" ++ p.Address ++ "/" ++ f.Filename)
    f.Content with ⟨d5, r5⟩
  rw [hw2] at hcontent
  simp only at hcontent
  subst hcontent
  rfl

/-- `ServerCallback` returns on every connection script: the handshake ends,
and the receive loop has one round more than there are frames to deliver. -/
theorem Core.ServerCallback_returns (lib : Ext B M) (marshalMeta : MetaRecord → Lib (List Nat))
    (now : Time) (newId : Option Identity × Option String) (core : Core B) (disk : Disk)
    (s : Session B) :
    ∃ r, Core.ServerCallback lib marshalMeta now newId core disk s = some r := by
  unfold Core.ServerCallback
  rcases Core.serverHandshake lib now newId core s with ⟨c1, s1, r1⟩
  cases r1 with
  | ok u =>
    exact Core.serverLoop_returns lib marshalMeta now _ c1 disk s1 (Nat.lt_succ_self _)
  | err e => exact ⟨_, rfl⟩
  | panic => exact ⟨_, rfl⟩

/-- The same with a name that does not exist yet, so that no permission of an
existing file is in the way: Alice sends `../../planted.txt`, and both the
sidecar and the content are created in the directory of the node, two
directories above her spool directory. -/
theorem Core.serverSendFile_plants_file_outside_spool :
    (Core.serverSendFile refMarshalMeta 9 bobNode bobDisk (some plantedNote)
        (some alice.PublicIdentity)).2
      = ({ cwd := ["home", "bob"],
           dirs := ["/home", "/home/bob", "/home/bob/scomms", "/home/bob/scomms/spool",
                    "/home/bob/scomms/spool/alice@localhost"],
           files := [("/home/bob/scomms/scomms.id", [1, 2, 3]),
                     ("/home/bob/scomms/planted.txt.meta", plainMeta),
                     ("/home/bob/scomms/planted.txt", [104, 101, 108, 108, 111])],
           random := ["123456", "654321"] }, .ok ()) := by
  decide

end Scomms
